import Mathlib

/-!
Shallow embedding of the go-tw-his-parser format-detection and normalization
engine, for checking the repository's natural-language specification.

Modelling conventions:
* Go strings are modelled as `List Char` (`GoStr`).  All concrete inputs used
  in witnesses and counterexamples are ASCII or fixed CJK literals, where Go's
  byte-level indexing and the char-level model agree on the operations used.
* Go byte slices (`[]byte`) are modelled as `List Nat` (`GoBytes`).
* Go `int` is modelled as `Int` (no claim exercises 64-bit overflow).
* Go `float64` values are modelled symbolically (`GoFloat`): no claim
  constrains floating-point arithmetic, so a parsed float is represented by
  the trimmed source text handed to `strconv.ParseFloat`, and `+=` on floats
  builds a formal sum.
* Go maps used for deduplication are modelled as insertion-ordered
  association lists; the Go code iterates maps in unspecified order when
  emitting result slices, and every property proved below is independent of
  that emission order.
-/

namespace GoTwHis

abbrev GoStr := List Char

/-- Convert a Lean string literal to the Go-string model. -/
def gs (s : String) : GoStr := s.data

/-- `unicode.IsSpace` restricted to the ASCII white-space characters used by
the inputs in play (space, tab, newline, vertical tab, form feed, carriage
return). -/
def goIsSpace (c : Char) : Bool :=
  c = ' ' || c = '\t' || c = '\n' || c = '\r' || c.toNat = 11 || c.toNat = 12

/-- `strings.TrimSpace`. -/
def goTrimSpace (l : GoStr) : GoStr :=
  ((l.dropWhile goIsSpace).reverse.dropWhile goIsSpace).reverse

/-- ASCII `strings.ToLower` on one character. -/
def goToLowerChar (c : Char) : Char :=
  if 'A' ≤ c ∧ c ≤ 'Z' then Char.ofNat (c.toNat + 32) else c

/-- ASCII `strings.ToUpper` on one character. -/
def goToUpperChar (c : Char) : Char :=
  if 'a' ≤ c ∧ c ≤ 'z' then Char.ofNat (c.toNat - 32) else c

/-- `strings.ToLower`. -/
def goToLower (l : GoStr) : GoStr := l.map goToLowerChar

/-- `strings.ToUpper`. -/
def goToUpper (l : GoStr) : GoStr := l.map goToUpperChar

/-- `strings.HasPrefix`. -/
def goHasPrefix (s pre : GoStr) : Bool := pre.isPrefixOf s

/-- `strings.HasSuffix`. -/
def goHasSuffix (s suf : GoStr) : Bool := suf.isSuffixOf s

/-- `strings.Contains`. -/
def goContains : GoStr → GoStr → Bool
  | [], sub => sub.isEmpty
  | s@(_ :: t), sub => sub.isPrefixOf s || goContains t sub

/-- `strings.Split` on a one-character separator. -/
def goSplit : GoStr → Char → List GoStr
  | [], _ => [[]]
  | c :: t, sep =>
    match goSplit t sep with
    | [] => [[c]]
    | h :: r => if c = sep then [] :: h :: r else (c :: h) :: r

/-- `bufio.ScanLines` drops one trailing carriage return from each line. -/
def dropCR (l : GoStr) : GoStr := if l.getLast? = some '\r' then l.dropLast else l

/-- The sequence of lines produced by a `bufio.Scanner` with the default
split function: split at newlines, drop a final empty token, strip one
trailing `\r` per line. -/
def goLines (s : GoStr) : List GoStr :=
  let p := goSplit s '\n'
  (if p.getLast? = some [] then p.dropLast else p).map dropCR

/-- Value of a non-empty all-digit string, `none` otherwise. -/
def decDigits (l : GoStr) : Option Nat :=
  if l.isEmpty then none
  else if l.all Char.isDigit then
    some (l.foldl (fun acc c => 10 * acc + (c.toNat - 48)) 0)
  else none

/-- `strconv.Atoi`: optional sign followed by at least one digit.  Overflow
clamping of values beyond 64 bits is not modelled (no claim reaches it). -/
def goAtoi (l : GoStr) : Option Int :=
  match l with
  | [] => none
  | c :: t =>
    if c = '+' then (decDigits t).map Int.ofNat
    else if c = '-' then (decDigits t).map (fun n => -(n : Int))
    else (decDigits (c :: t)).map Int.ofNat

/-- `n, _ := strconv.Atoi(s)`: the parse-failure value is 0. -/
def goAtoiD (l : GoStr) : Int := (goAtoi l).getD 0

/-- Decimal rendering of an integer (`fmt` `%d`). -/
def goItoa (n : Int) : GoStr := (toString n).data

/-- `fmt.Sprintf("%04d", n)`: zero-pad to width 4, sign included in the
width. -/
def pad4 (n : Int) : GoStr :=
  let ds := (toString n.natAbs).data
  if n < 0 then '-' :: (List.replicate (3 - ds.length) '0' ++ ds)
  else List.replicate (4 - ds.length) '0' ++ ds

/-- `convertROCDate` (part_000, lines 1479-1498): 民國-era `YYYMMDD` to
ISO `YYYY-MM-DD`; too-short input or a non-numeric era year gives `""`. -/
def convertROCDate (rocDate : GoStr) : GoStr :=
  if rocDate.length < 7 then []
  else
    let yearStr := rocDate.take 3
    let monthStr := (rocDate.drop 3).take 2
    let dayStr := (rocDate.drop 5).take 2
    match goAtoi yearStr with
    | none => []
    | some year => pad4 (year + 1911) ++ ('-' :: monthStr) ++ ('-' :: dayStr)

/-- `safeSubstring` (part_000, lines 848-859): clamp `start` up to 0 and
`stop` down to the length, return `""` unless `start < stop`. -/
def safeSubstring (s : GoStr) (start stop : Int) : GoStr :=
  let start := if start < 0 then 0 else start
  let stop := if stop > (s.length : Int) then (s.length : Int) else stop
  if start ≥ stop then []
  else (s.drop start.toNat).take (stop - start).toNat

abbrev GoBytes := List Nat

/-- Loop body of the UTF-8 validation scan of `detectBig5` (part_000, lines
1520-1556), structurally recursive on a fuel count so that it reduces in the
kernel.  Each iteration consumes at least one byte, so `fuel := length` never
runs out; the `0` case is unreachable. -/
def utf8ScanF : Nat → GoBytes → Nat × Nat
  | 0, _ => (0, 0)
  | _, [] => (0, 0)
  | fuel + 1, b :: rest =>
    if b < 0x80 then utf8ScanF fuel rest
    else if 0xE0 ≤ b ∧ b ≤ 0xEF ∧ 2 ≤ rest.length then
      -- `i+2 < len(content)` holds and both continuation bytes are checked;
      -- a failed continuation falls through past the 2-byte test
      -- (impossible for 0xE0-0xEF) to the invalid case, i += 1
      match rest with
      | b2 :: b3 :: rest2 =>
        if b2 &&& 0xC0 = 0x80 ∧ b3 &&& 0xC0 = 0x80 then
          let p := utf8ScanF fuel rest2
          (p.1 + 1, p.2)
        else
          let p := utf8ScanF fuel rest
          (p.1, p.2 + 1)
      | _ =>
        let p := utf8ScanF fuel rest
        (p.1, p.2 + 1)
    else if 0xC0 ≤ b ∧ b ≤ 0xDF ∧ 1 ≤ rest.length then
      match rest with
      | b2 :: rest2 =>
        if b2 &&& 0xC0 = 0x80 then
          let p := utf8ScanF fuel rest2
          (p.1 + 1, p.2)
        else
          let p := utf8ScanF fuel rest
          (p.1, p.2 + 1)
      | [] =>
        let p := utf8ScanF fuel rest
        (p.1, p.2 + 1)
    else
      let p := utf8ScanF fuel rest
      (p.1, p.2 + 1)

/-- The UTF-8 validation loop of `detectBig5`:
(valid two/three-byte sequence count, invalid byte count). -/
def utf8Scan (content : GoBytes) : Nat × Nat := utf8ScanF content.length content

/-- Loop body of the Big5 lead/trail pair count, fuelled like `utf8ScanF`. -/
def big5ScanF : Nat → GoBytes → Nat
  | 0, _ => 0
  | _, [] => 0
  | _, [_] => 0
  | fuel + 1, b1 :: b2 :: rest =>
    if (0x81 ≤ b1 ∧ b1 ≤ 0xFE) ∧ ((0x40 ≤ b2 ∧ b2 ≤ 0x7E) ∨ (0xA1 ≤ b2 ∧ b2 ≤ 0xFE)) then
      big5ScanF fuel rest + 1
    else
      big5ScanF fuel (b2 :: rest)

/-- The Big5 lead/trail pair counting loop of `detectBig5`
(part_000, lines 1564-1574). -/
def big5Scan (content : GoBytes) : Nat := big5ScanF content.length content

/-- `detectBig5` (part_000, lines 1517-1577). -/
def detectBig5 (content : GoBytes) : Bool :=
  let counts := utf8Scan content
  if 5 < counts.1 ∧ counts.2 < counts.1 / 10 then false
  else decide (5 < big5Scan content)

/-- `HISVendor` (vendor_dispatcher.go, lines 12-21). -/
inductive HISVendor where
  | auto | nhi | yaosheng | vision | drmaster | generic
deriving DecidableEq, Repr

/-- `detectVendor` (vendor_dispatcher.go, lines 118-196).  `content` is the
decoded text of the buffer (`contentStr := string(content)`). -/
def detectVendor (content : GoStr) (filename : GoStr) : HISVendor :=
  let lowerFilename := goToLower filename
  if goContains lowerFilename (gs "yaosheng") || goContains lowerFilename (gs "耀聖") ||
     goContains lowerFilename (gs "ys_") then .yaosheng
  else if goContains lowerFilename (gs "vision") || goContains lowerFilename (gs "展望") ||
     goContains lowerFilename (gs "vs_") then .vision
  else if goContains lowerFilename (gs "drmaster") || goContains lowerFilename (gs "看診大師") ||
     goContains lowerFilename (gs "dm_") then .drmaster
  else if goHasSuffix lowerFilename (gs ".dat") then .yaosheng
  else if goContains content (gs "|") && !goContains content (gs ",") then .drmaster
  else if goContains content (gs "<?xml") || goContains content (gs "<RECS>") then
    if goContains content (gs "<d23>") || goContains content (gs "<d24>") then .drmaster
    else if goContains content (gs "<d22>") then .vision
    else .nhi
  else if goContains content (gs ",") then
    let firstLine := (goSplit content '\n').headI
    let firstChar := goTrimSpace firstLine
    if 0 < firstChar.length ∧ goToUpper [firstChar.headI] = gs "T" then .nhi
    else if goContains (goToLower firstLine) (gs "yaosheng") || goContains firstLine (gs "耀聖") then
      .yaosheng
    else if goContains (goToLower firstLine) (gs "vision") || goContains firstLine (gs "展望") then
      .vision
    else if goContains (goToLower firstLine) (gs "drmaster") || goContains firstLine (gs "看診大師") then
      .drmaster
    else .generic
  else .generic

/-! ## Canonical data model (part_000, lines 975-1037) -/

/-- Symbolic stand-in for Go `float64`: `lit s` is the value
`x, _ := strconv.ParseFloat(s, 64)` produced from source text `s`, `add`
is float addition.  No claim constrains float arithmetic, so float values
are kept as formal expressions. -/
inductive GoFloat where
  | zero
  | lit (s : GoStr)
  | add (a b : GoFloat)
deriving DecidableEq, Repr

/-- `x, _ := strconv.ParseFloat(s, 64)` (parse failure coerces to 0, which
the symbolic model does not need to distinguish). -/
def goParseFloat (s : GoStr) : GoFloat := .lit s

/-- `HISPatient` (part_000, lines 990-996). -/
structure HISPatient where
  nationalID : GoStr
  name : GoStr
  birthday : GoStr
  phone : GoStr
  cardNumber : GoStr
deriving DecidableEq, Repr

/-- Go zero value of `HISPatient`. -/
def HISPatient.empty : HISPatient := ⟨[], [], [], [], []⟩

instance : Inhabited HISPatient := ⟨HISPatient.empty⟩

/-- `HISPrescriptionItem` (part_000, lines 1019-1028). -/
structure HISPrescriptionItem where
  orderType : GoStr
  drugCode : GoStr
  drugName : GoStr
  frequency : GoStr
  route : GoStr
  quantity : GoFloat
  daysSupply : Int
  unitPrice : GoFloat
deriving DecidableEq, Repr

/-- Go zero value of `HISPrescriptionItem`. -/
def HISPrescriptionItem.empty : HISPrescriptionItem :=
  ⟨[], [], [], [], [], .zero, 0, .zero⟩

instance : Inhabited HISPrescriptionItem := ⟨HISPrescriptionItem.empty⟩

/-- `HISPrescription` (part_000, lines 999-1016). -/
structure HISPrescription where
  patientID : GoStr
  prescriptionNo : GoStr
  dispenseDate : GoStr
  dispenseTime : GoStr
  visitType : GoStr
  visitSequence : GoStr
  chronicRefillNo : Int
  providerCode : GoStr
  providerName : GoStr
  diagnosisCode : GoStr
  pharmacistID : GoStr
  pharmacistName : GoStr
  totalPoints : GoFloat
  copay : GoFloat
  dataFormat : GoStr
  items : List HISPrescriptionItem
deriving DecidableEq, Repr

/-- Go zero value of `HISPrescription`. -/
def HISPrescription.empty : HISPrescription :=
  ⟨[], [], [], [], [], [], 0, [], [], [], [], [], .zero, .zero, [], []⟩

instance : Inhabited HISPrescription := ⟨HISPrescription.empty⟩

/-- `HISDrugUsage` (part_000, lines 1031-1037). -/
structure HISDrugUsage where
  drugCode : GoStr
  drugName : GoStr
  totalQty : GoFloat
  dispenseCount : Int
  avgMonthlyQty : GoFloat
deriving DecidableEq, Repr

/-- `HISImportResult` (part_000, lines 975-987). -/
structure HISImportResult where
  success : Bool
  sourceType : GoStr
  sourceVendor : GoStr
  total : Int
  imported : Int
  skipped : Int
  failed : Int
  errors : List GoStr
  patients : List HISPatient
  prescriptions : List HISPrescription
  drugUsages : List HISDrugUsage
deriving DecidableEq, Repr

/-! ## Insertion-ordered association lists standing in for Go maps -/

/-- Go map read `m[k]`. -/
def lookupA {β : Type} : List (GoStr × β) → GoStr → Option β
  | [], _ => none
  | (k', v) :: t, k => if k' = k then some v else lookupA t k

/-- The `if _, exists := m[k]; !exists { m[k] = v }` idiom. -/
def insertIfAbsent {β : Type} (m : List (GoStr × β)) (k : GoStr) (v : β) :
    List (GoStr × β) :=
  if (lookupA m k).isSome then m else m ++ [(k, v)]

/-- Go map write `m[k] = v`: replaces an existing binding. -/
def setA {β : Type} : List (GoStr × β) → GoStr → β → List (GoStr × β)
  | [], k, v => [(k, v)]
  | (k', v') :: t, k, v => if k' = k then (k, v) :: t else (k', v') :: setA t k v

/-- In-place mutation of the value bound to `k` (e.g. `m[k].Items = append ...`). -/
def updateA {β : Type} : List (GoStr × β) → GoStr → (β → β) → List (GoStr × β)
  | [], _, _ => []
  | (k', v) :: t, k, f => if k' = k then (k', f v) :: t else (k', v) :: updateA t k f

/-- The values of a map, in insertion order (Go ranges over maps in
unspecified order; all properties proved below are order-independent). -/
def valuesA {β : Type} (m : List (GoStr × β)) : List β := m.map Prod.snd

/-! ## Shared CSV helpers (part_000) -/

/-- `parseCSVLine` accumulator: current field is kept reversed. -/
def parseCSVLineAux : GoStr → Bool → GoStr → List GoStr
  | [], _, field => [field.reverse]
  | r :: t, inQuotes, field =>
    if r = '"' then parseCSVLineAux t (!inQuotes) field
    else if r = ',' ∧ !inQuotes then field.reverse :: parseCSVLineAux t inQuotes []
    else parseCSVLineAux t inQuotes (r :: field)

/-- `parseCSVLine` (part_000, lines 1703-1722): comma split honouring
double-quote toggling. -/
def parseCSVLine (line : GoStr) : List GoStr := parseCSVLineAux line false []

/-- `getField` (part_000, lines 1725-1730). -/
def getField (fields : List GoStr) (index : Int) : GoStr :=
  if 0 ≤ index ∧ index < (fields.length : Int) then fields.getD index.toNat []
  else []

/-- `getFieldByKey` (part_000, lines 840-845).  The inline
`colMap[key]`-and-trim lookups of the generic extractors have the same
semantics and reuse this helper. -/
def getFieldByKey (fields : List GoStr) (colMap : List (GoStr × Nat))
    (key : GoStr) : GoStr :=
  match lookupA colMap key with
  | some idx => if idx < fields.length then goTrimSpace (fields.getD idx []) else []
  | none => []

/-- One header cell matches one synonym: lowercase/trim containment. -/
def headerMatches (h v : GoStr) : Bool :=
  goContains (goToLower (goTrimSpace h)) (goToLower v)

/-- Index of the last header cell matching a synonym of one canonical key.
In the Go loops every later matching column overwrites the map entry for the
key, so the final binding is the last matching index. -/
def lastMatchIdx (headers : List GoStr) (variants : List GoStr) : Option Nat :=
  ((headers.enum.filter (fun p => variants.any (fun v => headerMatches p.2 v))).getLast?).map
    Prod.fst

/-- Shared shape of the column-mapping builders: one binding per canonical
key that has a matching header cell. -/
def buildMapping (patterns : List (GoStr × List GoStr)) (headers : List GoStr) :
    List (GoStr × Nat) :=
  patterns.filterMap (fun p => (lastMatchIdx headers p.2).map (fun i => (p.1, i)))

/-! ## 耀聖 (Yaosheng) decoder (part_000, lines 313-859) -/

/-- Header keywords of `isYaoshengHeaderLine` (part_000, line 776). -/
def ysHeaderKeywords : List GoStr :=
  [gs "身分證", gs "姓名", gs "藥品", gs "日期", gs "代碼", gs "ID", gs "name", gs "drug"]

/-- `isYaoshengHeaderLine` (part_000, lines 771-790). -/
def isYaoshengHeaderLine (fields : List GoStr) : Bool :=
  if fields.length < 3 then false
  else
    2 ≤ fields.countP
      (fun f => ysHeaderKeywords.any (fun kw => goContains (goToLower f) (goToLower kw)))

/-- Synonym table of `buildYaoshengColumnMapping` (part_000, lines 796-806). -/
def ysPatterns : List (GoStr × List GoStr) :=
  [(gs "national_id", [gs "身分證", gs "身份證", gs "ID", gs "pid", gs "idno"]),
   (gs "name", [gs "姓名", gs "name", gs "patient"]),
   (gs "birthday", [gs "生日", gs "出生", gs "birthday", gs "dob"]),
   (gs "visit_date", [gs "就診日", gs "就診日期", gs "調劑日", gs "日期", gs "date"]),
   (gs "drug_code", [gs "藥品代碼", gs "藥碼", gs "健保碼", gs "code"]),
   (gs "drug_name", [gs "藥品名稱", gs "藥名", gs "drug"]),
   (gs "quantity", [gs "數量", gs "總量", gs "qty", gs "quantity"]),
   (gs "days", [gs "天數", gs "日份", gs "days"]),
   (gs "visit_type", [gs "就醫類別", gs "案件", gs "type"])]

/-- `buildYaoshengColumnMapping` (part_000, lines 793-821). -/
def buildYaoshengColumnMapping (headers : List GoStr) : List (GoStr × Nat) :=
  buildMapping ysPatterns headers

/-- `getYaoshengDefaultColumns` (part_000, lines 824-837). -/
def getYaoshengDefaultColumns : List (GoStr × Nat) :=
  [(gs "national_id", 0), (gs "name", 1), (gs "birthday", 2), (gs "visit_date", 3),
   (gs "drug_code", 4), (gs "drug_name", 5), (gs "quantity", 6), (gs "days", 7),
   (gs "visit_type", 8)]

/-- Mutable state of the `parseYaoshengDAT` loop (part_000, lines 548-646). -/
structure YsDATState where
  total : Int
  imported : Int
  failed : Int
  patientMap : List (GoStr × HISPatient)
  rxMap : List (GoStr × HISPrescription)
deriving Repr

/-- Loop body of `parseYaoshengDAT` for one scanned line. -/
def ysDATLine (st : YsDATState) (line : GoStr) : YsDATState :=
  if line.length < 10 then st
  else if [line.headI] = gs "2" then
    let st := { st with total := st.total + 1 }
    let nationalID := goTrimSpace (safeSubstring line 11 21)
    let name := goTrimSpace (safeSubstring line 21 41)
    let birthday := goTrimSpace (safeSubstring line 41 48)
    let visitDate := goTrimSpace (safeSubstring line 48 55)
    let drugCode := goTrimSpace (safeSubstring line 55 65)
    let drugName := goTrimSpace (safeSubstring line 65 105)
    let qtyStr := goTrimSpace (safeSubstring line 105 115)
    let daysStr := goTrimSpace (safeSubstring line 115 118)
    let st :=
      if nationalID ≠ [] then
        let patient : HISPatient :=
          { HISPatient.empty with
              nationalID := nationalID, name := name,
              birthday := if 7 ≤ birthday.length then convertROCDate birthday else [] }
        { st with patientMap := insertIfAbsent st.patientMap nationalID patient }
      else st
    let rxKey := nationalID ++ gs "-" ++ visitDate
    let st :=
      if (lookupA st.rxMap rxKey).isSome then st
      else
        { st with rxMap := st.rxMap ++ [(rxKey,
            { HISPrescription.empty with
                patientID := nationalID,
                prescriptionNo := gs "YS-" ++ nationalID ++ gs "-" ++ visitDate,
                dispenseDate := if 7 ≤ visitDate.length then convertROCDate visitDate else [] })] }
    let st :=
      if drugCode ≠ [] then
        { st with rxMap := updateA st.rxMap rxKey (fun rx =>
            { rx with items := rx.items ++ [{ HISPrescriptionItem.empty with
                orderType := gs "1", drugCode := drugCode, drugName := drugName,
                quantity := goParseFloat qtyStr, daysSupply := goAtoiD daysStr }] }) }
      else st
    { st with imported := st.imported + 1 }
  else st

/-- `parseYaoshengDAT` (part_000, lines 548-646). -/
def parseYaoshengDAT (content : GoStr) : HISImportResult :=
  let st := (goLines content).foldl ysDATLine ⟨0, 0, 0, [], []⟩
  { success := st.failed = 0, sourceType := gs "dat", sourceVendor := gs "yaosheng",
    total := st.total, imported := st.imported, skipped := 0, failed := st.failed,
    errors := [], patients := valuesA st.patientMap,
    prescriptions := valuesA st.rxMap, drugUsages := [] }

/-- Mutable state of the `parseYaoshengCSV` loop (part_000, lines 649-764). -/
structure YsCSVState where
  lineNum : Int
  colMap : List (GoStr × Nat)
  total : Int
  imported : Int
  failed : Int
  patientMap : List (GoStr × HISPatient)
  rxMap : List (GoStr × HISPrescription)
deriving Repr

/-- The patient built from one Yaosheng CSV data row (part_000, lines
696-710): requires a non-blank trimmed identifier field. -/
def ysCSVPatient (colMap : List (GoStr × Nat)) (fields : List GoStr) :
    Option HISPatient :=
  let nationalID := getFieldByKey fields colMap (gs "national_id")
  let birthday := getFieldByKey fields colMap (gs "birthday")
  if nationalID ≠ [] then
    some
      { HISPatient.empty with
          nationalID := nationalID,
          name := getFieldByKey fields colMap (gs "name"),
          birthday :=
            if 7 ≤ birthday.length then convertROCDate birthday
            else if birthday ≠ [] then birthday else [] }
  else none

/-- The prescription identity key of one Yaosheng CSV data row (part_000,
lines 713-714): present only when both the identifier and the visit date
are non-blank. -/
def ysKeyOf (colMap : List (GoStr × Nat)) (fields : List GoStr) : Option GoStr :=
  let nationalID := getFieldByKey fields colMap (gs "national_id")
  let visitDate := getFieldByKey fields colMap (gs "visit_date")
  if nationalID ≠ [] ∧ visitDate ≠ [] then
    some (nationalID ++ gs "-" ++ visitDate)
  else none

/-- The prescription header created by the first row of a key (part_000,
lines 715-731), including the visit-type-08 chronic rule. -/
def ysRxInit (colMap : List (GoStr × Nat)) (fields : List GoStr) : HISPrescription :=
  let nationalID := getFieldByKey fields colMap (gs "national_id")
  let visitDate := getFieldByKey fields colMap (gs "visit_date")
  let visitType := getFieldByKey fields colMap (gs "visit_type")
  { HISPrescription.empty with
      patientID := nationalID,
      prescriptionNo := gs "YS-" ++ nationalID ++ gs "-" ++ visitDate,
      dispenseDate :=
        if visitDate.length = 7 then convertROCDate visitDate else visitDate,
      visitType := visitType,
      chronicRefillNo := if visitType = gs "08" then 1 else 0 }

/-- The drug item one Yaosheng CSV data row contributes (part_000, lines
734-743): present only when the drug-code field is non-blank. -/
def ysRowItem (colMap : List (GoStr × Nat)) (fields : List GoStr) :
    Option HISPrescriptionItem :=
  let drugCode := getFieldByKey fields colMap (gs "drug_code")
  if drugCode ≠ [] then
    some
      { HISPrescriptionItem.empty with
          orderType := gs "1", drugCode := drugCode,
          drugName := getFieldByKey fields colMap (gs "drug_name"),
          quantity := goParseFloat (getFieldByKey fields colMap (gs "quantity")),
          daysSupply := goAtoiD (getFieldByKey fields colMap (gs "days")) }
  else none

/-- The item-append update applied to a keyed prescription, shared by the
Yaosheng CSV decoder (part_000, lines 734-749), the DrMaster CSV decoder
(part_001, lines 490-505) and the DrMaster TXT `M` rows (part_001, lines
365-373): append the drug item, then apply the days-supply-≥28 chronic rule,
which never overwrites a non-zero counter. -/
def rxApplyItem (item : HISPrescriptionItem) (rx : HISPrescription) : HISPrescription :=
  let rx : HISPrescription := { rx with items := rx.items ++ [item] }
  if 28 ≤ item.daysSupply ∧ rx.chronicRefillNo = 0 then
    { rx with chronicRefillNo := 1 }
  else rx

/-- The prescription-map update of one Yaosheng CSV data row (part_000,
lines 712-750): create the keyed prescription if absent, then append the
row's drug item and apply the days-supply-≥28 chronic rule. -/
def ysRxStep (colMap : List (GoStr × Nat)) (m : List (GoStr × HISPrescription))
    (fields : List GoStr) : List (GoStr × HISPrescription) :=
  match ysKeyOf colMap fields with
  | none => m
  | some rxKey =>
    let m :=
      if (lookupA m rxKey).isSome then m
      else m ++ [(rxKey, ysRxInit colMap fields)]
    match ysRowItem colMap fields with
    | some item => updateA m rxKey (rxApplyItem item)
    | none => m

/-- Data-row processing of `parseYaoshengCSV` (part_000, lines 683-752),
after header handling has fixed the column map. -/
def ysCSVData (st : YsCSVState) (fields : List GoStr) : YsCSVState :=
  let st := { st with total := st.total + 1 }
  let st :=
    match ysCSVPatient st.colMap fields with
    | some patient =>
      { st with patientMap := insertIfAbsent st.patientMap patient.nationalID patient }
    | none => st
  let st := { st with rxMap := ysRxStep st.colMap st.rxMap fields }
  { st with imported := st.imported + 1 }

/-- Loop body of `parseYaoshengCSV` for one scanned line, including the
first-line header detection. -/
def ysCSVLine (st : YsCSVState) (raw : GoStr) : YsCSVState :=
  let st := { st with lineNum := st.lineNum + 1 }
  let line := goTrimSpace raw
  if line = [] then st
  else
    let fields := parseCSVLine line
    if st.lineNum = 1 ∧ isYaoshengHeaderLine fields then
      { st with colMap := buildYaoshengColumnMapping fields }
    else
      let st := if st.lineNum = 1 then { st with colMap := getYaoshengDefaultColumns } else st
      ysCSVData st fields

/-- `parseYaoshengCSV` (part_000, lines 649-764). -/
def parseYaoshengCSV (content : GoStr) : HISImportResult :=
  let st := (goLines content).foldl ysCSVLine ⟨0, [], 0, 0, 0, [], []⟩
  { success := st.failed = 0, sourceType := gs "csv", sourceVendor := gs "yaosheng",
    total := st.total, imported := st.imported, skipped := 0, failed := st.failed,
    errors := [], patients := valuesA st.patientMap,
    prescriptions := valuesA st.rxMap, drugUsages := [] }

/-! ## Generic CSV decoder (part_000, lines 1398-1472, 1580-1700) -/

/-- Synonym table of `buildColumnMapping` (part_000, lines 1584-1597). -/
def genPatterns : List (GoStr × List GoStr) :=
  [(gs "national_id", [gs "身分證", gs "身份證", gs "ID", gs "national_id", gs "pid", gs "病患ID", gs "idno"]),
   (gs "name", [gs "姓名", gs "name", gs "patient_name", gs "病患姓名"]),
   (gs "birthday", [gs "生日", gs "出生日期", gs "birthday", gs "dob", gs "birth"]),
   (gs "phone", [gs "電話", gs "phone", gs "tel", gs "手機", gs "mobile"]),
   (gs "drug_code", [gs "藥品代碼", gs "健保碼", gs "drug_code", gs "code", gs "nhi_code"]),
   (gs "drug_name", [gs "藥品名稱", gs "drug_name", gs "藥名"]),
   (gs "quantity", [gs "數量", gs "總量", gs "quantity", gs "qty"]),
   (gs "days", [gs "天數", gs "日份", gs "給藥天數", gs "給藥日數", gs "days", gs "day"]),
   (gs "prescription_no", [gs "處方箋號", gs "處方號", gs "處方箋", gs "prescription_no", gs "rx_no", gs "rxno"]),
   (gs "visit_date", [gs "就診日", gs "就診日期", gs "調劑日期", gs "visit_date", gs "dispense_date", gs "date"]),
   (gs "visit_type", [gs "就醫類別", gs "visit_type", gs "type"]),
   (gs "hospital", [gs "醫院", gs "hospital", gs "provider", gs "來源醫院"])]

/-- `buildColumnMapping` (part_000, lines 1580-1612). -/
def buildColumnMapping (headers : List GoStr) : List (GoStr × Nat) :=
  buildMapping genPatterns headers

/-- Float field read with the inline `colMap[key]` guard of the generic
extractors: absent column keeps the zero value, a present field is handed
to `strconv.ParseFloat` after trimming. -/
def floatFieldByKey (fields : List GoStr) (colMap : List (GoStr × Nat))
    (key : GoStr) : GoFloat :=
  match lookupA colMap key with
  | some idx =>
    if idx < fields.length then goParseFloat (goTrimSpace (fields.getD idx []))
    else .zero
  | none => .zero

/-- `extractPatientFromCSV` (part_000, lines 1615-1638). -/
def extractPatientFromCSV (fields : List GoStr) (colMap : List (GoStr × Nat)) :
    HISPatient :=
  let birthday := getFieldByKey fields colMap (gs "birthday")
  { HISPatient.empty with
      nationalID := getFieldByKey fields colMap (gs "national_id"),
      name := getFieldByKey fields colMap (gs "name"),
      birthday :=
        if birthday.length = 7 ∧ '0' ≤ birthday.headI ∧ birthday.headI ≤ '1' then
          convertROCDate birthday
        else birthday,
      phone := getFieldByKey fields colMap (gs "phone") }

/-- `extractPrescriptionFromCSV` (part_000, lines 1641-1700). -/
def extractPrescriptionFromCSV (fields : List GoStr) (colMap : List (GoStr × Nat)) :
    HISPrescription :=
  let dateStr := getFieldByKey fields colMap (gs "visit_date")
  let item : HISPrescriptionItem :=
    { HISPrescriptionItem.empty with
        drugCode := getFieldByKey fields colMap (gs "drug_code"),
        drugName := getFieldByKey fields colMap (gs "drug_name"),
        quantity := floatFieldByKey fields colMap (gs "quantity"),
        daysSupply := goAtoiD (getFieldByKey fields colMap (gs "days")) }
  let rx : HISPrescription :=
    { HISPrescription.empty with
        patientID := getFieldByKey fields colMap (gs "national_id"),
        prescriptionNo := getFieldByKey fields colMap (gs "prescription_no"),
        dispenseDate :=
          if dateStr.length = 7 ∧ '0' ≤ dateStr.headI ∧ dateStr.headI ≤ '1' then
            convertROCDate dateStr
          else dateStr,
        visitType := getFieldByKey fields colMap (gs "visit_type"),
        providerName := getFieldByKey fields colMap (gs "hospital"),
        items := if item.drugCode ≠ [] then [item] else [] }
  if rx.visitType = gs "08" ∨ (rx.items ≠ [] ∧ 28 ≤ (rx.items.headI).daysSupply) then
    { rx with chronicRefillNo := 1 }
  else rx

/-- Mutable state of the `parseGenericCSV` data loop. -/
structure GenCSVState where
  total : Int
  failed : Int
  patientMap : List (GoStr × HISPatient)
  rxMap : List (GoStr × HISPrescription)
deriving Repr

/-- Loop body of `parseGenericCSV` (part_000, lines 1426-1459) for one data
line, with the column map fixed by the header line. -/
def genCSVLine (colMap : List (GoStr × Nat)) (st : GenCSVState) (line : GoStr) :
    GenCSVState :=
  if goTrimSpace line = [] then st
  else
    let fields := parseCSVLine line
    let st := { st with total := st.total + 1 }
    let patient := extractPatientFromCSV fields colMap
    let st :=
      if patient.nationalID ≠ [] then
        { st with patientMap := insertIfAbsent st.patientMap patient.nationalID patient }
      else st
    let rx := extractPrescriptionFromCSV fields colMap
    if rx.patientID ≠ [] ∧ rx.prescriptionNo ≠ [] then
      let key := rx.patientID ++ gs "-" ++ rx.prescriptionNo
      if (lookupA st.rxMap key).isSome then
        if rx.items ≠ [] then
          { st with rxMap := updateA st.rxMap key (fun old =>
              { old with items := old.items ++ rx.items }) }
        else st
      else { st with rxMap := st.rxMap ++ [(key, rx)] }
    else st

/-- `parseGenericCSV` (part_000, lines 1398-1472).  Returns the result
together with the Go error value: reading no header line at all is the only
error path. -/
def parseGenericCSV (content : GoStr) : HISImportResult × Option GoStr :=
  match goLines content with
  | [] =>
    ({ success := false, sourceType := gs "csv", sourceVendor := gs "generic",
       total := 0, imported := 0, skipped := 0, failed := 0, errors := [],
       patients := [], prescriptions := [], drugUsages := [] }, some (gs "檔案為空"))
  | headerLine :: rest =>
    let colMap := buildColumnMapping (parseCSVLine headerLine)
    let st := rest.foldl (genCSVLine colMap) ⟨0, 0, [], []⟩
    let patients := valuesA st.patientMap
    let prescriptions := valuesA st.rxMap
    ({ success := st.failed = 0, sourceType := gs "csv", sourceVendor := gs "generic",
       total := st.total, imported := (patients.length : Int) + (prescriptions.length : Int),
       skipped := 0, failed := st.failed, errors := [], patients := patients,
       prescriptions := prescriptions, drugUsages := [] }, none)

/-! ## Structured-markup record shapes -/

/-- `NHIMSH` (part_000, lines 895-899). -/
structure NHIMSH where
  h1 : GoStr
  h2 : GoStr
  h3 : GoStr
deriving DecidableEq, Repr

/-- `NHIMB1` (part_000, lines 902-916). -/
structure NHIMB1 where
  a01 : GoStr
  a11 : GoStr
  a12 : GoStr
  a13 : GoStr
  a14 : GoStr
  a17 : GoStr
  a18 : GoStr
  a23 : GoStr
  d19 : GoStr
  d20 : GoStr
  d21 : GoStr
  d31 : GoStr
  d32 : GoStr
deriving DecidableEq, Repr

/-- All-empty `NHIMB1` (the value `xml.Unmarshal` leaves for absent tags). -/
def NHIMB1.empty : NHIMB1 := ⟨[], [], [], [], [], [], [], [], [], [], [], [], []⟩

/-- `NHIMB2` (part_000, lines 919-929). -/
structure NHIMB2 where
  p1 : GoStr
  p2 : GoStr
  p3 : GoStr
  p5 : GoStr
  p6 : GoStr
  p7 : GoStr
  p8 : GoStr
  d27 : GoStr
  d36 : GoStr
deriving DecidableEq, Repr

/-- All-empty `NHIMB2`. -/
def NHIMB2.empty : NHIMB2 := ⟨[], [], [], [], [], [], [], [], []⟩

/-- `NHIRecord` (part_000, lines 888-892). -/
structure NHIRecord where
  msh : NHIMSH
  mb1 : NHIMB1
  mb2s : List NHIMB2
deriving DecidableEq, Repr

/-- `YaoshengItem` (part_000, lines 376-386). -/
structure YaoshengItem where
  orderType : GoStr
  drugCode : GoStr
  drugName : GoStr
  frequency : GoStr
  route : GoStr
  quantity : GoStr
  unitPrice : GoStr
  daysSupply : GoStr
  refillNo : GoStr
deriving DecidableEq, Repr

/-- All-empty `YaoshengItem`. -/
def YaoshengItem.empty : YaoshengItem := ⟨[], [], [], [], [], [], [], [], []⟩

/-- `YaoshengRec` (part_000, lines 348-373). -/
structure YaoshengRec where
  hospitalCode : GoStr
  feeYearMonth : GoStr
  claimType : GoStr
  dataFormat : GoStr
  cardNo : GoStr
  nationalID : GoStr
  birthday : GoStr
  sourceHosp : GoStr
  visitDateTime : GoStr
  visitSeq : GoStr
  visitType : GoStr
  diagCode : GoStr
  patientName : GoStr
  patientPhone : GoStr
  pharmacistID : GoStr
  pharmacistName : GoStr
  items : List YaoshengItem
deriving DecidableEq, Repr

/-- All-empty `YaoshengRec`. -/
def YaoshengRec.empty : YaoshengRec :=
  ⟨[], [], [], [], [], [], [], [], [], [], [], [], [], [], [], [], []⟩

/-- The `MB1` block of `DrMasterRec` (part_001, lines 48-64), with the
vendor-specific `d23`/`d24` tags. -/
structure DrMasterMB1 where
  a01 : GoStr
  a11 : GoStr
  a12 : GoStr
  a13 : GoStr
  a14 : GoStr
  a17 : GoStr
  a18 : GoStr
  a23 : GoStr
  d19 : GoStr
  d20 : GoStr
  d21 : GoStr
  d23 : GoStr
  d24 : GoStr
  d31 : GoStr
  d32 : GoStr
deriving DecidableEq, Repr

/-- All-empty `DrMasterMB1`. -/
def DrMasterMB1.empty : DrMasterMB1 :=
  ⟨[], [], [], [], [], [], [], [], [], [], [], [], [], [], []⟩

/-- The `MB2` block of `DrMasterRec` (part_001, lines 67-82). -/
structure DrMasterMB2 where
  p1 : GoStr
  p2 : GoStr
  p3 : GoStr
  p4 : GoStr
  p5 : GoStr
  p6 : GoStr
  p7 : GoStr
  p8 : GoStr
  p9 : GoStr
  d27 : GoStr
  d28 : GoStr
  d29 : GoStr
  d36 : GoStr
  d37 : GoStr
deriving DecidableEq, Repr

/-- All-empty `DrMasterMB2`. -/
def DrMasterMB2.empty : DrMasterMB2 :=
  ⟨[], [], [], [], [], [], [], [], [], [], [], [], [], []⟩

/-- `DrMasterRec` (part_001, lines 38-83); the `MSH` header block carries a
fourth tag `h4`. -/
structure DrMasterRec where
  h1 : GoStr
  h2 : GoStr
  h3 : GoStr
  h4 : GoStr
  mb1 : DrMasterMB1
  mb2s : List DrMasterMB2
deriving DecidableEq, Repr

/-! ## 健保署 (NHI) upload-XML decoder (part_000, lines 1044-1194) -/

/-- The shared `IC##` visit-sequence rule: `IC` followed by two digits sets
the chronic-refill ordinal (part_000 lines 503-507 and 1163-1167, part_001
lines 210-214). -/
def icRefill (visitSequence : GoStr) : Int :=
  if goHasPrefix visitSequence (gs "IC") ∧ 4 ≤ visitSequence.length then
    (goAtoi ((visitSequence.drop 2).take 2)).getD 0
  else 0

/-- `extractPatientFromMB1` (part_000, lines 1122-1136). -/
def extractPatientFromMB1 (mb1 : NHIMB1) : HISPatient :=
  { nationalID := goTrimSpace mb1.a12,
    name := goTrimSpace mb1.d20,
    birthday := if mb1.a13 ≠ [] ∧ mb1.a13.length = 7 then convertROCDate mb1.a13 else [],
    phone := goTrimSpace mb1.d21,
    cardNumber := goTrimSpace mb1.a11 }

/-- `extractPrescriptionFromRecord` (part_000, lines 1139-1194); its Go
signature returns an error that is always nil, so the model returns the
prescription directly. -/
def extractPrescriptionFromRecord (rec : NHIRecord) : HISPrescription :=
  let rx :=
    { HISPrescription.empty with
        patientID := goTrimSpace rec.mb1.a12,
        providerCode := goTrimSpace rec.mb1.a14,
        visitType := goTrimSpace rec.mb1.a23,
        visitSequence := goTrimSpace rec.mb1.a18,
        diagnosisCode := goTrimSpace rec.mb1.d19,
        pharmacistID := goTrimSpace rec.mb1.d31,
        pharmacistName := goTrimSpace rec.mb1.d32,
        dataFormat := goTrimSpace rec.mb1.a01 }
  let rx :=
    if rec.mb1.a17 ≠ [] ∧ 7 ≤ rec.mb1.a17.length then
      let rx := { rx with dispenseDate := convertROCDate (rec.mb1.a17.take 7) }
      if 13 ≤ rec.mb1.a17.length then
        { rx with dispenseTime :=
            ((rec.mb1.a17.drop 7).take 2) ++ (':' :: ((rec.mb1.a17.drop 9).take 2)) ++
              (':' :: ((rec.mb1.a17.drop 11).take 2)) }
      else rx
    else rx
  let rxNo := rx.providerCode ++ gs "-" ++ rx.dispenseDate ++ gs "-" ++ rx.visitSequence
  let rx := { rx with prescriptionNo := rxNo }
  let rx := { rx with chronicRefillNo := icRefill rx.visitSequence }
  { rx with items := rec.mb2s.map (fun mb2 =>
      { orderType := goTrimSpace mb2.p1,
        drugCode := goTrimSpace mb2.p2,
        drugName := goTrimSpace mb2.p3,
        frequency := goTrimSpace mb2.p5,
        route := goTrimSpace mb2.p6,
        quantity := if mb2.p7 ≠ [] then goParseFloat (goTrimSpace mb2.p7) else .zero,
        daysSupply := if mb2.d27 ≠ [] then goAtoiD (goTrimSpace mb2.d27) else 0,
        unitPrice := if mb2.p8 ≠ [] then goParseFloat (goTrimSpace mb2.p8) else .zero }) }

/-- The patient taken from one `NHIRecord` (part_000, lines 1070-1075):
guarded by the raw `A12` tag being non-empty. -/
def nhiXMLPatient (rec : NHIRecord) : Option HISPatient :=
  if rec.mb1.a12 ≠ [] then some (extractPatientFromMB1 rec.mb1) else none

/-- Mutable state of the `ParseNHIUploadXML` record loop. -/
structure NHIXMLState where
  imported : Int
  patientMap : List (GoStr × HISPatient)
  drugUsageMap : List (GoStr × HISDrugUsage)
  prescriptions : List HISPrescription
deriving Repr

/-- Record loop body of `ParseNHIUploadXML` (part_000, lines 1068-1105).
The per-record failure branch is dead code (the extractor never errors), so
`Failed` stays 0. -/
def nhiXMLRec (st : NHIXMLState) (rec : NHIRecord) : NHIXMLState :=
  let st :=
    match nhiXMLPatient rec with
    | some patient =>
      { st with patientMap := insertIfAbsent st.patientMap patient.nationalID patient }
    | none => st
  let rx := extractPrescriptionFromRecord rec
  let usageMap := rx.items.foldl (fun m item =>
    if item.orderType = gs "1" then
      match lookupA m item.drugCode with
      | some _ =>
        updateA m item.drugCode (fun u =>
          { u with totalQty := .add u.totalQty item.quantity,
                   dispenseCount := u.dispenseCount + 1 })
      | none =>
        let fresh : HISDrugUsage :=
          { drugCode := item.drugCode, drugName := item.drugName,
            totalQty := item.quantity, dispenseCount := 1, avgMonthlyQty := .zero }
        m ++ [(item.drugCode, fresh)]
    else m) st.drugUsageMap
  let st := { st with drugUsageMap := usageMap }
  { st with prescriptions := st.prescriptions ++ [rx], imported := st.imported + 1 }

/-- `ParseNHIUploadXML` (part_000, lines 1044-1119).  The `xml.Decoder`
outcome is passed in: `.error e` is the root-level unmarshal failure, which
returns a partial result together with the error. -/
def ParseNHIUploadXML (x : Except GoStr (List NHIRecord)) :
    HISImportResult × Option GoStr :=
  match x with
  | .error e =>
    ({ success := false, sourceType := gs "xml", sourceVendor := gs "nhi",
       total := 0, imported := 0, skipped := 0, failed := 0,
       errors := [gs "XML 解析失敗: " ++ e], patients := [], prescriptions := [],
       drugUsages := [] }, some e)
  | .ok recs =>
    let st := recs.foldl nhiXMLRec ⟨0, [], [], []⟩
    ({ success := true, sourceType := gs "xml", sourceVendor := gs "nhi",
       total := (recs.length : Int), imported := st.imported, skipped := 0, failed := 0,
       errors := [], patients := valuesA st.patientMap,
       prescriptions := st.prescriptions, drugUsages := valuesA st.drugUsageMap },
     none)

/-! ## 耀聖 XML decoder (part_000, lines 447-545) -/

/-- Mutable state of the `parseYaoshengXML` record loop. -/
structure YsXMLState where
  imported : Int
  failed : Int
  errors : List GoStr
  patientMap : List (GoStr × HISPatient)
  prescriptions : List HISPrescription
deriving Repr

/-- The patient built from one `YaoshengRec` (part_000, lines 464-477),
`none` when the record-level guard `rec.NationalID != ""` fails.  The guard
tests the raw tag value but the stored key is trimmed. -/
def ysXMLPatient (rec : YaoshengRec) : Option HISPatient :=
  if rec.nationalID ≠ [] then
    some
      { nationalID := goTrimSpace rec.nationalID,
        name := goTrimSpace rec.patientName,
        birthday :=
          if rec.birthday ≠ [] ∧ 7 ≤ rec.birthday.length then
            convertROCDate (rec.birthday.take 7)
          else [],
        phone := goTrimSpace rec.patientPhone,
        cardNumber := goTrimSpace rec.cardNo }
  else none

/-- The prescription built from one `YaoshengRec` (part_000, lines 479-528). -/
def ysXMLRx (rec : YaoshengRec) : HISPrescription :=
  let rx :=
    { HISPrescription.empty with
        patientID := goTrimSpace rec.nationalID,
        providerCode := goTrimSpace rec.sourceHosp,
        visitType := goTrimSpace rec.visitType,
        visitSequence := goTrimSpace rec.visitSeq,
        diagnosisCode := goTrimSpace rec.diagCode,
        pharmacistID := goTrimSpace rec.pharmacistID,
        pharmacistName := goTrimSpace rec.pharmacistName,
        dataFormat := goTrimSpace rec.dataFormat }
  let rx :=
    if rec.visitDateTime ≠ [] ∧ 7 ≤ rec.visitDateTime.length then
      let rx := { rx with dispenseDate := convertROCDate (rec.visitDateTime.take 7) }
      if 13 ≤ rec.visitDateTime.length then
        { rx with dispenseTime :=
            ((rec.visitDateTime.drop 7).take 2) ++ (':' :: ((rec.visitDateTime.drop 9).take 2)) ++
              (':' :: ((rec.visitDateTime.drop 11).take 2)) }
      else rx
    else rx
  let rxNo := gs "YS-" ++ rx.providerCode ++ gs "-" ++ rx.dispenseDate ++ gs "-" ++ rx.visitSequence
  let rx := { rx with prescriptionNo := rxNo }
  let rx := { rx with chronicRefillNo := icRefill rx.visitSequence }
  let rx := { rx with items := rec.items.map (fun item =>
      { orderType := goTrimSpace item.orderType,
        drugCode := goTrimSpace item.drugCode,
        drugName := goTrimSpace item.drugName,
        frequency := goTrimSpace item.frequency,
        route := goTrimSpace item.route,
        quantity := if item.quantity ≠ [] then goParseFloat (goTrimSpace item.quantity) else .zero,
        daysSupply := if item.daysSupply ≠ [] then goAtoiD (goTrimSpace item.daysSupply) else 0,
        unitPrice := if item.unitPrice ≠ [] then goParseFloat (goTrimSpace item.unitPrice) else .zero }) }
  rx

/-- Record loop body of `parseYaoshengXML` (part_000, lines 462-537);
`i` is the 0-based record index. -/
def ysXMLRec (st : YsXMLState) (i : Nat) (rec : YaoshengRec) : YsXMLState :=
  let st :=
    match ysXMLPatient rec with
    | some patient =>
      { st with patientMap := insertIfAbsent st.patientMap patient.nationalID patient }
    | none => st
  let rx := ysXMLRx rec
  if rx.items ≠ [] ∨ rx.patientID ≠ [] then
    { st with prescriptions := st.prescriptions ++ [rx], imported := st.imported + 1 }
  else
    let msg := gs "第 " ++ goItoa (i + 1) ++ gs " 筆記錄無有效資料"
    { st with errors := st.errors ++ [msg], failed := st.failed + 1 }

/-- `parseYaoshengXML` (part_000, lines 447-545), over the `xml.Unmarshal`
outcome. -/
def parseYaoshengXML (x : Except GoStr (List YaoshengRec)) :
    HISImportResult × Option GoStr :=
  match x with
  | .error e =>
    ({ success := false, sourceType := gs "xml", sourceVendor := gs "yaosheng",
       total := 0, imported := 0, skipped := 0, failed := 0,
       errors := [gs "XML 解析失敗: " ++ e], patients := [], prescriptions := [],
       drugUsages := [] }, some e)
  | .ok recs =>
    let st := recs.enum.foldl (fun st p => ysXMLRec st p.1 p.2) ⟨0, 0, [], [], []⟩
    ({ success := st.failed = 0, sourceType := gs "xml", sourceVendor := gs "yaosheng",
       total := (recs.length : Int), imported := st.imported, skipped := 0,
       failed := st.failed, errors := st.errors, patients := valuesA st.patientMap,
       prescriptions := st.prescriptions, drugUsages := [] }, none)

/-! ## 看診大師 (DrMaster) XML decoder (part_001, lines 147-252) -/

/-- The patient built from one `DrMasterRec` (part_001, lines 164-184);
mobile phone `d23` is preferred over `d21`. -/
def dmXMLPatient (rec : DrMasterRec) : Option HISPatient :=
  if rec.mb1.a12 ≠ [] then
    let d23 := goTrimSpace rec.mb1.d23
    some
      { nationalID := goTrimSpace rec.mb1.a12,
        name := goTrimSpace rec.mb1.d20,
        birthday :=
          if rec.mb1.a13 ≠ [] ∧ 7 ≤ rec.mb1.a13.length then
            convertROCDate (rec.mb1.a13.take 7)
          else [],
        phone := if d23 = [] then goTrimSpace rec.mb1.d21 else d23,
        cardNumber := goTrimSpace rec.mb1.a11 }
  else none

/-- The prescription built from one `DrMasterRec` (part_001, lines 186-235). -/
def dmXMLRx (rec : DrMasterRec) : HISPrescription :=
  let rx :=
    { HISPrescription.empty with
        patientID := goTrimSpace rec.mb1.a12,
        providerCode := goTrimSpace rec.mb1.a14,
        visitType := goTrimSpace rec.mb1.a23,
        visitSequence := goTrimSpace rec.mb1.a18,
        diagnosisCode := goTrimSpace rec.mb1.d19,
        pharmacistID := goTrimSpace rec.mb1.d31,
        pharmacistName := goTrimSpace rec.mb1.d32,
        dataFormat := goTrimSpace rec.mb1.a01 }
  let rx :=
    if rec.mb1.a17 ≠ [] ∧ 7 ≤ rec.mb1.a17.length then
      let rx := { rx with dispenseDate := convertROCDate (rec.mb1.a17.take 7) }
      if 13 ≤ rec.mb1.a17.length then
        { rx with dispenseTime :=
            ((rec.mb1.a17.drop 7).take 2) ++ (':' :: ((rec.mb1.a17.drop 9).take 2)) ++
              (':' :: ((rec.mb1.a17.drop 11).take 2)) }
      else rx
    else rx
  let rxNo := gs "DM-" ++ rx.providerCode ++ gs "-" ++ rx.dispenseDate ++ gs "-" ++ rx.visitSequence
  let rx := { rx with prescriptionNo := rxNo }
  let rx := { rx with chronicRefillNo := icRefill rx.visitSequence }
  let rx := { rx with items := rec.mb2s.map (fun mb2 =>
      { orderType := goTrimSpace mb2.p1,
        drugCode := goTrimSpace mb2.p2,
        drugName := goTrimSpace mb2.p3,
        frequency := goTrimSpace mb2.p5,
        route := goTrimSpace mb2.p6,
        quantity := if mb2.p7 ≠ [] then goParseFloat (goTrimSpace mb2.p7) else .zero,
        daysSupply := if mb2.d27 ≠ [] then goAtoiD (goTrimSpace mb2.d27) else 0,
        unitPrice := if mb2.p8 ≠ [] then goParseFloat (goTrimSpace mb2.p8) else .zero }) }
  rx

/-- Record loop body of `parseDrMasterXML` (part_001, lines 162-244). -/
def dmXMLRec (st : YsXMLState) (i : Nat) (rec : DrMasterRec) : YsXMLState :=
  let st :=
    match dmXMLPatient rec with
    | some patient =>
      { st with patientMap := insertIfAbsent st.patientMap patient.nationalID patient }
    | none => st
  let rx := dmXMLRx rec
  if rx.items ≠ [] ∨ rx.patientID ≠ [] then
    { st with prescriptions := st.prescriptions ++ [rx], imported := st.imported + 1 }
  else
    let msg := gs "第 " ++ goItoa (i + 1) ++ gs " 筆記錄無有效資料"
    { st with errors := st.errors ++ [msg], failed := st.failed + 1 }

/-- `parseDrMasterXML` (part_001, lines 147-252), over the `xml.Unmarshal`
outcome. -/
def parseDrMasterXML (x : Except GoStr (List DrMasterRec)) :
    HISImportResult × Option GoStr :=
  match x with
  | .error e =>
    ({ success := false, sourceType := gs "xml", sourceVendor := gs "drmaster",
       total := 0, imported := 0, skipped := 0, failed := 0,
       errors := [gs "XML 解析失敗: " ++ e], patients := [], prescriptions := [],
       drugUsages := [] }, some e)
  | .ok recs =>
    let st := recs.enum.foldl (fun st p => dmXMLRec st p.1 p.2) ⟨0, 0, [], [], []⟩
    ({ success := st.failed = 0, sourceType := gs "xml", sourceVendor := gs "drmaster",
       total := (recs.length : Int), imported := st.imported, skipped := 0,
       failed := st.failed, errors := st.errors, patients := valuesA st.patientMap,
       prescriptions := st.prescriptions, drugUsages := [] }, none)

/-! ## 看診大師 pipe-delimited TXT decoder (part_001, lines 255-403) -/

/-- Mutable state of the `parseDrMasterTXT` loop. -/
structure DmTXTState where
  lineNum : Int
  total : Int
  imported : Int
  failed : Int
  errors : List GoStr
  patientMap : List (GoStr × HISPatient)
  rxMap : List (GoStr × HISPrescription)
  currentRxKey : GoStr
deriving Repr

/-- Loop body of `parseDrMasterTXT` for one scanned line (part_001, lines
267-392).  Note that a `D` row assigns `rxMap[rxKey]` unconditionally,
replacing any prescription already accumulated under the same key. -/
def dmTXTLine (st : DmTXTState) (raw : GoStr) : DmTXTState :=
  let st := { st with lineNum := st.lineNum + 1 }
  let line := goTrimSpace raw
  if line = [] then st
  else
    let fields := goSplit line '|'
    if fields.length < 2 then st
    else
      let recordType := goToUpper (goTrimSpace fields.headI)
      if recordType = gs "H" then st
      else if recordType = gs "D" then
        let st := { st with total := st.total + 1 }
        if fields.length < 7 then
          let msg := gs "第 " ++ goItoa st.lineNum ++ gs " 行欄位不足"
          { st with errors := st.errors ++ [msg], failed := st.failed + 1 }
        else
          let nationalID := goTrimSpace (fields.getD 1 [])
          let name := goTrimSpace (fields.getD 2 [])
          let birthday := goTrimSpace (fields.getD 3 [])
          let phone := goTrimSpace (fields.getD 4 [])
          let visitDate := goTrimSpace (fields.getD 5 [])
          let visitType := goTrimSpace (fields.getD 6 [])
          let st :=
            if nationalID ≠ [] then
              let patient : HISPatient :=
                { HISPatient.empty with
                    nationalID := nationalID, name := name, phone := phone,
                    birthday :=
                      if birthday.length = 7 then convertROCDate birthday else birthday }
              { st with patientMap := insertIfAbsent st.patientMap nationalID patient }
            else st
          let rxKey := nationalID ++ gs "-" ++ visitDate
          let st := { st with currentRxKey := rxKey }
          let rx : HISPrescription :=
            { HISPrescription.empty with
                patientID := nationalID,
                prescriptionNo := gs "DM-" ++ nationalID ++ gs "-" ++ visitDate,
                dispenseDate :=
                  if visitDate.length = 7 then convertROCDate visitDate else visitDate,
                visitType := visitType,
                chronicRefillNo := if visitType = gs "08" then 1 else 0 }
          { st with rxMap := setA st.rxMap rxKey rx, imported := st.imported + 1 }
      else if recordType = gs "M" then
        if st.currentRxKey = [] then st
        else if fields.length < 5 then st
        else
          let drugCode := goTrimSpace (fields.getD 1 [])
          let drugName := goTrimSpace (fields.getD 2 [])
          let qtyStr := fields.getD 3 []
          let daysStr := fields.getD 4 []
          let frequency := if 5 < fields.length then goTrimSpace (fields.getD 5 []) else []
          let days := goAtoiD (goTrimSpace daysStr)
          let item : HISPrescriptionItem :=
            { HISPrescriptionItem.empty with
                orderType := gs "1", drugCode := drugCode, drugName := drugName,
                quantity := goParseFloat (goTrimSpace qtyStr), daysSupply := days,
                frequency := frequency }
          if (lookupA st.rxMap st.currentRxKey).isSome then
            { st with rxMap := updateA st.rxMap st.currentRxKey (rxApplyItem item) }
          else st
      else st

/-- `parseDrMasterTXT` (part_001, lines 255-403). -/
def parseDrMasterTXT (content : GoStr) : HISImportResult :=
  let st := (goLines content).foldl dmTXTLine ⟨0, 0, 0, 0, [], [], [], []⟩
  { success := st.failed = 0, sourceType := gs "txt", sourceVendor := gs "drmaster",
    total := st.total, imported := st.imported, skipped := 0, failed := st.failed,
    errors := st.errors, patients := valuesA st.patientMap,
    prescriptions := valuesA st.rxMap, drugUsages := [] }

/-! ## 看診大師 CSV decoder (part_001, lines 406-521) -/

/-- Header keywords of `isDrMasterHeaderLine` (part_001, line 533). -/
def dmHeaderKeywords : List GoStr :=
  [gs "身分證", gs "姓名", gs "藥品", gs "日期", gs "代碼", gs "處方"]

/-- `isDrMasterHeaderLine` (part_001, lines 528-547). -/
def isDrMasterHeaderLine (fields : List GoStr) : Bool :=
  if fields.length < 3 then false
  else
    2 ≤ fields.countP
      (fun f => dmHeaderKeywords.any (fun kw => goContains (goToLower f) (goToLower kw)))

/-- Synonym table of `buildDrMasterColumnMapping` (part_001, lines 554-566). -/
def dmPatterns : List (GoStr × List GoStr) :=
  [(gs "national_id", [gs "身分證", gs "身份證", gs "ID", gs "pid"]),
   (gs "name", [gs "姓名", gs "name", gs "patient"]),
   (gs "birthday", [gs "生日", gs "出生", gs "birthday"]),
   (gs "phone", [gs "電話", gs "手機", gs "phone", gs "mobile"]),
   (gs "visit_date", [gs "就診日", gs "調劑日", gs "日期", gs "date"]),
   (gs "drug_code", [gs "藥品代碼", gs "藥碼", gs "健保碼", gs "code"]),
   (gs "drug_name", [gs "藥品名稱", gs "藥名", gs "drug"]),
   (gs "quantity", [gs "數量", gs "總量", gs "qty"]),
   (gs "days", [gs "天數", gs "日份", gs "days"]),
   (gs "visit_type", [gs "就醫類別", gs "案件", gs "type"]),
   (gs "frequency", [gs "頻率", gs "使用頻率", gs "freq"])]

/-- `buildDrMasterColumnMapping` (part_001, lines 550-580). -/
def buildDrMasterColumnMapping (headers : List GoStr) : List (GoStr × Nat) :=
  buildMapping dmPatterns headers

/-- `getDrMasterDefaultColumns` (part_001, lines 583-598). -/
def getDrMasterDefaultColumns : List (GoStr × Nat) :=
  [(gs "national_id", 0), (gs "name", 1), (gs "birthday", 2), (gs "phone", 3),
   (gs "visit_date", 4), (gs "drug_code", 5), (gs "drug_name", 6),
   (gs "quantity", 7), (gs "days", 8), (gs "visit_type", 9), (gs "frequency", 10)]

/-- The patient built from one DrMaster CSV data row (part_001, lines
453-468): requires a non-blank trimmed identifier; the birthday converts
only at width exactly 7. -/
def dmCSVPatient (colMap : List (GoStr × Nat)) (fields : List GoStr) :
    Option HISPatient :=
  let nationalID := getFieldByKey fields colMap (gs "national_id")
  let birthday := getFieldByKey fields colMap (gs "birthday")
  if nationalID ≠ [] then
    some
      { HISPatient.empty with
          nationalID := nationalID,
          name := getFieldByKey fields colMap (gs "name"),
          phone := getFieldByKey fields colMap (gs "phone"),
          birthday :=
            if birthday.length = 7 then convertROCDate birthday
            else if birthday ≠ [] then birthday else [] }
  else none

/-- The prescription header created by the first DrMaster CSV row of a key
(part_001, lines 471-487), including the visit-type-08 chronic rule. -/
def dmRxInit (colMap : List (GoStr × Nat)) (fields : List GoStr) : HISPrescription :=
  let nationalID := getFieldByKey fields colMap (gs "national_id")
  let visitDate := getFieldByKey fields colMap (gs "visit_date")
  let visitType := getFieldByKey fields colMap (gs "visit_type")
  { HISPrescription.empty with
      patientID := nationalID,
      prescriptionNo := gs "DM-" ++ nationalID ++ gs "-" ++ visitDate,
      dispenseDate :=
        if visitDate.length = 7 then convertROCDate visitDate else visitDate,
      visitType := visitType,
      chronicRefillNo := if visitType = gs "08" then 1 else 0 }

/-- The drug item one DrMaster CSV data row contributes (part_001, lines
490-499), frequency included. -/
def dmRowItem (colMap : List (GoStr × Nat)) (fields : List GoStr) :
    Option HISPrescriptionItem :=
  let drugCode := getFieldByKey fields colMap (gs "drug_code")
  if drugCode ≠ [] then
    some
      { HISPrescriptionItem.empty with
          orderType := gs "1", drugCode := drugCode,
          drugName := getFieldByKey fields colMap (gs "drug_name"),
          quantity := goParseFloat (getFieldByKey fields colMap (gs "quantity")),
          daysSupply := goAtoiD (getFieldByKey fields colMap (gs "days")),
          frequency := getFieldByKey fields colMap (gs "frequency") }
  else none

/-- The prescription-map update of one DrMaster CSV data row (part_001,
lines 470-506): the key expression coincides with the Yaosheng one
(`ysKeyOf`, part_001 lines 471-472). -/
def dmRxStep (colMap : List (GoStr × Nat)) (m : List (GoStr × HISPrescription))
    (fields : List GoStr) : List (GoStr × HISPrescription) :=
  match ysKeyOf colMap fields with
  | none => m
  | some rxKey =>
    let m :=
      if (lookupA m rxKey).isSome then m
      else m ++ [(rxKey, dmRxInit colMap fields)]
    match dmRowItem colMap fields with
    | some item => updateA m rxKey (rxApplyItem item)
    | none => m

/-- Data-row processing of `parseDrMasterCSV` (part_001, lines 438-510). -/
def dmCSVData (st : YsCSVState) (fields : List GoStr) : YsCSVState :=
  let st := { st with total := st.total + 1 }
  let st :=
    match dmCSVPatient st.colMap fields with
    | some patient =>
      { st with patientMap := insertIfAbsent st.patientMap patient.nationalID patient }
    | none => st
  let st := { st with rxMap := dmRxStep st.colMap st.rxMap fields }
  { st with imported := st.imported + 1 }

/-- Loop body of `parseDrMasterCSV` for one scanned line, including the
first-line header detection (part_001, lines 419-441). -/
def dmCSVLine (st : YsCSVState) (raw : GoStr) : YsCSVState :=
  let st := { st with lineNum := st.lineNum + 1 }
  let line := goTrimSpace raw
  if line = [] then st
  else
    let fields := parseCSVLine line
    if st.lineNum = 1 ∧ isDrMasterHeaderLine fields then
      { st with colMap := buildDrMasterColumnMapping fields }
    else
      let st := if st.lineNum = 1 then { st with colMap := getDrMasterDefaultColumns } else st
      dmCSVData st fields

/-- `parseDrMasterCSV` (part_001, lines 406-521). -/
def parseDrMasterCSV (content : GoStr) : HISImportResult :=
  let st := (goLines content).foldl dmCSVLine ⟨0, [], 0, 0, 0, [], []⟩
  { success := st.failed = 0, sourceType := gs "csv", sourceVendor := gs "drmaster",
    total := st.total, imported := st.imported, skipped := 0, failed := st.failed,
    errors := [], patients := valuesA st.patientMap,
    prescriptions := valuesA st.rxMap, drugUsages := [] }

/-! ## 展望 (Vision) decoder (src/README.md, Vision parser section) -/

/-- `VisionRec`'s `MB1` block (README Vision section). -/
structure VisionMB1 where
  a01 : GoStr
  a11 : GoStr
  a12 : GoStr
  a13 : GoStr
  a14 : GoStr
  a17 : GoStr
  a18 : GoStr
  a23 : GoStr
  d19 : GoStr
  d20 : GoStr
  d21 : GoStr
  d22 : GoStr
  d31 : GoStr
  d32 : GoStr
deriving DecidableEq, Repr

/-- Go zero value of `VisionMB1`. -/
def VisionMB1.empty : VisionMB1 :=
  ⟨[], [], [], [], [], [], [], [], [], [], [], [], [], []⟩

/-- `VisionRec`'s `MB2` block (README Vision section). -/
structure VisionMB2 where
  p1 : GoStr
  p2 : GoStr
  p3 : GoStr
  p4 : GoStr
  p5 : GoStr
  p6 : GoStr
  p7 : GoStr
  p8 : GoStr
  d27 : GoStr
  d28 : GoStr
  d36 : GoStr
deriving DecidableEq, Repr

/-- Go zero value of `VisionMB2`. -/
def VisionMB2.empty : VisionMB2 := ⟨[], [], [], [], [], [], [], [], [], [], []⟩

/-- `VisionRec` (README Vision section): the `MSH` tags `h1`-`h3` are kept
flat. -/
structure VisionRec where
  h1 : GoStr
  h2 : GoStr
  h3 : GoStr
  mb1 : VisionMB1
  mb2s : List VisionMB2
deriving DecidableEq, Repr

/-- The patient taken from one `VisionRec` (README Vision section): guarded
by the raw `A12` tag being non-empty, the stored fields trimmed. -/
def visionXMLPatient (rec : VisionRec) : Option HISPatient :=
  if rec.mb1.a12 ≠ [] then
    some
      { nationalID := goTrimSpace rec.mb1.a12,
        name := goTrimSpace rec.mb1.d20,
        birthday :=
          if rec.mb1.a13 ≠ [] ∧ 7 ≤ rec.mb1.a13.length then
            convertROCDate (rec.mb1.a13.take 7)
          else [],
        phone := goTrimSpace rec.mb1.d21,
        cardNumber := goTrimSpace rec.mb1.a11 }
  else none

/-- The prescription built from one `VisionRec` (README Vision section),
prescription numbers prefixed `VS-`. -/
def visionXMLRx (rec : VisionRec) : HISPrescription :=
  let rx :=
    { HISPrescription.empty with
        patientID := goTrimSpace rec.mb1.a12,
        providerCode := goTrimSpace rec.mb1.a14,
        visitType := goTrimSpace rec.mb1.a23,
        visitSequence := goTrimSpace rec.mb1.a18,
        diagnosisCode := goTrimSpace rec.mb1.d19,
        pharmacistID := goTrimSpace rec.mb1.d31,
        pharmacistName := goTrimSpace rec.mb1.d32,
        dataFormat := goTrimSpace rec.mb1.a01 }
  let rx :=
    if rec.mb1.a17 ≠ [] ∧ 7 ≤ rec.mb1.a17.length then
      let rx := { rx with dispenseDate := convertROCDate (rec.mb1.a17.take 7) }
      if 13 ≤ rec.mb1.a17.length then
        { rx with dispenseTime :=
            ((rec.mb1.a17.drop 7).take 2) ++ (':' :: ((rec.mb1.a17.drop 9).take 2)) ++
              (':' :: ((rec.mb1.a17.drop 11).take 2)) }
      else rx
    else rx
  let rxNo := gs "VS-" ++ rx.providerCode ++ gs "-" ++ rx.dispenseDate ++ gs "-" ++ rx.visitSequence
  let rx := { rx with prescriptionNo := rxNo }
  let rx := { rx with chronicRefillNo := icRefill rx.visitSequence }
  let rx := { rx with items := rec.mb2s.map (fun mb2 =>
      { orderType := goTrimSpace mb2.p1,
        drugCode := goTrimSpace mb2.p2,
        drugName := goTrimSpace mb2.p3,
        frequency := goTrimSpace mb2.p5,
        route := goTrimSpace mb2.p6,
        quantity := if mb2.p7 ≠ [] then goParseFloat (goTrimSpace mb2.p7) else .zero,
        daysSupply := if mb2.d27 ≠ [] then goAtoiD (goTrimSpace mb2.d27) else 0,
        unitPrice := if mb2.p8 ≠ [] then goParseFloat (goTrimSpace mb2.p8) else .zero }) }
  rx

/-- Record loop body of `parseVisionXML` (README Vision section). -/
def visionXMLRec (st : YsXMLState) (i : Nat) (rec : VisionRec) : YsXMLState :=
  let st :=
    match visionXMLPatient rec with
    | some patient =>
      { st with patientMap := insertIfAbsent st.patientMap patient.nationalID patient }
    | none => st
  let rx := visionXMLRx rec
  if rx.items ≠ [] ∨ rx.patientID ≠ [] then
    { st with prescriptions := st.prescriptions ++ [rx], imported := st.imported + 1 }
  else
    let msg := gs "第 " ++ goItoa (i + 1) ++ gs " 筆記錄無有效資料"
    { st with errors := st.errors ++ [msg], failed := st.failed + 1 }

/-- `parseVisionXML` (README Vision section), over the `xml.Unmarshal`
outcome. -/
def parseVisionXML (x : Except GoStr (List VisionRec)) :
    HISImportResult × Option GoStr :=
  match x with
  | .error e =>
    ({ success := false, sourceType := gs "xml", sourceVendor := gs "vision",
       total := 0, imported := 0, skipped := 0, failed := 0,
       errors := [gs "XML 解析失敗: " ++ e], patients := [], prescriptions := [],
       drugUsages := [] }, some e)
  | .ok recs =>
    let st := recs.enum.foldl (fun st p => visionXMLRec st p.1 p.2) ⟨0, 0, [], [], []⟩
    ({ success := st.failed = 0, sourceType := gs "xml", sourceVendor := gs "vision",
       total := (recs.length : Int), imported := st.imported, skipped := 0,
       failed := st.failed, errors := st.errors, patients := valuesA st.patientMap,
       prescriptions := st.prescriptions, drugUsages := [] }, none)

/-- Loop body of `parseVisionCSV` (README Vision section) for one scanned
line.  A `D` row assigns `rxMap[rxKey]` unconditionally, replacing any
prescription already accumulated under the same key; `P` rows append items
to the current key and never touch the chronic counter. -/
def visionCSVLine (st : DmTXTState) (raw : GoStr) : DmTXTState :=
  let st := { st with lineNum := st.lineNum + 1 }
  let line := goTrimSpace raw
  if line = [] then st
  else
    let fields := parseCSVLine line
    if fields.length < 2 then st
    else
      let recordType := goToUpper (goTrimSpace fields.headI)
      if recordType = gs "T" then st
      else if recordType = gs "D" then
        let st := { st with total := st.total + 1 }
        if fields.length < 10 then
          let msg := gs "第 " ++ goItoa st.lineNum ++ gs " 行欄位不足"
          { st with errors := st.errors ++ [msg], failed := st.failed + 1 }
        else
          let caseType := goTrimSpace (getField fields 1)
          let seqNo := goTrimSpace (getField fields 2)
          let visitDate := goTrimSpace (getField fields 3)
          let nationalID := goTrimSpace (getField fields 4)
          let name := goTrimSpace (getField fields 5)
          let st :=
            if nationalID ≠ [] then
              let patient : HISPatient :=
                { HISPatient.empty with nationalID := nationalID, name := name }
              { st with patientMap := insertIfAbsent st.patientMap nationalID patient }
            else st
          let rxKey := nationalID ++ gs "-" ++ seqNo
          let st := { st with currentRxKey := rxKey }
          let rx : HISPrescription :=
            { HISPrescription.empty with
                patientID := nationalID,
                prescriptionNo := gs "VS-" ++ seqNo,
                dispenseDate :=
                  if visitDate.length = 7 then convertROCDate visitDate else visitDate,
                visitType := caseType,
                chronicRefillNo := if caseType = gs "08" then 1 else 0,
                totalPoints :=
                  if 39 < fields.length then goParseFloat (goTrimSpace (fields.getD 39 []))
                  else .zero,
                copay :=
                  if 40 < fields.length then goParseFloat (goTrimSpace (fields.getD 40 []))
                  else .zero }
          { st with rxMap := setA st.rxMap rxKey rx, imported := st.imported + 1 }
      else if recordType = gs "P" then
        if st.currentRxKey = [] then st
        else if fields.length < 8 then st
        else
          let orderType := goTrimSpace (getField fields 1)
          let drugCode := goTrimSpace (getField fields 2)
          let drugName := goTrimSpace (getField fields 3)
          let qtyStr := getField fields 7
          let priceStr := getField fields 8
          let item : HISPrescriptionItem :=
            { HISPrescriptionItem.empty with
                orderType := orderType, drugCode := drugCode, drugName := drugName,
                quantity :=
                  if qtyStr ≠ [] then goParseFloat (goTrimSpace qtyStr) else .zero,
                unitPrice :=
                  if priceStr ≠ [] then goParseFloat (goTrimSpace priceStr) else .zero }
          if (lookupA st.rxMap st.currentRxKey).isSome then
            { st with rxMap := updateA st.rxMap st.currentRxKey (fun rx =>
                { rx with items := rx.items ++ [item] }) }
          else st
      else st

/-- `parseVisionCSV` (README Vision section). -/
def parseVisionCSV (content : GoStr) : HISImportResult :=
  let st := (goLines content).foldl visionCSVLine ⟨0, 0, 0, 0, [], [], [], []⟩
  { success := st.failed = 0, sourceType := gs "csv", sourceVendor := gs "vision",
    total := st.total, imported := st.imported, skipped := 0, failed := st.failed,
    errors := st.errors, patients := valuesA st.patientMap,
    prescriptions := valuesA st.rxMap, drugUsages := [] }

/-! ## 健保署 claim-CSV decoder (part_000, lines 1201-1343) -/

/-- `parseClaimDetailLine` (part_000, lines 1288-1318). -/
def parseClaimDetailLine (fields : List GoStr) : Option HISPrescription :=
  if fields.length < 10 then none
  else
    let dateStr := goTrimSpace (getField fields 3)
    some
      { HISPrescription.empty with
          patientID := goTrimSpace (getField fields 4),
          visitType := goTrimSpace (getField fields 1),
          dispenseDate := if 7 ≤ dateStr.length then convertROCDate dateStr else [],
          prescriptionNo := goTrimSpace (getField fields 2),
          totalPoints :=
            if 39 < fields.length then goParseFloat (goTrimSpace (fields.getD 39 []))
            else .zero,
          copay :=
            if 40 < fields.length then goParseFloat (goTrimSpace (fields.getD 40 []))
            else .zero }

/-- `parseClaimItemLine` (part_000, lines 1321-1343). -/
def parseClaimItemLine (fields : List GoStr) : Option HISPrescriptionItem :=
  if fields.length < 8 then none
  else
    some
      { HISPrescriptionItem.empty with
          orderType := goTrimSpace (getField fields 1),
          drugCode := goTrimSpace (getField fields 2),
          drugName := goTrimSpace (getField fields 3),
          quantity :=
            if getField fields 7 ≠ [] then goParseFloat (goTrimSpace (getField fields 7))
            else .zero,
          unitPrice :=
            if getField fields 8 ≠ [] then goParseFloat (goTrimSpace (getField fields 8))
            else .zero }

/-- Mutable state of the `ParseNHIClaimCSV` loop. -/
structure ClaimCSVState where
  lineNum : Int
  total : Int
  failed : Int
  errors : List GoStr
  prescriptions : List HISPrescription
  currentRx : Option HISPrescription
deriving Repr

/-- Loop body of `ParseNHIClaimCSV` (part_000, lines 1218-1275). -/
def claimCSVLine (st : ClaimCSVState) (raw : GoStr) : ClaimCSVState :=
  let st := { st with lineNum := st.lineNum + 1 }
  let line := goTrimSpace raw
  if line = [] then st
  else
    let fields := goSplit line ','
    if fields.length < 2 then st
    else
      let recordType := goTrimSpace fields.headI
      if recordType = gs "t" ∨ recordType = gs "T" then st
      else if recordType = gs "d" ∨ recordType = gs "D" then
        let st :=
          match st.currentRx with
          | some rx => { st with prescriptions := st.prescriptions ++ [rx] }
          | none => st
        match parseClaimDetailLine fields with
        | none =>
          let msg := gs "第 " ++ goItoa st.lineNum ++ gs " 行解析失敗: 欄位不足"
          { st with errors := st.errors ++ [msg], failed := st.failed + 1, currentRx := none }
        | some rx =>
          { st with currentRx := some rx, total := st.total + 1 }
      else if recordType = gs "p" ∨ recordType = gs "P" then
        match st.currentRx with
        | none => st
        | some rx =>
          match parseClaimItemLine fields with
          | none =>
            let msg := gs "第 " ++ goItoa st.lineNum ++ gs " 行醫令解析失敗: 欄位不足"
            { st with errors := st.errors ++ [msg] }
          | some item =>
            { st with currentRx := some { rx with items := rx.items ++ [item] } }
      else st

/-- `ParseNHIClaimCSV` (part_000, lines 1201-1285).  This entry point never
returns a non-nil error. -/
def ParseNHIClaimCSV (content : GoStr) : HISImportResult :=
  let st := (goLines content).foldl claimCSVLine ⟨0, 0, 0, [], [], none⟩
  let prescriptions :=
    match st.currentRx with
    | some rx => st.prescriptions ++ [rx]
    | none => st.prescriptions
  { success := st.failed = 0, sourceType := gs "csv", sourceVendor := gs "nhi",
    total := st.total, imported := (prescriptions.length : Int), skipped := 0,
    failed := st.failed, errors := st.errors, patients := [],
    prescriptions := prescriptions, drugUsages := [] }

/-! ## Auto-detecting entry point (part_000, lines 1350-1395) -/

/-- `ParseHISFile` (part_000, lines 1350-1395) after the encoding step, as a
function of the decoded content.  `um` models `xml.Decoder.Decode` on the
content (the XML branch).  The first component is the returned result
pointer (`none` = Go `nil`), the second the returned error. -/
def ParseHISFile (um : GoStr → Except GoStr (List NHIRecord)) (content : GoStr) :
    Option HISImportResult × Option GoStr :=
  if goContains content (gs "<?xml") || goContains content (gs "<RECS>") ||
      goContains content (gs "<REC>") then
    let r := ParseNHIUploadXML (um content)
    (some r.1, r.2)
  else if goHasPrefix (goTrimSpace content) (gs "t,") ||
      goHasPrefix (goTrimSpace content) (gs "T,") ||
      goHasPrefix (goTrimSpace content) (gs "30,") then
    (some (ParseNHIClaimCSV content), none)
  else if goContains content (gs ",") || goContains content (gs "\t") then
    let r := parseGenericCSV content
    (some r.1, r.2)
  else (none, some (gs "無法識別的檔案格式"))

/-! ## Views and helper definitions used by the verification layer -/

/-- The patient-deduplication fold shared by every decoder: insert each
extracted patient under its national-identifier key unless the key is
already bound. -/
def patFold (m : List (GoStr × HISPatient)) (ps : List HISPatient) :
    List (GoStr × HISPatient) :=
  ps.foldl (fun m p => insertIfAbsent m p.nationalID p) m

/-- The patient that one DAT line contributes (part_000, lines 592-604):
only detail lines (`record type 2`) of width at least 10 with a non-blank
identifier field yield a patient. -/
def ysDATPatient (line : GoStr) : Option HISPatient :=
  if line.length < 10 then none
  else if [line.headI] = gs "2" then
    let nationalID := goTrimSpace (safeSubstring line 11 21)
    let birthday := goTrimSpace (safeSubstring line 41 48)
    if nationalID ≠ [] then
      some
        { HISPatient.empty with
            nationalID := nationalID,
            name := goTrimSpace (safeSubstring line 21 41),
            birthday := if 7 ≤ birthday.length then convertROCDate birthday else [] }
    else none
  else none

/-- The patient that one DrMaster TXT line contributes (part_001, lines
308-323): only well-formed `D` rows with a non-blank identifier.  The
branch structure mirrors the loop body exactly. -/
def dmTXTPatient (raw : GoStr) : Option HISPatient :=
  let line := goTrimSpace raw
  if line = [] then none
  else
    let fields := goSplit line '|'
    if fields.length < 2 then none
    else
      let recordType := goToUpper (goTrimSpace fields.headI)
      if recordType = gs "H" then none
      else if recordType = gs "D" then
        if fields.length < 7 then none
        else
          let nationalID := goTrimSpace (fields.getD 1 [])
          let birthday := goTrimSpace (fields.getD 3 [])
          if nationalID ≠ [] then
            some
              { HISPatient.empty with
                  nationalID := nationalID,
                  name := goTrimSpace (fields.getD 2 []),
                  phone := goTrimSpace (fields.getD 4 []),
                  birthday :=
                    if birthday.length = 7 then convertROCDate birthday else birthday }
          else none
      else none

/-- The patient that one generic-CSV data line contributes (part_000, lines
1437-1443): non-blank lines whose extracted patient has an identifier. -/
def genCSVPatient (colMap : List (GoStr × Nat)) (line : GoStr) : Option HISPatient :=
  if goTrimSpace line = [] then none
  else
    let p := extractPatientFromCSV (parseCSVLine line) colMap
    if p.nationalID ≠ [] then some p else none

def ysCSVFields (raw : GoStr) : Option (List GoStr) :=
  if goTrimSpace raw = [] then none else some (parseCSVLine (goTrimSpace raw))

def ysCSVRowPatient (colMap : List (GoStr × Nat)) (raw : GoStr) : Option HISPatient :=
  match ysCSVFields raw with
  | none => none
  | some fields => ysCSVPatient colMap fields

def ysCSVRowRx (colMap : List (GoStr × Nat)) (m : List (GoStr × HISPrescription))
    (raw : GoStr) : List (GoStr × HISPrescription) :=
  match ysCSVFields raw with
  | none => m
  | some fields => ysRxStep colMap m fields

def ysCSVColMap (content : GoStr) : List (GoStr × Nat) :=
  match goLines content with
  | [] => []
  | l₁ :: _ =>
    if goTrimSpace l₁ = [] then []
    else if isYaoshengHeaderLine (parseCSVLine (goTrimSpace l₁)) then
      buildYaoshengColumnMapping (parseCSVLine (goTrimSpace l₁))
    else getYaoshengDefaultColumns

def ysCSVDataLines (content : GoStr) : List GoStr :=
  match goLines content with
  | [] => []
  | l₁ :: rest =>
    if goTrimSpace l₁ = [] then rest
    else if isYaoshengHeaderLine (parseCSVLine (goTrimSpace l₁)) then rest
    else l₁ :: rest

/-- Whether one Yaosheng CSV field row carries the prescription key `k`. -/
def ysRowHasKey (colMap : List (GoStr × Nat)) (k : GoStr) (fields : List GoStr) : Bool :=
  ysKeyOf colMap fields == some k

/-- Whether one Yaosheng CSV field row triggers the days-supply-≥28 rule. -/
def ysRowChronicSignal (colMap : List (GoStr × Nat)) (fields : List GoStr) : Bool :=
  match ysRowItem colMap fields with
  | some it => decide (28 ≤ it.daysSupply)
  | none => false

/-- All drug items contributed by the rows carrying key `k`, in row order. -/
def ysItemsFor (colMap : List (GoStr × Nat)) (k : GoStr)
    (rows : List (List GoStr)) : List HISPrescriptionItem :=
  rows.filterMap (fun fields =>
    if ysRowHasKey colMap k fields then ysRowItem colMap fields else none)

/-- The chronic-refill counter of the key-`k` prescription whose first row is
`r0`: 1 exactly when that first row carries visit type 08 or some row with
the key holds an item with at least 28 days of supply. -/
def ysChronicFor (colMap : List (GoStr × Nat)) (k : GoStr) (r0 : List GoStr)
    (rows : List (List GoStr)) : Int :=
  if (ysRxInit colMap r0).chronicRefillNo ≠ 0 ∨
      rows.any (fun fields =>
        ysRowHasKey colMap k fields && ysRowChronicSignal colMap fields) then 1
  else 0

/-- The prescription accumulated for key `k` over the data rows `rows`,
whose first row carrying the key is `r0`. -/
def ysRxVal (colMap : List (GoStr × Nat)) (k : GoStr) (r0 : List GoStr)
    (rows : List (List GoStr)) : HISPrescription :=
  { ysRxInit colMap r0 with
      items := ysItemsFor colMap k rows,
      chronicRefillNo := ysChronicFor colMap k r0 rows }

/-- Invariant of the Yaosheng CSV prescription-map fold: one binding per key,
holding exactly the accumulated prescription. -/
def YsRxInv (colMap : List (GoStr × Nat)) (rows : List (List GoStr))
    (m : List (GoStr × HISPrescription)) : Prop :=
  ((m.map Prod.fst).Nodup) ∧
  ∀ k, lookupA m k =
    match rows.find? (ysRowHasKey colMap k) with
    | none => none
    | some r0 => some (ysRxVal colMap k r0 rows)

/-- The prescription one DrMaster XML record appends (part_001, lines
226-238): kept exactly when it has items or a patient identifier. -/
def dmXMLRxRow (rec : DrMasterRec) : Option HISPrescription :=
  if (dmXMLRx rec).items ≠ [] ∨ (dmXMLRx rec).patientID ≠ [] then some (dmXMLRx rec)
  else none

/-- The Yaosheng CSV data rows as parsed field lists. -/
def ysCSVRows (content : GoStr) : List (List GoStr) :=
  (ysCSVDataLines content).filterMap ysCSVFields

/-- The patient of one DrMaster CSV line, `none` on blank lines. -/
def dmCSVRowPatient (colMap : List (GoStr × Nat)) (raw : GoStr) : Option HISPatient :=
  match ysCSVFields raw with
  | none => none
  | some fields => dmCSVPatient colMap fields

/-- The prescription-map update of one DrMaster CSV line. -/
def dmCSVRowRx (colMap : List (GoStr × Nat)) (m : List (GoStr × HISPrescription))
    (raw : GoStr) : List (GoStr × HISPrescription) :=
  match ysCSVFields raw with
  | none => m
  | some fields => dmRxStep colMap m fields

/-- The column map `parseDrMasterCSV` ends up using. -/
def dmCSVColMap (content : GoStr) : List (GoStr × Nat) :=
  match goLines content with
  | [] => []
  | l₁ :: _ =>
    if goTrimSpace l₁ = [] then []
    else if isDrMasterHeaderLine (parseCSVLine (goTrimSpace l₁)) then
      buildDrMasterColumnMapping (parseCSVLine (goTrimSpace l₁))
    else getDrMasterDefaultColumns

/-- The lines `parseDrMasterCSV` treats as data rows. -/
def dmCSVDataLines (content : GoStr) : List GoStr :=
  match goLines content with
  | [] => []
  | l₁ :: rest =>
    if goTrimSpace l₁ = [] then rest
    else if isDrMasterHeaderLine (parseCSVLine (goTrimSpace l₁)) then rest
    else l₁ :: rest

/-- Whether one DrMaster CSV field row triggers the days-supply-≥28 rule. -/
def dmRowChronicSignal (colMap : List (GoStr × Nat)) (fields : List GoStr) : Bool :=
  match dmRowItem colMap fields with
  | some it => decide (28 ≤ it.daysSupply)
  | none => false

/-- All drug items contributed by the DrMaster CSV rows carrying key `k`,
in row order. -/
def dmItemsFor (colMap : List (GoStr × Nat)) (k : GoStr)
    (rows : List (List GoStr)) : List HISPrescriptionItem :=
  rows.filterMap (fun fields =>
    if ysRowHasKey colMap k fields then dmRowItem colMap fields else none)

/-- The chronic-refill counter of the key-`k` DrMaster CSV prescription whose
first row is `r0`. -/
def dmChronicFor (colMap : List (GoStr × Nat)) (k : GoStr) (r0 : List GoStr)
    (rows : List (List GoStr)) : Int :=
  if (dmRxInit colMap r0).chronicRefillNo ≠ 0 ∨
      rows.any (fun fields =>
        ysRowHasKey colMap k fields && dmRowChronicSignal colMap fields) then 1
  else 0

/-- The prescription `parseDrMasterCSV` accumulates for key `k` over the data
rows `rows`, whose first row carrying the key is `r0`. -/
def dmRxVal (colMap : List (GoStr × Nat)) (k : GoStr) (r0 : List GoStr)
    (rows : List (List GoStr)) : HISPrescription :=
  { dmRxInit colMap r0 with
      items := dmItemsFor colMap k rows,
      chronicRefillNo := dmChronicFor colMap k r0 rows }

/-- Invariant of the DrMaster CSV prescription-map fold: one binding per key,
holding exactly the accumulated prescription. -/
def DmRxInv (colMap : List (GoStr × Nat)) (rows : List (List GoStr))
    (m : List (GoStr × HISPrescription)) : Prop :=
  ((m.map Prod.fst).Nodup) ∧
  ∀ k, lookupA m k =
    match rows.find? (ysRowHasKey colMap k) with
    | none => none
    | some r0 => some (dmRxVal colMap k r0 rows)

/-- The DrMaster CSV data rows as parsed field lists. -/
def dmCSVRows (content : GoStr) : List (List GoStr) :=
  (dmCSVDataLines content).filterMap ysCSVFields

/-- The prescription one Yaosheng XML record appends (part_000, lines
530-536): kept exactly when it has items or a patient identifier. -/
def ysXMLRxRow (rec : YaoshengRec) : Option HISPrescription :=
  if (ysXMLRx rec).items ≠ [] ∨ (ysXMLRx rec).patientID ≠ [] then some (ysXMLRx rec)
  else none

/-- The prescription one Vision XML record appends (README Vision section):
kept exactly when it has items or a patient identifier. -/
def visionXMLRxRow (rec : VisionRec) : Option HISPrescription :=
  if (visionXMLRx rec).items ≠ [] ∨ (visionXMLRx rec).patientID ≠ [] then
    some (visionXMLRx rec)
  else none

/-- The patient that one Vision CSV line contributes (README Vision section):
only well-formed `D` rows with a non-blank identifier.  The branch structure
mirrors the loop body exactly. -/
def visionCSVPatient (raw : GoStr) : Option HISPatient :=
  let line := goTrimSpace raw
  if line = [] then none
  else
    let fields := parseCSVLine line
    if fields.length < 2 then none
    else
      let recordType := goToUpper (goTrimSpace fields.headI)
      if recordType = gs "T" then none
      else if recordType = gs "D" then
        if fields.length < 10 then none
        else
          let nationalID := goTrimSpace (getField fields 4)
          if nationalID ≠ [] then
            some
              { HISPatient.empty with
                  nationalID := nationalID,
                  name := goTrimSpace (getField fields 5) }
          else none
      else none

/-- Whether one DAT line is a detail row (record type `2`, width at least
10; part_000, lines 578-591). -/
def datDetail (line : GoStr) : Bool :=
  if line.length < 10 then false
  else if [line.headI] = gs "2" then true
  else false

/-- The prescription identity key of one DAT detail line (part_000, lines
606-607): identifier and visit date joined by a dash, with no guard on
either part. -/
def datKeyOf (line : GoStr) : GoStr :=
  goTrimSpace (safeSubstring line 11 21) ++ gs "-" ++ goTrimSpace (safeSubstring line 48 55)

/-- Whether one DAT line carries the prescription key `k`. -/
def datRowHasKey (k : GoStr) (line : GoStr) : Bool :=
  datDetail line && (datKeyOf line == k)

/-- The prescription header created by the first DAT row of a key (part_000,
lines 608-617): no chronic rule is ever applied. -/
def datRxInit (line : GoStr) : HISPrescription :=
  let nationalID := goTrimSpace (safeSubstring line 11 21)
  let visitDate := goTrimSpace (safeSubstring line 48 55)
  { HISPrescription.empty with
      patientID := nationalID,
      prescriptionNo := gs "YS-" ++ nationalID ++ gs "-" ++ visitDate,
      dispenseDate := if 7 ≤ visitDate.length then convertROCDate visitDate else [] }

/-- The drug item one DAT detail row contributes (part_000, lines 619-634):
present only when the drug-code field is non-blank. -/
def datRowItem (line : GoStr) : Option HISPrescriptionItem :=
  let drugCode := goTrimSpace (safeSubstring line 55 65)
  if drugCode ≠ [] then
    some
      { HISPrescriptionItem.empty with
          orderType := gs "1", drugCode := drugCode,
          drugName := goTrimSpace (safeSubstring line 65 105),
          quantity := goParseFloat (goTrimSpace (safeSubstring line 105 115)),
          daysSupply := goAtoiD (goTrimSpace (safeSubstring line 115 118)) }
  else none

/-- The prescription-map update of one DAT line (part_000, lines 606-634):
create the keyed prescription if absent, then append the row drug item. -/
def datRxStep (m : List (GoStr × HISPrescription)) (line : GoStr) :
    List (GoStr × HISPrescription) :=
  if datDetail line then
    let m :=
      if (lookupA m (datKeyOf line)).isSome then m
      else m ++ [(datKeyOf line, datRxInit line)]
    match datRowItem line with
    | some item =>
      updateA m (datKeyOf line) (fun rx => { rx with items := rx.items ++ [item] })
    | none => m
  else m

/-- All drug items contributed by the DAT rows carrying key `k`, in row
order. -/
def datItemsFor (k : GoStr) (lines : List GoStr) : List HISPrescriptionItem :=
  lines.filterMap (fun l => if datRowHasKey k l then datRowItem l else none)

/-- The prescription accumulated for key `k` over the DAT lines `lines`,
whose first line carrying the key is `l0`. -/
def datRxVal (k : GoStr) (l0 : GoStr) (lines : List GoStr) : HISPrescription :=
  { datRxInit l0 with items := datItemsFor k lines }

/-- Invariant of the DAT prescription-map fold: one binding per key, holding
exactly the accumulated prescription. -/
def DatRxInv (lines : List GoStr) (m : List (GoStr × HISPrescription)) : Prop :=
  ((m.map Prod.fst).Nodup) ∧
  ∀ k, lookupA m k =
    match lines.find? (datRowHasKey k) with
    | none => none
    | some l0 => some (datRxVal k l0 lines)

/-- The chronic-refill counter as rules (a) and (c) of the shared inference
produce it from the stored visit type and items: 1 exactly when the visit
type is 08 or some item has at least 28 days of supply. -/
def chronicAC (rx : HISPrescription) : Prop :=
  rx.chronicRefillNo =
    if rx.visitType = gs "08" ∨ rx.items.any (fun it => decide (28 ≤ it.daysSupply))
    then 1 else 0

/-- The chronic-refill counter as rule (a) alone produces it: 1 exactly when
the stored visit type is 08. -/
def chronicA (rx : HISPrescription) : Prop :=
  rx.chronicRefillNo = if rx.visitType = gs "08" then 1 else 0

/-! ## Vendor entry points (part_000 lines 407-444, part_001 lines 108-144,
README Vision section, vendor_dispatcher.go lines 75-116) -/

/-- `ParseYaoshengFile` (part_000, lines 407-444) after the encoding step,
as a function of the decoded content; `umY` models `xml.Unmarshal` into the
Yaosheng record list. -/
def ParseYaoshengFile (umY : GoStr → Except GoStr (List YaoshengRec))
    (content filename : GoStr) : HISImportResult × Option GoStr :=
  let lowerFilename := goToLower filename
  if goHasSuffix lowerFilename (gs ".xml") || goContains content (gs "<?xml") ||
      goContains content (gs "<RECS>") then
    parseYaoshengXML (umY content)
  else if goHasSuffix lowerFilename (gs ".dat") then
    (parseYaoshengDAT content, none)
  else (parseYaoshengCSV content, none)

/-- `ParseDrMasterFile` (part_001, lines 108-144). -/
def ParseDrMasterFile (umD : GoStr → Except GoStr (List DrMasterRec))
    (content filename : GoStr) : HISImportResult × Option GoStr :=
  let lowerFilename := goToLower filename
  if goHasSuffix lowerFilename (gs ".xml") || goContains content (gs "<?xml") ||
      goContains content (gs "<RECS>") then
    parseDrMasterXML (umD content)
  else if goContains content (gs "|") then
    (parseDrMasterTXT content, none)
  else (parseDrMasterCSV content, none)

/-- `ParseVisionFile` (README Vision section). -/
def ParseVisionFile (umV : GoStr → Except GoStr (List VisionRec))
    (content filename : GoStr) : HISImportResult × Option GoStr :=
  let lowerFilename := goToLower filename
  if goHasSuffix lowerFilename (gs ".xml") || goContains content (gs "<?xml") ||
      goContains content (gs "<RECS>") then
    parseVisionXML (umV content)
  else (parseVisionCSV content, none)

/-- `ParseHISFileByVendor` (vendor_dispatcher.go, lines 75-102), as a
function of the decoded content.  The `.auto` case runs detection and
dispatches once, exactly as `ParseHISFileAuto` (lines 104-116) does;
`detectVendor` never yields `.auto` (`detectVendor_ne_auto` below), so the
inner `.auto` arm of the dispatch is unreachable and shares the generic
branch. -/
def ParseHISFileByVendor (umN : GoStr → Except GoStr (List NHIRecord))
    (umY : GoStr → Except GoStr (List YaoshengRec))
    (umD : GoStr → Except GoStr (List DrMasterRec))
    (umV : GoStr → Except GoStr (List VisionRec))
    (content filename : GoStr) (vendor : HISVendor) :
    Option HISImportResult × Option GoStr :=
  let dispatch : HISVendor → Option HISImportResult × Option GoStr := fun v =>
    match v with
    | .yaosheng =>
      let r := ParseYaoshengFile umY content filename
      (some r.1, r.2)
    | .vision =>
      let r := ParseVisionFile umV content filename
      (some r.1, r.2)
    | .drmaster =>
      let r := ParseDrMasterFile umD content filename
      (some r.1, r.2)
    | .nhi => ParseHISFile umN content
    | _ =>
      let r := parseGenericCSV content
      (some r.1, r.2)
  match vendor with
  | .auto => dispatch (detectVendor content filename)
  | v => dispatch v

/-- `ParseHISFileAuto` (vendor_dispatcher.go, lines 104-116): detect the
vendor, then dispatch — the `.auto` case of `ParseHISFileByVendor`. -/
def ParseHISFileAuto (umN : GoStr → Except GoStr (List NHIRecord))
    (umY : GoStr → Except GoStr (List YaoshengRec))
    (umD : GoStr → Except GoStr (List DrMasterRec))
    (umV : GoStr → Except GoStr (List VisionRec))
    (content filename : GoStr) : Option HISImportResult × Option GoStr :=
  ParseHISFileByVendor umN umY umD umV content filename .auto


/-! ## Lemmas about the association-list map model -/

theorem lookupA_append {β : Type} [Inhabited β] (m₁ m₂ : List (GoStr × β)) (k : GoStr) :
    lookupA (m₁ ++ m₂) k =
      match lookupA m₁ k with
      | some v => some v
      | none => lookupA m₂ k := by
  induction m₁ with
  | nil => simp [lookupA]
  | cons kv t ih =>
    obtain ⟨k', v'⟩ := kv
    by_cases h : k' = k <;> simp [lookupA, h, ih]

theorem lookupA_eq_none_iff {β : Type} [Inhabited β] (m : List (GoStr × β)) (k : GoStr) :
    lookupA m k = none ↔ k ∉ m.map Prod.fst := by
  induction m with
  | nil => simp [lookupA]
  | cons kv t ih =>
    obtain ⟨k', v'⟩ := kv
    by_cases h : k' = k
    · subst h
      simp [lookupA]
    · simp [lookupA, h, ih, Ne.symm h]

theorem lookupA_mem {β : Type} [Inhabited β] {m : List (GoStr × β)} {k : GoStr} {v : β}
    (h : lookupA m k = some v) : (k, v) ∈ m := by
  induction m with
  | nil => simp [lookupA] at h
  | cons kv t ih =>
    obtain ⟨k', v'⟩ := kv
    by_cases hk : k' = k
    · subst hk
      simp [lookupA] at h
      simp [h]
    · simp [lookupA, hk] at h
      exact List.mem_cons_of_mem _ (ih h)

theorem lookupA_of_mem_nodup {β : Type} [Inhabited β] {m : List (GoStr × β)} {k : GoStr} {v : β}
    (hnd : (m.map Prod.fst).Nodup) (hm : (k, v) ∈ m) : lookupA m k = some v := by
  induction m with
  | nil => simp at hm
  | cons kv t ih =>
    obtain ⟨k', v'⟩ := kv
    simp only [List.map_cons, List.nodup_cons] at hnd
    rcases List.mem_cons.1 hm with h | h
    · rw [Prod.mk.injEq] at h
      simp [lookupA, h.1, h.2]
    · have hk : k' ≠ k := by
        intro hkk
        subst hkk
        exact hnd.1 (by simpa using List.mem_map_of_mem Prod.fst h)
      simp only [lookupA, hk, if_false]
      exact ih hnd.2 h

theorem lookupA_updateA_ne {β : Type} [Inhabited β] (m : List (GoStr × β)) (k' k : GoStr)
    (f : β → β) (h : k' ≠ k) : lookupA (updateA m k' f) k = lookupA m k := by
  induction m with
  | nil => simp [updateA]
  | cons kv t ih =>
    obtain ⟨k₀, v₀⟩ := kv
    by_cases h0 : k₀ = k'
    · subst h0
      simp [updateA, lookupA, h]
    · by_cases h1 : k₀ = k
      · subst h1
        simp [updateA, lookupA, h0, ih, Ne.symm h]
      · simp [updateA, lookupA, h0, h1, ih]

theorem lookupA_updateA_self {β : Type} [Inhabited β] (m : List (GoStr × β)) (k : GoStr)
    (f : β → β) : lookupA (updateA m k f) k = (lookupA m k).map f := by
  induction m with
  | nil => simp [updateA, lookupA]
  | cons kv t ih =>
    obtain ⟨k₀, v₀⟩ := kv
    by_cases h0 : k₀ = k <;> simp [updateA, lookupA, h0, ih]

theorem updateA_map_fst {β : Type} [Inhabited β] (m : List (GoStr × β)) (k : GoStr) (f : β → β) :
    (updateA m k f).map Prod.fst = m.map Prod.fst := by
  induction m with
  | nil => simp [updateA]
  | cons kv t ih =>
    obtain ⟨k₀, v₀⟩ := kv
    by_cases h0 : k₀ = k <;> simp [updateA, h0, ih]

theorem patFold_nil (m : List (GoStr × HISPatient)) : patFold m [] = m := rfl

theorem patFold_cons (m : List (GoStr × HISPatient)) (p : HISPatient)
    (ps : List HISPatient) :
    patFold m (p :: ps) = patFold (insertIfAbsent m p.nationalID p) ps := rfl

theorem patFold_lookup (ps : List HISPatient) :
    ∀ (m : List (GoStr × HISPatient)) (k : GoStr),
      lookupA (patFold m ps) k =
        match lookupA m k with
        | some v => some v
        | none => ps.find? (fun q => q.nationalID == k) := by
  induction ps with
  | nil => intro m k; cases h : lookupA m k <;> simp [patFold, h]
  | cons p ps ih =>
    intro m k
    rw [patFold_cons, ih]
    by_cases hpk : p.nationalID = k
    · subst hpk
      cases h : lookupA m p.nationalID with
      | some v => simp [insertIfAbsent, h, List.find?]
      | none =>
        simp only [insertIfAbsent, h, Option.isSome_none, Bool.false_eq_true, if_false]
        rw [lookupA_append]
        simp [h, lookupA, List.find?]
    · have hne : (p.nationalID == k) = false := by simp [hpk]
      cases h2 : lookupA m p.nationalID with
      | some w => simp [insertIfAbsent, h2, List.find?, hne]
      | none =>
        simp only [insertIfAbsent, h2, Option.isSome_none, Bool.false_eq_true, if_false]
        rw [lookupA_append]
        cases h : lookupA m k <;> simp [h, lookupA, hpk, List.find?, hne]

theorem patFold_map_fst_nodup (ps : List HISPatient) :
    ∀ (m : List (GoStr × HISPatient)), (m.map Prod.fst).Nodup →
      ((patFold m ps).map Prod.fst).Nodup := by
  induction ps with
  | nil => intro m h; simpa [patFold] using h
  | cons p ps ih =>
    intro m h
    rw [patFold_cons]
    apply ih
    cases hl : lookupA m p.nationalID with
    | some v => simpa [insertIfAbsent, hl] using h
    | none =>
      have hnotin := (lookupA_eq_none_iff m p.nationalID).1 hl
      simp [insertIfAbsent, hl, List.nodup_append, h, hnotin]

theorem patFold_key_eq (ps : List HISPatient) :
    ∀ (m : List (GoStr × HISPatient)), (∀ x ∈ m, (x.2).nationalID = x.1) →
      ∀ x ∈ patFold m ps, (x.2).nationalID = x.1 := by
  induction ps with
  | nil => intro m h; simpa [patFold] using h
  | cons p ps ih =>
    intro m h
    rw [patFold_cons]
    apply ih
    intro x hx
    cases hl : lookupA m p.nationalID with
    | some v => exact h x (by simpa [insertIfAbsent, hl] using hx)
    | none =>
      simp only [insertIfAbsent, hl, Option.isSome_none, Bool.false_eq_true, if_false,
        List.mem_append, List.mem_singleton] at hx
      rcases hx with hx | hx
      · exact h x hx
      · rw [hx]

theorem patFold_spec (ps : List HISPatient) :
    ((valuesA (patFold [] ps)).map (fun p => p.nationalID)).Nodup ∧
    ∀ p ∈ valuesA (patFold [] ps),
      ps.find? (fun q => q.nationalID == p.nationalID) = some p := by
  have hkeys : ∀ x ∈ patFold [] ps, (x.2).nationalID = x.1 :=
    patFold_key_eq ps [] (by simp)
  have hnd : ((patFold [] ps).map Prod.fst).Nodup :=
    patFold_map_fst_nodup ps [] (by simp)
  constructor
  · have heq : (valuesA (patFold [] ps)).map (fun p => p.nationalID) =
        (patFold [] ps).map Prod.fst := by
      simp only [valuesA, List.map_map]
      exact List.map_congr_left (fun x hx => hkeys x hx)
    rw [heq]
    exact hnd
  · intro p hp
    obtain ⟨x, hxmem, hxid⟩ := List.mem_map.1 hp
    have hk : (x.2).nationalID = x.1 := hkeys x hxmem
    have hmem : (p.nationalID, p) ∈ patFold [] ps := by
      obtain ⟨x1, x2⟩ := x
      simp only at hxid hk
      rw [hxid] at hk
      rw [← hk, hxid] at hxmem
      exact hxmem
    have hlook := lookupA_of_mem_nodup hnd hmem
    have hlk := patFold_lookup ps [] p.nationalID
    simp only [lookupA] at hlk
    rw [hlook] at hlk
    exact hlk.symm

theorem foldl_filterMap {α β γ : Type} (f : α → Option β) (g : γ → β → γ)
    (l : List α) (init : γ) :
    (l.filterMap f).foldl g init =
      l.foldl (fun acc x => match f x with | some b => g acc b | none => acc) init := by
  induction l generalizing init with
  | nil => simp
  | cons x xs ih =>
    cases h : f x <;> simp [List.filterMap_cons, h, ih]

/-! ## Per-decoder patient extraction views -/

theorem ysDATLine_patientMap (st : YsDATState) (line : GoStr) :
    (ysDATLine st line).patientMap =
      match ysDATPatient line with
      | some p => insertIfAbsent st.patientMap p.nationalID p
      | none => st.patientMap := by
  by_cases h1 : line.length < 10
  · simp [ysDATLine, ysDATPatient, h1]
  by_cases h2 : [line.headI] = gs "2"
  · by_cases h3 : goTrimSpace (safeSubstring line 11 21) = []
    · simp only [ysDATLine, ysDATPatient, h1, if_false, h2, if_true, h3,
        ne_eq, not_true_eq_false]
      split <;> split <;> rfl
    · simp only [ysDATLine, ysDATPatient, h1, if_false, h2, if_true, h3,
        ne_eq, not_false_eq_true, if_true]
      split <;> split <;> rfl
  · simp [ysDATLine, ysDATPatient, h1, h2]

theorem ysDAT_fold_patientMap (lines : List GoStr) :
    ∀ st : YsDATState,
      (lines.foldl ysDATLine st).patientMap =
        patFold st.patientMap (lines.filterMap ysDATPatient) := by
  induction lines with
  | nil => intro st; simp [patFold]
  | cons l ls ih =>
    intro st
    simp only [List.foldl_cons]
    rw [ih]
    cases h : ysDATPatient l with
    | some p =>
      rw [List.filterMap_cons, h, patFold_cons]
      have hpm := ysDATLine_patientMap st l
      rw [h] at hpm
      rw [hpm]
    | none =>
      rw [List.filterMap_cons, h]
      have hpm := ysDATLine_patientMap st l
      rw [h] at hpm
      rw [hpm]

theorem parseYaoshengDAT_patients (content : GoStr) :
    (parseYaoshengDAT content).patients =
      valuesA (patFold [] ((goLines content).filterMap ysDATPatient)) := by
  simp only [parseYaoshengDAT]
  rw [ysDAT_fold_patientMap]

theorem dmTXTLine_patientMap (st : DmTXTState) (raw : GoStr) :
    (dmTXTLine st raw).patientMap =
      match dmTXTPatient raw with
      | some p => insertIfAbsent st.patientMap p.nationalID p
      | none => st.patientMap := by
  by_cases h0 : goTrimSpace raw = []
  · simp [dmTXTLine, dmTXTPatient, h0]
  by_cases h1 : (goSplit (goTrimSpace raw) '|').length < 2
  · simp [dmTXTLine, dmTXTPatient, h0, h1]
  by_cases hH : goToUpper (goTrimSpace (goSplit (goTrimSpace raw) '|').headI) = gs "H"
  · simp [dmTXTLine, dmTXTPatient, h0, h1, hH]
  have hDH : ¬ (gs "D" = gs "H") := by decide
  by_cases hD : goToUpper (goTrimSpace (goSplit (goTrimSpace raw) '|').headI) = gs "D"
  · by_cases h7 : (goSplit (goTrimSpace raw) '|').length < 7
    · simp [dmTXTLine, dmTXTPatient, h0, h1, hH, hD, h7, hDH]
    · by_cases hid : goTrimSpace ((goSplit (goTrimSpace raw) '|')[1]?.getD []) = []
      · simp [dmTXTLine, dmTXTPatient, h0, h1, hH, hD, h7, hid, hDH]
      · simp [dmTXTLine, dmTXTPatient, h0, h1, hH, hD, h7, hid, hDH]
  · by_cases hM : goToUpper (goTrimSpace (goSplit (goTrimSpace raw) '|').headI) = gs "M"
    · have hMH : ¬ (gs "M" = gs "H") := by decide
      have hMD : ¬ (gs "M" = gs "D") := by decide
      simp only [dmTXTLine, dmTXTPatient, h0, h1, hH, hD, hM, hMH, hMD, ite_true,
        ite_false, if_true, if_false]
      split
      · rfl
      · split
        · rfl
        · split <;> rfl
    · simp [dmTXTLine, dmTXTPatient, h0, h1, hH, hD, hM]

theorem dmTXT_fold_patientMap (lines : List GoStr) :
    ∀ st : DmTXTState,
      (lines.foldl dmTXTLine st).patientMap =
        patFold st.patientMap (lines.filterMap dmTXTPatient) := by
  induction lines with
  | nil => intro st; simp [patFold]
  | cons l ls ih =>
    intro st
    simp only [List.foldl_cons]
    rw [ih]
    cases h : dmTXTPatient l with
    | some p =>
      rw [List.filterMap_cons, h, patFold_cons]
      have hpm := dmTXTLine_patientMap st l
      rw [h] at hpm
      rw [hpm]
    | none =>
      rw [List.filterMap_cons, h]
      have hpm := dmTXTLine_patientMap st l
      rw [h] at hpm
      rw [hpm]

theorem parseDrMasterTXT_patients (content : GoStr) :
    (parseDrMasterTXT content).patients =
      valuesA (patFold [] ((goLines content).filterMap dmTXTPatient)) := by
  simp only [parseDrMasterTXT]
  rw [dmTXT_fold_patientMap]

theorem genCSVLine_patientMap (colMap : List (GoStr × Nat)) (st : GenCSVState)
    (line : GoStr) :
    (genCSVLine colMap st line).patientMap =
      match genCSVPatient colMap line with
      | some p => insertIfAbsent st.patientMap p.nationalID p
      | none => st.patientMap := by
  by_cases h0 : goTrimSpace line = []
  · simp [genCSVLine, genCSVPatient, h0]
  by_cases h1 : (extractPatientFromCSV (parseCSVLine line) colMap).nationalID = []
  · simp only [genCSVLine, genCSVPatient, h0, if_false, h1, ne_eq, not_true_eq_false,
      if_true]
    split
    · split
      · split <;> rfl
      · rfl
    · rfl
  · simp only [genCSVLine, genCSVPatient, h0, if_false, h1, ne_eq, not_false_eq_true,
      if_true]
    split
    · split
      · split <;> rfl
      · rfl
    · rfl

theorem genCSV_fold_patientMap (colMap : List (GoStr × Nat)) (lines : List GoStr) :
    ∀ st : GenCSVState,
      (lines.foldl (genCSVLine colMap) st).patientMap =
        patFold st.patientMap (lines.filterMap (genCSVPatient colMap)) := by
  induction lines with
  | nil => intro st; simp [patFold]
  | cons l ls ih =>
    intro st
    simp only [List.foldl_cons]
    rw [ih]
    cases h : genCSVPatient colMap l with
    | some p =>
      rw [List.filterMap_cons, h, patFold_cons]
      have hpm := genCSVLine_patientMap colMap st l
      rw [h] at hpm
      rw [hpm]
    | none =>
      rw [List.filterMap_cons, h]
      have hpm := genCSVLine_patientMap colMap st l
      rw [h] at hpm
      rw [hpm]

theorem parseGenericCSV_patients (content : GoStr) :
    (parseGenericCSV content).1.patients =
      match goLines content with
      | [] => []
      | headerLine :: rest =>
        valuesA (patFold [] (rest.filterMap
          (genCSVPatient (buildColumnMapping (parseCSVLine headerLine))))) := by
  cases h : goLines content with
  | nil => simp [parseGenericCSV, h]
  | cons headerLine rest =>
    simp only [parseGenericCSV, h]
    rw [genCSV_fold_patientMap]

theorem ysXMLRec_patientMap (st : YsXMLState) (i : Nat) (rec : YaoshengRec) :
    (ysXMLRec st i rec).patientMap =
      match ysXMLPatient rec with
      | some p => insertIfAbsent st.patientMap p.nationalID p
      | none => st.patientMap := by
  cases h : ysXMLPatient rec <;>
    simp only [ysXMLRec, h] <;> split <;> rfl

theorem dmXMLRec_patientMap (st : YsXMLState) (i : Nat) (rec : DrMasterRec) :
    (dmXMLRec st i rec).patientMap =
      match dmXMLPatient rec with
      | some p => insertIfAbsent st.patientMap p.nationalID p
      | none => st.patientMap := by
  cases h : dmXMLPatient rec <;>
    simp only [dmXMLRec, h] <;> split <;> rfl

theorem nhiXMLRec_patientMap (st : NHIXMLState) (rec : NHIRecord) :
    (nhiXMLRec st rec).patientMap =
      match nhiXMLPatient rec with
      | some p => insertIfAbsent st.patientMap p.nationalID p
      | none => st.patientMap := by
  cases h : nhiXMLPatient rec <;> simp only [nhiXMLRec, h]

theorem ysXML_fold_patientMap (l : List (Nat × YaoshengRec)) :
    ∀ st : YsXMLState,
      ((l.foldl (fun st p => ysXMLRec st p.1 p.2) st).patientMap) =
        patFold st.patientMap (l.filterMap (fun p => ysXMLPatient p.2)) := by
  induction l with
  | nil => intro st; simp [patFold]
  | cons x xs ih =>
    intro st
    simp only [List.foldl_cons]
    rw [ih]
    cases h : ysXMLPatient x.2 with
    | some p =>
      rw [List.filterMap_cons]
      simp only [h, patFold_cons]
      have hpm := ysXMLRec_patientMap st x.1 x.2
      rw [h] at hpm
      rw [hpm]
    | none =>
      rw [List.filterMap_cons]
      simp only [h]
      have hpm := ysXMLRec_patientMap st x.1 x.2
      rw [h] at hpm
      rw [hpm]

theorem dmXML_fold_patientMap (l : List (Nat × DrMasterRec)) :
    ∀ st : YsXMLState,
      ((l.foldl (fun st p => dmXMLRec st p.1 p.2) st).patientMap) =
        patFold st.patientMap (l.filterMap (fun p => dmXMLPatient p.2)) := by
  induction l with
  | nil => intro st; simp [patFold]
  | cons x xs ih =>
    intro st
    simp only [List.foldl_cons]
    rw [ih]
    cases h : dmXMLPatient x.2 with
    | some p =>
      rw [List.filterMap_cons]
      simp only [h, patFold_cons]
      have hpm := dmXMLRec_patientMap st x.1 x.2
      rw [h] at hpm
      rw [hpm]
    | none =>
      rw [List.filterMap_cons]
      simp only [h]
      have hpm := dmXMLRec_patientMap st x.1 x.2
      rw [h] at hpm
      rw [hpm]

theorem nhiXML_fold_patientMap (l : List NHIRecord) :
    ∀ st : NHIXMLState,
      ((l.foldl nhiXMLRec st).patientMap) =
        patFold st.patientMap (l.filterMap nhiXMLPatient) := by
  induction l with
  | nil => intro st; simp [patFold]
  | cons x xs ih =>
    intro st
    simp only [List.foldl_cons]
    rw [ih]
    cases h : nhiXMLPatient x with
    | some p =>
      rw [List.filterMap_cons]
      simp only [h, patFold_cons]
      have hpm := nhiXMLRec_patientMap st x
      rw [h] at hpm
      rw [hpm]
    | none =>
      rw [List.filterMap_cons]
      simp only [h]
      have hpm := nhiXMLRec_patientMap st x
      rw [h] at hpm
      rw [hpm]

theorem parseYaoshengXML_patients (recs : List YaoshengRec) :
    (parseYaoshengXML (.ok recs)).1.patients =
      valuesA (patFold [] (recs.filterMap ysXMLPatient)) := by
  simp only [parseYaoshengXML]
  rw [ysXML_fold_patientMap]
  have henum : recs.enum.filterMap (fun p => ysXMLPatient p.2) =
      recs.filterMap ysXMLPatient := by
    have h1 : recs.enum.filterMap (fun p => ysXMLPatient p.2) =
        (recs.enum.map Prod.snd).filterMap ysXMLPatient := by
      rw [List.filterMap_map]
      rfl
    rw [h1, List.enum_map_snd]
  rw [henum]

theorem parseDrMasterXML_patients (recs : List DrMasterRec) :
    (parseDrMasterXML (.ok recs)).1.patients =
      valuesA (patFold [] (recs.filterMap dmXMLPatient)) := by
  simp only [parseDrMasterXML]
  rw [dmXML_fold_patientMap]
  have henum : recs.enum.filterMap (fun p => dmXMLPatient p.2) =
      recs.filterMap dmXMLPatient := by
    have h1 : recs.enum.filterMap (fun p => dmXMLPatient p.2) =
        (recs.enum.map Prod.snd).filterMap dmXMLPatient := by
      rw [List.filterMap_map]
      rfl
    rw [h1, List.enum_map_snd]
  rw [henum]

theorem ParseNHIUploadXML_patients (recs : List NHIRecord) :
    (ParseNHIUploadXML (.ok recs)).1.patients =
      valuesA (patFold [] (recs.filterMap nhiXMLPatient)) := by
  simp only [ParseNHIUploadXML]
  rw [nhiXML_fold_patientMap]

theorem visionXMLRec_patientMap (st : YsXMLState) (i : Nat) (rec : VisionRec) :
    (visionXMLRec st i rec).patientMap =
      match visionXMLPatient rec with
      | some p => insertIfAbsent st.patientMap p.nationalID p
      | none => st.patientMap := by
  cases h : visionXMLPatient rec <;>
    simp only [visionXMLRec, h] <;> split <;> rfl

theorem visionXML_fold_patientMap (l : List (Nat × VisionRec)) :
    ∀ st : YsXMLState,
      ((l.foldl (fun st p => visionXMLRec st p.1 p.2) st).patientMap) =
        patFold st.patientMap (l.filterMap (fun p => visionXMLPatient p.2)) := by
  induction l with
  | nil => intro st; simp [patFold]
  | cons x xs ih =>
    intro st
    simp only [List.foldl_cons]
    rw [ih]
    cases h : visionXMLPatient x.2 with
    | some p =>
      rw [List.filterMap_cons]
      simp only [h, patFold_cons]
      have hpm := visionXMLRec_patientMap st x.1 x.2
      rw [h] at hpm
      rw [hpm]
    | none =>
      rw [List.filterMap_cons]
      simp only [h]
      have hpm := visionXMLRec_patientMap st x.1 x.2
      rw [h] at hpm
      rw [hpm]

theorem parseVisionXML_patients (recs : List VisionRec) :
    (parseVisionXML (.ok recs)).1.patients =
      valuesA (patFold [] (recs.filterMap visionXMLPatient)) := by
  simp only [parseVisionXML]
  rw [visionXML_fold_patientMap]
  have henum : recs.enum.filterMap (fun p => visionXMLPatient p.2) =
      recs.filterMap visionXMLPatient := by
    have h1 : recs.enum.filterMap (fun p => visionXMLPatient p.2) =
        (recs.enum.map Prod.snd).filterMap visionXMLPatient := by
      rw [List.filterMap_map]
      rfl
    rw [h1, List.enum_map_snd]
  rw [henum]

theorem visionCSVLine_patientMap (st : DmTXTState) (raw : GoStr) :
    (visionCSVLine st raw).patientMap =
      match visionCSVPatient raw with
      | some p => insertIfAbsent st.patientMap p.nationalID p
      | none => st.patientMap := by
  by_cases h0 : goTrimSpace raw = []
  · simp [visionCSVLine, visionCSVPatient, h0]
  by_cases h1 : (parseCSVLine (goTrimSpace raw)).length < 2
  · simp [visionCSVLine, visionCSVPatient, h0, h1]
  by_cases hT : goToUpper (goTrimSpace (parseCSVLine (goTrimSpace raw)).headI) = gs "T"
  · simp [visionCSVLine, visionCSVPatient, h0, h1, hT]
  have hDT : ¬ (gs "D" = gs "T") := by decide
  by_cases hD : goToUpper (goTrimSpace (parseCSVLine (goTrimSpace raw)).headI) = gs "D"
  · by_cases h10 : (parseCSVLine (goTrimSpace raw)).length < 10
    · simp [visionCSVLine, visionCSVPatient, h0, h1, hT, hD, h10, hDT]
    · by_cases hid : goTrimSpace (getField (parseCSVLine (goTrimSpace raw)) 4) = []
      · simp [visionCSVLine, visionCSVPatient, h0, h1, hT, hD, h10, hid, hDT]
      · simp [visionCSVLine, visionCSVPatient, h0, h1, hT, hD, h10, hid, hDT]
  · by_cases hP : goToUpper (goTrimSpace (parseCSVLine (goTrimSpace raw)).headI) = gs "P"
    · have hPT : ¬ (gs "P" = gs "T") := by decide
      have hPD : ¬ (gs "P" = gs "D") := by decide
      simp only [visionCSVLine, visionCSVPatient, h0, h1, hT, hD, hP, hPT, hPD,
        ite_true, ite_false, if_true, if_false]
      split
      · rfl
      · split
        · rfl
        · split <;> rfl
    · simp [visionCSVLine, visionCSVPatient, h0, h1, hT, hD, hP]

theorem visionCSV_fold_patientMap (lines : List GoStr) :
    ∀ st : DmTXTState,
      (lines.foldl visionCSVLine st).patientMap =
        patFold st.patientMap (lines.filterMap visionCSVPatient) := by
  induction lines with
  | nil => intro st; simp [patFold]
  | cons l ls ih =>
    intro st
    simp only [List.foldl_cons]
    rw [ih]
    cases h : visionCSVPatient l with
    | some p =>
      rw [List.filterMap_cons, h, patFold_cons]
      have hpm := visionCSVLine_patientMap st l
      rw [h] at hpm
      rw [hpm]
    | none =>
      rw [List.filterMap_cons, h]
      have hpm := visionCSVLine_patientMap st l
      rw [h] at hpm
      rw [hpm]

theorem parseVisionCSV_patients (content : GoStr) :
    (parseVisionCSV content).patients =
      valuesA (patFold [] ((goLines content).filterMap visionCSVPatient)) := by
  simp only [parseVisionCSV]
  rw [visionCSV_fold_patientMap]

theorem ysCSVData_colMap (st : YsCSVState) (fields : List GoStr) :
    (ysCSVData st fields).colMap = st.colMap := by
  simp only [ysCSVData]
  cases ysCSVPatient st.colMap fields <;> rfl

theorem ysCSVData_lineNum (st : YsCSVState) (fields : List GoStr) :
    (ysCSVData st fields).lineNum = st.lineNum := by
  simp only [ysCSVData]
  cases ysCSVPatient st.colMap fields <;> rfl

theorem ysCSVData_patientMap (st : YsCSVState) (fields : List GoStr) :
    (ysCSVData st fields).patientMap =
      match ysCSVPatient st.colMap fields with
      | some p => insertIfAbsent st.patientMap p.nationalID p
      | none => st.patientMap := by
  simp only [ysCSVData]
  cases ysCSVPatient st.colMap fields <;> rfl

theorem ysCSVData_rxMap (st : YsCSVState) (fields : List GoStr) :
    (ysCSVData st fields).rxMap = ysRxStep st.colMap st.rxMap fields := by
  simp only [ysCSVData]
  cases ysCSVPatient st.colMap fields <;> rfl

theorem ysCSVLine_ge1 (st : YsCSVState) (raw : GoStr) (h : 1 ≤ st.lineNum) :
    (ysCSVLine st raw).colMap = st.colMap ∧
    1 ≤ (ysCSVLine st raw).lineNum ∧
    (ysCSVLine st raw).patientMap =
      (match ysCSVRowPatient st.colMap raw with
       | some p => insertIfAbsent st.patientMap p.nationalID p
       | none => st.patientMap) ∧
    (ysCSVLine st raw).rxMap = ysCSVRowRx st.colMap st.rxMap raw := by
  have hne : st.lineNum + 1 ≠ 1 := by omega
  by_cases hb : goTrimSpace raw = []
  · have hL : ysCSVLine st raw = { st with lineNum := st.lineNum + 1 } := by
      simp [ysCSVLine, hb]
    rw [hL]
    refine ⟨rfl, ?_, ?_, ?_⟩
    · have hln : ({ st with lineNum := st.lineNum + 1 } : YsCSVState).lineNum =
          st.lineNum + 1 := rfl
      rw [hln]; omega
    · simp [ysCSVRowPatient, ysCSVFields, hb]
    · simp [ysCSVRowRx, ysCSVFields, hb]
  · have hL : ysCSVLine st raw =
        ysCSVData { st with lineNum := st.lineNum + 1 }
          (parseCSVLine (goTrimSpace raw)) := by
      simp [ysCSVLine, hb, hne]
    rw [hL]
    refine ⟨?_, ?_, ?_, ?_⟩
    · rw [ysCSVData_colMap]
    · have hln : ({ st with lineNum := st.lineNum + 1 } : YsCSVState).lineNum =
          st.lineNum + 1 := rfl
      rw [ysCSVData_lineNum, hln]; omega
    · rw [ysCSVData_patientMap]
      cases hm : ysCSVPatient st.colMap (parseCSVLine (goTrimSpace raw)) <;>
        simp [ysCSVRowPatient, ysCSVFields, hb, hm]
    · rw [ysCSVData_rxMap]
      simp [ysCSVRowRx, ysCSVFields, hb]

theorem ysCSV_fold (lines : List GoStr) :
    ∀ st : YsCSVState, 1 ≤ st.lineNum →
      (lines.foldl ysCSVLine st).patientMap =
        patFold st.patientMap (lines.filterMap (ysCSVRowPatient st.colMap)) ∧
      (lines.foldl ysCSVLine st).rxMap =
        lines.foldl (ysCSVRowRx st.colMap) st.rxMap := by
  induction lines with
  | nil => intro st _; exact ⟨rfl, rfl⟩
  | cons l ls ih =>
    intro st h
    obtain ⟨hc, hn, hp, hr⟩ := ysCSVLine_ge1 st l h
    obtain ⟨ihp, ihr⟩ := ih (ysCSVLine st l) hn
    rw [hc] at ihp ihr
    simp only [List.foldl_cons, List.filterMap_cons]
    refine ⟨?_, ?_⟩
    · rw [ihp, hp]
      cases hm : ysCSVRowPatient st.colMap l <;> simp only [hm, patFold_cons]
    · rw [ihr, hr]

theorem parseYaoshengCSV_maps (content : GoStr) :
    (parseYaoshengCSV content).patients =
      valuesA (patFold []
        ((ysCSVDataLines content).filterMap (ysCSVRowPatient (ysCSVColMap content)))) ∧
    (parseYaoshengCSV content).prescriptions =
      valuesA ((ysCSVDataLines content).foldl (ysCSVRowRx (ysCSVColMap content)) []) := by
  cases hG : goLines content with
  | nil =>
    simp [parseYaoshengCSV, hG, ysCSVDataLines, ysCSVColMap, patFold, valuesA]
  | cons l₁ rest =>
    by_cases hb : goTrimSpace l₁ = []
    · have h1 : ysCSVLine ⟨0, [], 0, 0, 0, [], []⟩ l₁ =
          ⟨1, [], 0, 0, 0, [], []⟩ := by
        simp [ysCSVLine, hb]
      have hp : (rest.foldl ysCSVLine (⟨1, [], 0, 0, 0, [], []⟩ : YsCSVState)).patientMap =
          patFold [] (rest.filterMap (ysCSVRowPatient [])) :=
        (ysCSV_fold rest ⟨1, [], 0, 0, 0, [], []⟩ (by norm_num)).1
      have hr : (rest.foldl ysCSVLine (⟨1, [], 0, 0, 0, [], []⟩ : YsCSVState)).rxMap =
          rest.foldl (ysCSVRowRx []) [] :=
        (ysCSV_fold rest ⟨1, [], 0, 0, 0, [], []⟩ (by norm_num)).2
      refine ⟨?_, ?_⟩ <;>
        simp only [parseYaoshengCSV, hG, List.foldl_cons, h1, ysCSVDataLines,
          ysCSVColMap, hb, reduceIte]
      · rw [hp]
      · rw [hr]
    · by_cases hh : isYaoshengHeaderLine (parseCSVLine (goTrimSpace l₁)) = true
      · have h1 : ysCSVLine ⟨0, [], 0, 0, 0, [], []⟩ l₁ =
            ⟨1, buildYaoshengColumnMapping (parseCSVLine (goTrimSpace l₁)),
             0, 0, 0, [], []⟩ := by
          simp [ysCSVLine, hb, hh]
        have hp : (rest.foldl ysCSVLine
            (⟨1, buildYaoshengColumnMapping (parseCSVLine (goTrimSpace l₁)),
              0, 0, 0, [], []⟩ : YsCSVState)).patientMap =
            patFold [] (rest.filterMap (ysCSVRowPatient
              (buildYaoshengColumnMapping (parseCSVLine (goTrimSpace l₁))))) :=
          (ysCSV_fold rest _ (by norm_num)).1
        have hr : (rest.foldl ysCSVLine
            (⟨1, buildYaoshengColumnMapping (parseCSVLine (goTrimSpace l₁)),
              0, 0, 0, [], []⟩ : YsCSVState)).rxMap =
            rest.foldl (ysCSVRowRx
              (buildYaoshengColumnMapping (parseCSVLine (goTrimSpace l₁)))) [] :=
          (ysCSV_fold rest _ (by norm_num)).2
        refine ⟨?_, ?_⟩ <;>
          simp only [parseYaoshengCSV, hG, List.foldl_cons, h1, ysCSVDataLines,
            ysCSVColMap, hb, hh, reduceIte]
        · rw [hp]
        · rw [hr]
      · have h1 : ysCSVLine ⟨0, [], 0, 0, 0, [], []⟩ l₁ =
            ysCSVData ⟨1, getYaoshengDefaultColumns, 0, 0, 0, [], []⟩
              (parseCSVLine (goTrimSpace l₁)) := by
          simp [ysCSVLine, hb, hh]
        have hln : (ysCSVData ⟨1, getYaoshengDefaultColumns, 0, 0, 0, [], []⟩
            (parseCSVLine (goTrimSpace l₁))).lineNum = 1 :=
          ysCSVData_lineNum _ _
        have hp : (rest.foldl ysCSVLine
            (ysCSVData ⟨1, getYaoshengDefaultColumns, 0, 0, 0, [], []⟩
              (parseCSVLine (goTrimSpace l₁)))).patientMap =
            patFold
              (match ysCSVPatient getYaoshengDefaultColumns
                  (parseCSVLine (goTrimSpace l₁)) with
               | some p => insertIfAbsent [] p.nationalID p
               | none => ([] : List (GoStr × HISPatient)))
              (rest.filterMap (ysCSVRowPatient getYaoshengDefaultColumns)) := by
          have hfold := (ysCSV_fold rest
            (ysCSVData ⟨1, getYaoshengDefaultColumns, 0, 0, 0, [], []⟩
              (parseCSVLine (goTrimSpace l₁))) (by rw [hln])).1
          rw [ysCSVData_colMap, ysCSVData_patientMap] at hfold
          exact hfold
        have hr : (rest.foldl ysCSVLine
            (ysCSVData ⟨1, getYaoshengDefaultColumns, 0, 0, 0, [], []⟩
              (parseCSVLine (goTrimSpace l₁)))).rxMap =
            rest.foldl (ysCSVRowRx getYaoshengDefaultColumns)
              (ysRxStep getYaoshengDefaultColumns []
                (parseCSVLine (goTrimSpace l₁))) := by
          have hfold := (ysCSV_fold rest
            (ysCSVData ⟨1, getYaoshengDefaultColumns, 0, 0, 0, [], []⟩
              (parseCSVLine (goTrimSpace l₁))) (by rw [hln])).2
          rw [ysCSVData_colMap, ysCSVData_rxMap] at hfold
          exact hfold
        have hrowP : ysCSVRowPatient getYaoshengDefaultColumns l₁ =
            ysCSVPatient getYaoshengDefaultColumns (parseCSVLine (goTrimSpace l₁)) := by
          simp [ysCSVRowPatient, ysCSVFields, hb]
        have hrowR : ysCSVRowRx getYaoshengDefaultColumns [] l₁ =
            ysRxStep getYaoshengDefaultColumns [] (parseCSVLine (goTrimSpace l₁)) := by
          simp [ysCSVRowRx, ysCSVFields, hb]
        refine ⟨?_, ?_⟩ <;>
          simp only [parseYaoshengCSV, hG, List.foldl_cons, h1, ysCSVDataLines,
            ysCSVColMap, hb, hh, reduceIte, List.filterMap_cons,
            Bool.false_eq_true, if_false]
        · rw [hrowP]
          cases hm : ysCSVPatient getYaoshengDefaultColumns
              (parseCSVLine (goTrimSpace l₁)) with
          | none =>
            simp only [hm] at hp ⊢
            rw [hp]
          | some p =>
            simp only [hm, patFold_cons] at hp ⊢
            rw [hp]
        · rw [hrowR, hr]

theorem dmCSVData_colMap (st : YsCSVState) (fields : List GoStr) :
    (dmCSVData st fields).colMap = st.colMap := by
  simp only [dmCSVData]
  cases dmCSVPatient st.colMap fields <;> rfl

theorem dmCSVData_lineNum (st : YsCSVState) (fields : List GoStr) :
    (dmCSVData st fields).lineNum = st.lineNum := by
  simp only [dmCSVData]
  cases dmCSVPatient st.colMap fields <;> rfl

theorem dmCSVData_patientMap (st : YsCSVState) (fields : List GoStr) :
    (dmCSVData st fields).patientMap =
      match dmCSVPatient st.colMap fields with
      | some p => insertIfAbsent st.patientMap p.nationalID p
      | none => st.patientMap := by
  simp only [dmCSVData]
  cases dmCSVPatient st.colMap fields <;> rfl

theorem dmCSVData_rxMap (st : YsCSVState) (fields : List GoStr) :
    (dmCSVData st fields).rxMap = dmRxStep st.colMap st.rxMap fields := by
  simp only [dmCSVData]
  cases dmCSVPatient st.colMap fields <;> rfl

theorem dmCSVLine_ge1 (st : YsCSVState) (raw : GoStr) (h : 1 ≤ st.lineNum) :
    (dmCSVLine st raw).colMap = st.colMap ∧
    1 ≤ (dmCSVLine st raw).lineNum ∧
    (dmCSVLine st raw).patientMap =
      (match dmCSVRowPatient st.colMap raw with
       | some p => insertIfAbsent st.patientMap p.nationalID p
       | none => st.patientMap) ∧
    (dmCSVLine st raw).rxMap = dmCSVRowRx st.colMap st.rxMap raw := by
  have hne : st.lineNum + 1 ≠ 1 := by omega
  by_cases hb : goTrimSpace raw = []
  · have hL : dmCSVLine st raw = { st with lineNum := st.lineNum + 1 } := by
      simp [dmCSVLine, hb]
    rw [hL]
    refine ⟨rfl, ?_, ?_, ?_⟩
    · have hln : ({ st with lineNum := st.lineNum + 1 } : YsCSVState).lineNum =
          st.lineNum + 1 := rfl
      rw [hln]; omega
    · simp [dmCSVRowPatient, ysCSVFields, hb]
    · simp [dmCSVRowRx, ysCSVFields, hb]
  · have hL : dmCSVLine st raw =
        dmCSVData { st with lineNum := st.lineNum + 1 }
          (parseCSVLine (goTrimSpace raw)) := by
      simp [dmCSVLine, hb, hne]
    rw [hL]
    refine ⟨?_, ?_, ?_, ?_⟩
    · rw [dmCSVData_colMap]
    · have hln : ({ st with lineNum := st.lineNum + 1 } : YsCSVState).lineNum =
          st.lineNum + 1 := rfl
      rw [dmCSVData_lineNum, hln]; omega
    · rw [dmCSVData_patientMap]
      cases hm : dmCSVPatient st.colMap (parseCSVLine (goTrimSpace raw)) <;>
        simp [dmCSVRowPatient, ysCSVFields, hb, hm]
    · rw [dmCSVData_rxMap]
      simp [dmCSVRowRx, ysCSVFields, hb]

theorem dmCSV_fold (lines : List GoStr) :
    ∀ st : YsCSVState, 1 ≤ st.lineNum →
      (lines.foldl dmCSVLine st).patientMap =
        patFold st.patientMap (lines.filterMap (dmCSVRowPatient st.colMap)) ∧
      (lines.foldl dmCSVLine st).rxMap =
        lines.foldl (dmCSVRowRx st.colMap) st.rxMap := by
  induction lines with
  | nil => intro st _; exact ⟨rfl, rfl⟩
  | cons l ls ih =>
    intro st h
    obtain ⟨hc, hn, hp, hr⟩ := dmCSVLine_ge1 st l h
    obtain ⟨ihp, ihr⟩ := ih (dmCSVLine st l) hn
    rw [hc] at ihp ihr
    simp only [List.foldl_cons, List.filterMap_cons]
    refine ⟨?_, ?_⟩
    · rw [ihp, hp]
      cases hm : dmCSVRowPatient st.colMap l <;> simp only [hm, patFold_cons]
    · rw [ihr, hr]

theorem parseDrMasterCSV_maps (content : GoStr) :
    (parseDrMasterCSV content).patients =
      valuesA (patFold []
        ((dmCSVDataLines content).filterMap (dmCSVRowPatient (dmCSVColMap content)))) ∧
    (parseDrMasterCSV content).prescriptions =
      valuesA ((dmCSVDataLines content).foldl (dmCSVRowRx (dmCSVColMap content)) []) := by
  cases hG : goLines content with
  | nil =>
    simp [parseDrMasterCSV, hG, dmCSVDataLines, dmCSVColMap, patFold, valuesA]
  | cons l₁ rest =>
    by_cases hb : goTrimSpace l₁ = []
    · have h1 : dmCSVLine ⟨0, [], 0, 0, 0, [], []⟩ l₁ =
          ⟨1, [], 0, 0, 0, [], []⟩ := by
        simp [dmCSVLine, hb]
      have hp : (rest.foldl dmCSVLine (⟨1, [], 0, 0, 0, [], []⟩ : YsCSVState)).patientMap =
          patFold [] (rest.filterMap (dmCSVRowPatient [])) :=
        (dmCSV_fold rest ⟨1, [], 0, 0, 0, [], []⟩ (by norm_num)).1
      have hr : (rest.foldl dmCSVLine (⟨1, [], 0, 0, 0, [], []⟩ : YsCSVState)).rxMap =
          rest.foldl (dmCSVRowRx []) [] :=
        (dmCSV_fold rest ⟨1, [], 0, 0, 0, [], []⟩ (by norm_num)).2
      refine ⟨?_, ?_⟩ <;>
        simp only [parseDrMasterCSV, hG, List.foldl_cons, h1, dmCSVDataLines,
          dmCSVColMap, hb, reduceIte]
      · rw [hp]
      · rw [hr]
    · by_cases hh : isDrMasterHeaderLine (parseCSVLine (goTrimSpace l₁)) = true
      · have h1 : dmCSVLine ⟨0, [], 0, 0, 0, [], []⟩ l₁ =
            ⟨1, buildDrMasterColumnMapping (parseCSVLine (goTrimSpace l₁)),
             0, 0, 0, [], []⟩ := by
          simp [dmCSVLine, hb, hh]
        have hp : (rest.foldl dmCSVLine
            (⟨1, buildDrMasterColumnMapping (parseCSVLine (goTrimSpace l₁)),
              0, 0, 0, [], []⟩ : YsCSVState)).patientMap =
            patFold [] (rest.filterMap (dmCSVRowPatient
              (buildDrMasterColumnMapping (parseCSVLine (goTrimSpace l₁))))) :=
          (dmCSV_fold rest _ (by norm_num)).1
        have hr : (rest.foldl dmCSVLine
            (⟨1, buildDrMasterColumnMapping (parseCSVLine (goTrimSpace l₁)),
              0, 0, 0, [], []⟩ : YsCSVState)).rxMap =
            rest.foldl (dmCSVRowRx
              (buildDrMasterColumnMapping (parseCSVLine (goTrimSpace l₁)))) [] :=
          (dmCSV_fold rest _ (by norm_num)).2
        refine ⟨?_, ?_⟩ <;>
          simp only [parseDrMasterCSV, hG, List.foldl_cons, h1, dmCSVDataLines,
            dmCSVColMap, hb, hh, reduceIte]
        · rw [hp]
        · rw [hr]
      · have h1 : dmCSVLine ⟨0, [], 0, 0, 0, [], []⟩ l₁ =
            dmCSVData ⟨1, getDrMasterDefaultColumns, 0, 0, 0, [], []⟩
              (parseCSVLine (goTrimSpace l₁)) := by
          simp [dmCSVLine, hb, hh]
        have hln : (dmCSVData ⟨1, getDrMasterDefaultColumns, 0, 0, 0, [], []⟩
            (parseCSVLine (goTrimSpace l₁))).lineNum = 1 :=
          dmCSVData_lineNum _ _
        have hp : (rest.foldl dmCSVLine
            (dmCSVData ⟨1, getDrMasterDefaultColumns, 0, 0, 0, [], []⟩
              (parseCSVLine (goTrimSpace l₁)))).patientMap =
            patFold
              (match dmCSVPatient getDrMasterDefaultColumns
                  (parseCSVLine (goTrimSpace l₁)) with
               | some p => insertIfAbsent [] p.nationalID p
               | none => ([] : List (GoStr × HISPatient)))
              (rest.filterMap (dmCSVRowPatient getDrMasterDefaultColumns)) := by
          have hfold := (dmCSV_fold rest
            (dmCSVData ⟨1, getDrMasterDefaultColumns, 0, 0, 0, [], []⟩
              (parseCSVLine (goTrimSpace l₁))) (by rw [hln])).1
          rw [dmCSVData_colMap, dmCSVData_patientMap] at hfold
          exact hfold
        have hr : (rest.foldl dmCSVLine
            (dmCSVData ⟨1, getDrMasterDefaultColumns, 0, 0, 0, [], []⟩
              (parseCSVLine (goTrimSpace l₁)))).rxMap =
            rest.foldl (dmCSVRowRx getDrMasterDefaultColumns)
              (dmRxStep getDrMasterDefaultColumns []
                (parseCSVLine (goTrimSpace l₁))) := by
          have hfold := (dmCSV_fold rest
            (dmCSVData ⟨1, getDrMasterDefaultColumns, 0, 0, 0, [], []⟩
              (parseCSVLine (goTrimSpace l₁))) (by rw [hln])).2
          rw [dmCSVData_colMap, dmCSVData_rxMap] at hfold
          exact hfold
        have hrowP : dmCSVRowPatient getDrMasterDefaultColumns l₁ =
            dmCSVPatient getDrMasterDefaultColumns (parseCSVLine (goTrimSpace l₁)) := by
          simp [dmCSVRowPatient, ysCSVFields, hb]
        have hrowR : dmCSVRowRx getDrMasterDefaultColumns [] l₁ =
            dmRxStep getDrMasterDefaultColumns [] (parseCSVLine (goTrimSpace l₁)) := by
          simp [dmCSVRowRx, ysCSVFields, hb]
        refine ⟨?_, ?_⟩ <;>
          simp only [parseDrMasterCSV, hG, List.foldl_cons, h1, dmCSVDataLines,
            dmCSVColMap, hb, hh, reduceIte, List.filterMap_cons,
            Bool.false_eq_true, if_false]
        · rw [hrowP]
          cases hm : dmCSVPatient getDrMasterDefaultColumns
              (parseCSVLine (goTrimSpace l₁)) with
          | none =>
            simp only [hm] at hp ⊢
            rw [hp]
          | some p =>
            simp only [hm, patFold_cons] at hp ⊢
            rw [hp]
        · rw [hrowR, hr]

/-! ## Characterization of the Yaosheng CSV prescription fold -/

theorem rxFields_congr (b : HISPrescription) {i₁ i₂ : List HISPrescriptionItem}
    {c₁ c₂ : Int} (hi : i₁ = i₂) (hc : c₁ = c₂) :
    ({ b with items := i₁, chronicRefillNo := c₁ } : HISPrescription) =
    { b with items := i₂, chronicRefillNo := c₂ } := by rw [hi, hc]

theorem ysFind_append (colMap : List (GoStr × Nat)) (k : GoStr)
    (rows : List (List GoStr)) (fields : List GoStr) :
    (rows ++ [fields]).find? (ysRowHasKey colMap k) =
      (rows.find? (ysRowHasKey colMap k)).or
        (if ysRowHasKey colMap k fields then some fields else none) := by
  rw [List.find?_append]
  congr 1
  cases hk : ysRowHasKey colMap k fields <;> simp [List.find?, hk]

theorem ysRxVal_append_miss (colMap : List (GoStr × Nat)) (k : GoStr)
    (r0 : List GoStr) (rows : List (List GoStr)) (fields : List GoStr)
    (hk : ysRowHasKey colMap k fields = false) :
    ysRxVal colMap k r0 (rows ++ [fields]) = ysRxVal colMap k r0 rows := by
  unfold ysRxVal
  apply rxFields_congr
  · simp [ysItemsFor, List.filterMap_append, hk]
  · simp [ysChronicFor, List.any_append, hk]

theorem ysRxVal_append_noitem (colMap : List (GoStr × Nat)) (k : GoStr)
    (r0 : List GoStr) (rows : List (List GoStr)) (fields : List GoStr)
    (hitem : ysRowItem colMap fields = none) :
    ysRxVal colMap k r0 (rows ++ [fields]) = ysRxVal colMap k r0 rows := by
  unfold ysRxVal
  apply rxFields_congr
  · simp [ysItemsFor, List.filterMap_append, hitem, ite_self]
  · simp [ysChronicFor, List.any_append, ysRowChronicSignal, hitem]

theorem ysRxVal_step_item (colMap : List (GoStr × Nat)) (k : GoStr)
    (r0 : List GoStr) (rows : List (List GoStr)) (fields : List GoStr)
    (item : HISPrescriptionItem)
    (hk : ysRowHasKey colMap k fields = true)
    (hitem : ysRowItem colMap fields = some item) :
    rxApplyItem item (ysRxVal colMap k r0 rows) =
      ysRxVal colMap k r0 (rows ++ [fields]) := by
  have hI : ysItemsFor colMap k (rows ++ [fields]) =
      ysItemsFor colMap k rows ++ [item] := by
    simp [ysItemsFor, List.filterMap_append, hk, hitem]
  have hsig : ysRowChronicSignal colMap fields = decide (28 ≤ item.daysSupply) := by
    simp [ysRowChronicSignal, hitem]
  have hC : ysChronicFor colMap k r0 (rows ++ [fields]) =
      if 28 ≤ item.daysSupply ∧ ysChronicFor colMap k r0 rows = 0 then 1
      else ysChronicFor colMap k r0 rows := by
    by_cases hP : (ysRxInit colMap r0).chronicRefillNo ≠ 0 ∨
        rows.any (fun f =>
          ysRowHasKey colMap k f && ysRowChronicSignal colMap f) = true
    · have h1 : ysChronicFor colMap k r0 rows = 1 := by
        unfold ysChronicFor
        rw [if_pos hP]
      have h2 : ysChronicFor colMap k r0 (rows ++ [fields]) = 1 := by
        unfold ysChronicFor
        rw [if_pos]
        rcases hP with hP | hP
        · exact Or.inl hP
        · refine Or.inr ?_
          rw [List.any_append, hP]
          simp
      rw [h1, h2]
      norm_num
    · have h0 : ysChronicFor colMap k r0 rows = 0 := by
        simp [ysChronicFor] at hP ⊢
        tauto
      rw [h0]
      push_neg at hP
      obtain ⟨hP1, hP2⟩ := hP
      by_cases hD : 28 ≤ item.daysSupply
      · have : ysChronicFor colMap k r0 (rows ++ [fields]) = 1 := by
          simp [ysChronicFor, List.any_append, hk, hsig, hD]
        rw [this]
        simp [hD]
      · have : ysChronicFor colMap k r0 (rows ++ [fields]) = 0 := by
          simp only [ysChronicFor, List.any_append, List.any_cons, List.any_nil,
            hk, hsig]
          simp [hP1, hP2, hD]
        rw [this]
        simp [hD]
  show (if 28 ≤ item.daysSupply ∧
          ({ ysRxVal colMap k r0 rows with
              items := (ysRxVal colMap k r0 rows).items ++ [item] } :
            HISPrescription).chronicRefillNo = 0 then
        ({ ysRxVal colMap k r0 rows with
            items := (ysRxVal colMap k r0 rows).items ++ [item],
            chronicRefillNo := 1 } : HISPrescription)
      else
        { ysRxVal colMap k r0 rows with
            items := (ysRxVal colMap k r0 rows).items ++ [item] }) =
      ysRxVal colMap k r0 (rows ++ [fields])
  have hproj : ({ ysRxVal colMap k r0 rows with
      items := (ysRxVal colMap k r0 rows).items ++ [item] } :
        HISPrescription).chronicRefillNo = ysChronicFor colMap k r0 rows := rfl
  rw [hproj]
  by_cases hcond : 28 ≤ item.daysSupply ∧ ysChronicFor colMap k r0 rows = 0
  · rw [if_pos hcond]
    show ({ ysRxInit colMap r0 with
        items := ysItemsFor colMap k rows ++ [item], chronicRefillNo := 1 } :
          HISPrescription) = _
    unfold ysRxVal
    apply rxFields_congr
    · rw [hI]
    · rw [hC, if_pos hcond]
  · rw [if_neg hcond]
    show ({ ysRxInit colMap r0 with
        items := ysItemsFor colMap k rows ++ [item],
        chronicRefillNo := ysChronicFor colMap k r0 rows } : HISPrescription) = _
    unfold ysRxVal
    apply rxFields_congr
    · rw [hI]
    · rw [hC, if_neg hcond]

theorem ysRxInit_items (colMap : List (GoStr × Nat)) (fields : List GoStr) :
    (ysRxInit colMap fields).items = [] := rfl

theorem ysRxInit_chronic (colMap : List (GoStr × Nat)) (fields : List GoStr) :
    (ysRxInit colMap fields).chronicRefillNo =
      if getFieldByKey fields colMap (gs "visit_type") = gs "08" then 1 else 0 := rfl

theorem ysRxVal_fresh_noitem (colMap : List (GoStr × Nat)) (k : GoStr)
    (rows : List (List GoStr)) (fields : List GoStr)
    (hitem : ysRowItem colMap fields = none)
    (hmiss : ∀ f ∈ rows, ysRowHasKey colMap k f = false) :
    ysRxVal colMap k fields (rows ++ [fields]) = ysRxInit colMap fields := by
  have hI : ysItemsFor colMap k (rows ++ [fields]) = (ysRxInit colMap fields).items := by
    rw [ysRxInit_items]
    refine List.filterMap_eq_nil_iff.2 ?_
    intro f hf
    rcases List.mem_append.1 hf with hf | hf
    · simp [hmiss f hf]
    · have hfe : f = fields := by simpa using hf
      subst hfe
      cases hkf : ysRowHasKey colMap k f <;> simp [hkf, hitem]
  have hC : ysChronicFor colMap k fields (rows ++ [fields]) =
      (ysRxInit colMap fields).chronicRefillNo := by
    have hany : ((rows ++ [fields]).any fun f =>
        ysRowHasKey colMap k f && ysRowChronicSignal colMap f) = false := by
      refine List.any_eq_false.2 ?_
      intro f hf
      rcases List.mem_append.1 hf with hf | hf
      · simp [hmiss f hf]
      · have hfe : f = fields := by simpa using hf
        subst hfe
        simp [ysRowChronicSignal, hitem]
    unfold ysChronicFor
    rw [hany, ysRxInit_chronic]
    by_cases h08 : getFieldByKey fields colMap (gs "visit_type") = gs "08" <;>
      simp [h08]
  show ({ ysRxInit colMap fields with
      items := ysItemsFor colMap k (rows ++ [fields]),
      chronicRefillNo := ysChronicFor colMap k fields (rows ++ [fields]) } :
        HISPrescription) = ysRxInit colMap fields
  rw [hI, hC]

theorem ysRxVal_fresh_item (colMap : List (GoStr × Nat)) (k : GoStr)
    (rows : List (List GoStr)) (fields : List GoStr) (item : HISPrescriptionItem)
    (hk : ysRowHasKey colMap k fields = true)
    (hitem : ysRowItem colMap fields = some item)
    (hmiss : ∀ f ∈ rows, ysRowHasKey colMap k f = false) :
    rxApplyItem item (ysRxInit colMap fields) =
      ysRxVal colMap k fields (rows ++ [fields]) := by
  have hI : ysItemsFor colMap k (rows ++ [fields]) = [item] := by
    have hrows : ysItemsFor colMap k rows = [] := by
      refine List.filterMap_eq_nil_iff.2 ?_
      intro f hf
      simp [hmiss f hf]
    simp only [ysItemsFor, List.filterMap_append] at hrows ⊢
    rw [hrows]
    simp [hk, hitem]
  have hC : ysChronicFor colMap k fields (rows ++ [fields]) =
      if 28 ≤ item.daysSupply ∧ (ysRxInit colMap fields).chronicRefillNo = 0 then 1
      else (ysRxInit colMap fields).chronicRefillNo := by
    have hrows : (rows.any fun f =>
        ysRowHasKey colMap k f && ysRowChronicSignal colMap f) = false :=
      List.any_eq_false.2 (fun f hf => by simp [hmiss f hf])
    unfold ysChronicFor
    rw [List.any_append, hrows]
    simp only [Bool.false_or, List.any_cons, List.any_nil, Bool.or_false, hk,
      ysRowChronicSignal, hitem, Bool.true_and]
    rw [ysRxInit_chronic]
    by_cases h08 : getFieldByKey fields colMap (gs "visit_type") = gs "08"
    · simp [h08]
    · simp only [h08, if_false, reduceIte]
      by_cases hD : 28 ≤ item.daysSupply <;> simp [hD]
  have hproj : ({ ysRxInit colMap fields with
      items := (ysRxInit colMap fields).items ++ [item] } :
        HISPrescription).chronicRefillNo = (ysRxInit colMap fields).chronicRefillNo := rfl
  show (if 28 ≤ item.daysSupply ∧
          ({ ysRxInit colMap fields with
              items := (ysRxInit colMap fields).items ++ [item] } :
            HISPrescription).chronicRefillNo = 0 then
        ({ ysRxInit colMap fields with
            items := (ysRxInit colMap fields).items ++ [item],
            chronicRefillNo := 1 } : HISPrescription)
      else
        { ysRxInit colMap fields with
            items := (ysRxInit colMap fields).items ++ [item] }) =
      ysRxVal colMap k fields (rows ++ [fields])
  rw [hproj]
  by_cases hcond : 28 ≤ item.daysSupply ∧ (ysRxInit colMap fields).chronicRefillNo = 0
  · rw [if_pos hcond]
    unfold ysRxVal
    apply rxFields_congr
    · rw [ysRxInit_items, hI]
      rfl
    · rw [hC, if_pos hcond]
  · rw [if_neg hcond]
    unfold ysRxVal
    apply rxFields_congr
    · rw [ysRxInit_items, hI]
      rfl
    · rw [hC, if_neg hcond]

theorem lookupA_append_singleton_ne {β : Type} [Inhabited β] (m : List (GoStr × β))
    (k' k : GoStr) (v : β) (h : ¬ k' = k) :
    lookupA (m ++ [(k', v)]) k = lookupA m k := by
  rw [lookupA_append]
  cases hm : lookupA m k <;> simp [lookupA, h]

theorem lookupA_append_singleton_self {β : Type} [Inhabited β] (m : List (GoStr × β))
    (k : GoStr) (v : β) (h : lookupA m k = none) :
    lookupA (m ++ [(k, v)]) k = some v := by
  rw [lookupA_append, h]
  simp [lookupA]

theorem ysRxInv_rhs_miss (colMap : List (GoStr × Nat)) (k : GoStr)
    (rows : List (List GoStr)) (fields : List GoStr)
    (m : List (GoStr × HISPrescription))
    (hlookk : lookupA m k =
      match rows.find? (ysRowHasKey colMap k) with
      | none => none
      | some r0 => some (ysRxVal colMap k r0 rows))
    (hkf : ysRowHasKey colMap k fields = false) :
    lookupA m k =
      match (rows ++ [fields]).find? (ysRowHasKey colMap k) with
      | none => none
      | some r0 => some (ysRxVal colMap k r0 (rows ++ [fields])) := by
  rw [ysFind_append, hkf]
  simp only [Bool.false_eq_true, if_false, reduceIte, Option.or_none]
  rw [hlookk]
  cases hg : rows.find? (ysRowHasKey colMap k) with
  | none => rfl
  | some r1 =>
    simp only
    rw [ysRxVal_append_miss colMap k r1 rows fields hkf]

theorem ysRxStep_inv (colMap : List (GoStr × Nat)) (rows : List (List GoStr))
    (m : List (GoStr × HISPrescription)) (fields : List GoStr)
    (h : YsRxInv colMap rows m) :
    YsRxInv colMap (rows ++ [fields]) (ysRxStep colMap m fields) := by
  obtain ⟨hnd, hlook⟩ := h
  cases hkey : ysKeyOf colMap fields with
  | none =>
    have hrk : ∀ k, ysRowHasKey colMap k fields = false := by
      intro k
      unfold ysRowHasKey
      rw [hkey]
      rfl
    have hstep : ysRxStep colMap m fields = m := by
      simp [ysRxStep, hkey]
    rw [hstep]
    exact ⟨hnd, fun k => ysRxInv_rhs_miss colMap k rows fields m (hlook k) (hrk k)⟩
  | some k' =>
    have hrkk : ysRowHasKey colMap k' fields = true := by
      unfold ysRowHasKey
      rw [hkey]
      simp
    have hrkne : ∀ k, ¬ k = k' → ysRowHasKey colMap k fields = false := by
      intro k hne
      unfold ysRowHasKey
      rw [hkey, beq_eq_false_iff_ne]
      intro hc
      exact hne (Option.some.inj hc).symm
    cases hlk : lookupA m k' with
    | some rx =>
      have hfind0 := hlook k'
      rw [hlk] at hfind0
      cases hf : rows.find? (ysRowHasKey colMap k') with
      | none =>
        rw [hf] at hfind0
        simp at hfind0
      | some r0 =>
        rw [hf] at hfind0
        simp only at hfind0
        have hrx : rx = ysRxVal colMap k' r0 rows := Option.some.inj hfind0
        cases hitem : ysRowItem colMap fields with
        | none =>
          have hstep : ysRxStep colMap m fields = m := by
            simp [ysRxStep, hkey, hlk, hitem]
          rw [hstep]
          refine ⟨hnd, fun k => ?_⟩
          by_cases hkk : k = k'
          · subst hkk
            rw [ysFind_append, hf]
            simp only [Option.or]
            rw [hlk, hrx]
            rw [ysRxVal_append_noitem colMap k r0 rows fields hitem]
          · exact ysRxInv_rhs_miss colMap k rows fields m (hlook k) (hrkne k hkk)
        | some item =>
          have hstep : ysRxStep colMap m fields = updateA m k' (rxApplyItem item) := by
            simp [ysRxStep, hkey, hlk, hitem]
          rw [hstep]
          refine ⟨by rw [updateA_map_fst]; exact hnd, fun k => ?_⟩
          by_cases hkk : k = k'
          · subst hkk
            rw [lookupA_updateA_self, hlk]
            rw [ysFind_append, hf]
            simp only [Option.or, Option.map_some]
            rw [hrx]
            exact congrArg some (ysRxVal_step_item colMap k r0 rows fields item hrkk hitem)
          · rw [lookupA_updateA_ne m k' k _ (fun hh => hkk hh.symm)]
            exact ysRxInv_rhs_miss colMap k rows fields m (hlook k) (hrkne k hkk)
    | none =>
      have hfind0 := hlook k'
      rw [hlk] at hfind0
      have hf : rows.find? (ysRowHasKey colMap k') = none := by
        cases hg : rows.find? (ysRowHasKey colMap k') with
        | none => rfl
        | some r0 =>
          rw [hg] at hfind0
          simp at hfind0
      have hmiss : ∀ f ∈ rows, ysRowHasKey colMap k' f = false := by
        intro f hfm
        have := List.find?_eq_none.1 hf f hfm
        simpa using this
      have hnotin : k' ∉ m.map Prod.fst := (lookupA_eq_none_iff m k').1 hlk
      cases hitem : ysRowItem colMap fields with
      | none =>
        have hstep : ysRxStep colMap m fields =
            m ++ [(k', ysRxInit colMap fields)] := by
          simp [ysRxStep, hkey, hlk, hitem]
        rw [hstep]
        constructor
        · rw [List.map_append]
          simp [List.nodup_append, hnd, hnotin]
        · intro k
          by_cases hkk : k = k'
          · subst hkk
            rw [lookupA_append_singleton_self m k _ hlk]
            rw [ysFind_append, hf]
            simp only [Option.or, hrkk, if_true, reduceIte]
            rw [ysRxVal_fresh_noitem colMap k rows fields hitem hmiss]
          · rw [lookupA_append_singleton_ne m k' k _ (fun hh => hkk hh.symm)]
            exact ysRxInv_rhs_miss colMap k rows fields m (hlook k) (hrkne k hkk)
      | some item =>
        have hstep : ysRxStep colMap m fields =
            updateA (m ++ [(k', ysRxInit colMap fields)]) k' (rxApplyItem item) := by
          simp [ysRxStep, hkey, hlk, hitem]
        rw [hstep]
        constructor
        · rw [updateA_map_fst, List.map_append]
          simp [List.nodup_append, hnd, hnotin]
        · intro k
          by_cases hkk : k = k'
          · subst hkk
            rw [lookupA_updateA_self, lookupA_append_singleton_self m k _ hlk]
            rw [ysFind_append, hf]
            simp only [Option.or, hrkk, if_true, reduceIte, Option.map_some]
            exact congrArg some (ysRxVal_fresh_item colMap k rows fields item hrkk hitem hmiss)
          · rw [lookupA_updateA_ne _ k' k _ (fun hh => hkk hh.symm),
              lookupA_append_singleton_ne m k' k _ (fun hh => hkk hh.symm)]
            exact ysRxInv_rhs_miss colMap k rows fields m (hlook k) (hrkne k hkk)

theorem ysRx_fold_inv (colMap : List (GoStr × Nat)) (rowsList : List (List GoStr)) :
    YsRxInv colMap rowsList (rowsList.foldl (ysRxStep colMap) []) := by
  suffices h : ∀ (rows done : List (List GoStr)) (m : List (GoStr × HISPrescription)),
      YsRxInv colMap done m →
      YsRxInv colMap (done ++ rows) (rows.foldl (ysRxStep colMap) m) by
    have hbase : YsRxInv colMap [] [] := by
      refine ⟨by simp, fun k => ?_⟩
      simp [lookupA, List.find?]
    simpa using h rowsList [] [] hbase
  intro rows
  induction rows with
  | nil =>
    intro done m h
    simpa using h
  | cons r rs ih =>
    intro done m h
    have := ih (done ++ [r]) (ysRxStep colMap m r) (ysRxStep_inv colMap done m r h)
    simpa [List.append_assoc] using this

theorem ysCSVRowRx_foldl_eq (colMap : List (GoStr × Nat)) (lines : List GoStr)
    (m : List (GoStr × HISPrescription)) :
    lines.foldl (ysCSVRowRx colMap) m =
      (lines.filterMap ysCSVFields).foldl (ysRxStep colMap) m := by
  induction lines generalizing m with
  | nil => rfl
  | cons l ls ih =>
    cases hx : ysCSVFields l with
    | none =>
      have h1 : ysCSVRowRx colMap m l = m := by simp [ysCSVRowRx, hx]
      simp only [List.foldl_cons, List.filterMap_cons, hx, h1]
      exact ih m
    | some fs =>
      have h1 : ysCSVRowRx colMap m l = ysRxStep colMap m fs := by
        simp [ysCSVRowRx, hx]
      simp only [List.foldl_cons, List.filterMap_cons, hx, h1]
      exact ih (ysRxStep colMap m fs)

/-! ## Characterization of the DrMaster CSV prescription fold -/

theorem dmRxVal_append_miss (colMap : List (GoStr × Nat)) (k : GoStr)
    (r0 : List GoStr) (rows : List (List GoStr)) (fields : List GoStr)
    (hk : ysRowHasKey colMap k fields = false) :
    dmRxVal colMap k r0 (rows ++ [fields]) = dmRxVal colMap k r0 rows := by
  unfold dmRxVal
  apply rxFields_congr
  · simp [dmItemsFor, List.filterMap_append, hk]
  · simp [dmChronicFor, List.any_append, hk]

theorem dmRxVal_append_noitem (colMap : List (GoStr × Nat)) (k : GoStr)
    (r0 : List GoStr) (rows : List (List GoStr)) (fields : List GoStr)
    (hitem : dmRowItem colMap fields = none) :
    dmRxVal colMap k r0 (rows ++ [fields]) = dmRxVal colMap k r0 rows := by
  unfold dmRxVal
  apply rxFields_congr
  · simp [dmItemsFor, List.filterMap_append, hitem, ite_self]
  · simp [dmChronicFor, List.any_append, dmRowChronicSignal, hitem]

theorem dmRxVal_step_item (colMap : List (GoStr × Nat)) (k : GoStr)
    (r0 : List GoStr) (rows : List (List GoStr)) (fields : List GoStr)
    (item : HISPrescriptionItem)
    (hk : ysRowHasKey colMap k fields = true)
    (hitem : dmRowItem colMap fields = some item) :
    rxApplyItem item (dmRxVal colMap k r0 rows) =
      dmRxVal colMap k r0 (rows ++ [fields]) := by
  have hI : dmItemsFor colMap k (rows ++ [fields]) =
      dmItemsFor colMap k rows ++ [item] := by
    simp [dmItemsFor, List.filterMap_append, hk, hitem]
  have hsig : dmRowChronicSignal colMap fields = decide (28 ≤ item.daysSupply) := by
    simp [dmRowChronicSignal, hitem]
  have hC : dmChronicFor colMap k r0 (rows ++ [fields]) =
      if 28 ≤ item.daysSupply ∧ dmChronicFor colMap k r0 rows = 0 then 1
      else dmChronicFor colMap k r0 rows := by
    by_cases hP : (dmRxInit colMap r0).chronicRefillNo ≠ 0 ∨
        rows.any (fun f =>
          ysRowHasKey colMap k f && dmRowChronicSignal colMap f) = true
    · have h1 : dmChronicFor colMap k r0 rows = 1 := by
        unfold dmChronicFor
        rw [if_pos hP]
      have h2 : dmChronicFor colMap k r0 (rows ++ [fields]) = 1 := by
        unfold dmChronicFor
        rw [if_pos]
        rcases hP with hP | hP
        · exact Or.inl hP
        · refine Or.inr ?_
          rw [List.any_append, hP]
          simp
      rw [h1, h2]
      norm_num
    · have h0 : dmChronicFor colMap k r0 rows = 0 := by
        simp [dmChronicFor] at hP ⊢
        tauto
      rw [h0]
      push_neg at hP
      obtain ⟨hP1, hP2⟩ := hP
      by_cases hD : 28 ≤ item.daysSupply
      · have : dmChronicFor colMap k r0 (rows ++ [fields]) = 1 := by
          simp [dmChronicFor, List.any_append, hk, hsig, hD]
        rw [this]
        simp [hD]
      · have : dmChronicFor colMap k r0 (rows ++ [fields]) = 0 := by
          simp only [dmChronicFor, List.any_append, List.any_cons, List.any_nil,
            hk, hsig]
          simp [hP1, hP2, hD]
        rw [this]
        simp [hD]
  show (if 28 ≤ item.daysSupply ∧
          ({ dmRxVal colMap k r0 rows with
              items := (dmRxVal colMap k r0 rows).items ++ [item] } :
            HISPrescription).chronicRefillNo = 0 then
        ({ dmRxVal colMap k r0 rows with
            items := (dmRxVal colMap k r0 rows).items ++ [item],
            chronicRefillNo := 1 } : HISPrescription)
      else
        { dmRxVal colMap k r0 rows with
            items := (dmRxVal colMap k r0 rows).items ++ [item] }) =
      dmRxVal colMap k r0 (rows ++ [fields])
  have hproj : ({ dmRxVal colMap k r0 rows with
      items := (dmRxVal colMap k r0 rows).items ++ [item] } :
        HISPrescription).chronicRefillNo = dmChronicFor colMap k r0 rows := rfl
  rw [hproj]
  by_cases hcond : 28 ≤ item.daysSupply ∧ dmChronicFor colMap k r0 rows = 0
  · rw [if_pos hcond]
    show ({ dmRxInit colMap r0 with
        items := dmItemsFor colMap k rows ++ [item], chronicRefillNo := 1 } :
          HISPrescription) = _
    unfold dmRxVal
    apply rxFields_congr
    · rw [hI]
    · rw [hC, if_pos hcond]
  · rw [if_neg hcond]
    show ({ dmRxInit colMap r0 with
        items := dmItemsFor colMap k rows ++ [item],
        chronicRefillNo := dmChronicFor colMap k r0 rows } : HISPrescription) = _
    unfold dmRxVal
    apply rxFields_congr
    · rw [hI]
    · rw [hC, if_neg hcond]

theorem dmRxInit_items (colMap : List (GoStr × Nat)) (fields : List GoStr) :
    (dmRxInit colMap fields).items = [] := rfl

theorem dmRxInit_chronic (colMap : List (GoStr × Nat)) (fields : List GoStr) :
    (dmRxInit colMap fields).chronicRefillNo =
      if getFieldByKey fields colMap (gs "visit_type") = gs "08" then 1 else 0 := rfl

theorem dmRxVal_fresh_noitem (colMap : List (GoStr × Nat)) (k : GoStr)
    (rows : List (List GoStr)) (fields : List GoStr)
    (hitem : dmRowItem colMap fields = none)
    (hmiss : ∀ f ∈ rows, ysRowHasKey colMap k f = false) :
    dmRxVal colMap k fields (rows ++ [fields]) = dmRxInit colMap fields := by
  have hI : dmItemsFor colMap k (rows ++ [fields]) = (dmRxInit colMap fields).items := by
    rw [dmRxInit_items]
    refine List.filterMap_eq_nil_iff.2 ?_
    intro f hf
    rcases List.mem_append.1 hf with hf | hf
    · simp [hmiss f hf]
    · have hfe : f = fields := by simpa using hf
      subst hfe
      cases hkf : ysRowHasKey colMap k f <;> simp [hkf, hitem]
  have hC : dmChronicFor colMap k fields (rows ++ [fields]) =
      (dmRxInit colMap fields).chronicRefillNo := by
    have hany : ((rows ++ [fields]).any fun f =>
        ysRowHasKey colMap k f && dmRowChronicSignal colMap f) = false := by
      refine List.any_eq_false.2 ?_
      intro f hf
      rcases List.mem_append.1 hf with hf | hf
      · simp [hmiss f hf]
      · have hfe : f = fields := by simpa using hf
        subst hfe
        simp [dmRowChronicSignal, hitem]
    unfold dmChronicFor
    rw [hany, dmRxInit_chronic]
    by_cases h08 : getFieldByKey fields colMap (gs "visit_type") = gs "08" <;>
      simp [h08]
  show ({ dmRxInit colMap fields with
      items := dmItemsFor colMap k (rows ++ [fields]),
      chronicRefillNo := dmChronicFor colMap k fields (rows ++ [fields]) } :
        HISPrescription) = dmRxInit colMap fields
  rw [hI, hC]

theorem dmRxVal_fresh_item (colMap : List (GoStr × Nat)) (k : GoStr)
    (rows : List (List GoStr)) (fields : List GoStr) (item : HISPrescriptionItem)
    (hk : ysRowHasKey colMap k fields = true)
    (hitem : dmRowItem colMap fields = some item)
    (hmiss : ∀ f ∈ rows, ysRowHasKey colMap k f = false) :
    rxApplyItem item (dmRxInit colMap fields) =
      dmRxVal colMap k fields (rows ++ [fields]) := by
  have hI : dmItemsFor colMap k (rows ++ [fields]) = [item] := by
    have hrows : dmItemsFor colMap k rows = [] := by
      refine List.filterMap_eq_nil_iff.2 ?_
      intro f hf
      simp [hmiss f hf]
    simp only [dmItemsFor, List.filterMap_append] at hrows ⊢
    rw [hrows]
    simp [hk, hitem]
  have hC : dmChronicFor colMap k fields (rows ++ [fields]) =
      if 28 ≤ item.daysSupply ∧ (dmRxInit colMap fields).chronicRefillNo = 0 then 1
      else (dmRxInit colMap fields).chronicRefillNo := by
    have hrows : (rows.any fun f =>
        ysRowHasKey colMap k f && dmRowChronicSignal colMap f) = false :=
      List.any_eq_false.2 (fun f hf => by simp [hmiss f hf])
    unfold dmChronicFor
    rw [List.any_append, hrows]
    simp only [Bool.false_or, List.any_cons, List.any_nil, Bool.or_false, hk,
      dmRowChronicSignal, hitem, Bool.true_and]
    rw [dmRxInit_chronic]
    by_cases h08 : getFieldByKey fields colMap (gs "visit_type") = gs "08"
    · simp [h08]
    · simp only [h08, if_false, reduceIte]
      by_cases hD : 28 ≤ item.daysSupply <;> simp [hD]
  have hproj : ({ dmRxInit colMap fields with
      items := (dmRxInit colMap fields).items ++ [item] } :
        HISPrescription).chronicRefillNo = (dmRxInit colMap fields).chronicRefillNo := rfl
  show (if 28 ≤ item.daysSupply ∧
          ({ dmRxInit colMap fields with
              items := (dmRxInit colMap fields).items ++ [item] } :
            HISPrescription).chronicRefillNo = 0 then
        ({ dmRxInit colMap fields with
            items := (dmRxInit colMap fields).items ++ [item],
            chronicRefillNo := 1 } : HISPrescription)
      else
        { dmRxInit colMap fields with
            items := (dmRxInit colMap fields).items ++ [item] }) =
      dmRxVal colMap k fields (rows ++ [fields])
  rw [hproj]
  by_cases hcond : 28 ≤ item.daysSupply ∧ (dmRxInit colMap fields).chronicRefillNo = 0
  · rw [if_pos hcond]
    unfold dmRxVal
    apply rxFields_congr
    · rw [dmRxInit_items, hI]
      rfl
    · rw [hC, if_pos hcond]
  · rw [if_neg hcond]
    unfold dmRxVal
    apply rxFields_congr
    · rw [dmRxInit_items, hI]
      rfl
    · rw [hC, if_neg hcond]

theorem dmRxInv_rhs_miss (colMap : List (GoStr × Nat)) (k : GoStr)
    (rows : List (List GoStr)) (fields : List GoStr)
    (m : List (GoStr × HISPrescription))
    (hlookk : lookupA m k =
      match rows.find? (ysRowHasKey colMap k) with
      | none => none
      | some r0 => some (dmRxVal colMap k r0 rows))
    (hkf : ysRowHasKey colMap k fields = false) :
    lookupA m k =
      match (rows ++ [fields]).find? (ysRowHasKey colMap k) with
      | none => none
      | some r0 => some (dmRxVal colMap k r0 (rows ++ [fields])) := by
  rw [ysFind_append, hkf]
  simp only [Bool.false_eq_true, if_false, reduceIte, Option.or_none]
  rw [hlookk]
  cases hg : rows.find? (ysRowHasKey colMap k) with
  | none => rfl
  | some r1 =>
    simp only
    rw [dmRxVal_append_miss colMap k r1 rows fields hkf]

theorem dmRxStep_inv (colMap : List (GoStr × Nat)) (rows : List (List GoStr))
    (m : List (GoStr × HISPrescription)) (fields : List GoStr)
    (h : DmRxInv colMap rows m) :
    DmRxInv colMap (rows ++ [fields]) (dmRxStep colMap m fields) := by
  obtain ⟨hnd, hlook⟩ := h
  cases hkey : ysKeyOf colMap fields with
  | none =>
    have hrk : ∀ k, ysRowHasKey colMap k fields = false := by
      intro k
      unfold ysRowHasKey
      rw [hkey]
      rfl
    have hstep : dmRxStep colMap m fields = m := by
      simp [dmRxStep, hkey]
    rw [hstep]
    exact ⟨hnd, fun k => dmRxInv_rhs_miss colMap k rows fields m (hlook k) (hrk k)⟩
  | some k' =>
    have hrkk : ysRowHasKey colMap k' fields = true := by
      unfold ysRowHasKey
      rw [hkey]
      simp
    have hrkne : ∀ k, ¬ k = k' → ysRowHasKey colMap k fields = false := by
      intro k hne
      unfold ysRowHasKey
      rw [hkey, beq_eq_false_iff_ne]
      intro hc
      exact hne (Option.some.inj hc).symm
    cases hlk : lookupA m k' with
    | some rx =>
      have hfind0 := hlook k'
      rw [hlk] at hfind0
      cases hf : rows.find? (ysRowHasKey colMap k') with
      | none =>
        rw [hf] at hfind0
        simp at hfind0
      | some r0 =>
        rw [hf] at hfind0
        simp only at hfind0
        have hrx : rx = dmRxVal colMap k' r0 rows := Option.some.inj hfind0
        cases hitem : dmRowItem colMap fields with
        | none =>
          have hstep : dmRxStep colMap m fields = m := by
            simp [dmRxStep, hkey, hlk, hitem]
          rw [hstep]
          refine ⟨hnd, fun k => ?_⟩
          by_cases hkk : k = k'
          · subst hkk
            rw [ysFind_append, hf]
            simp only [Option.or]
            rw [hlk, hrx]
            rw [dmRxVal_append_noitem colMap k r0 rows fields hitem]
          · exact dmRxInv_rhs_miss colMap k rows fields m (hlook k) (hrkne k hkk)
        | some item =>
          have hstep : dmRxStep colMap m fields = updateA m k' (rxApplyItem item) := by
            simp [dmRxStep, hkey, hlk, hitem]
          rw [hstep]
          refine ⟨by rw [updateA_map_fst]; exact hnd, fun k => ?_⟩
          by_cases hkk : k = k'
          · subst hkk
            rw [lookupA_updateA_self, hlk]
            rw [ysFind_append, hf]
            simp only [Option.or, Option.map_some]
            rw [hrx]
            exact congrArg some (dmRxVal_step_item colMap k r0 rows fields item hrkk hitem)
          · rw [lookupA_updateA_ne m k' k _ (fun hh => hkk hh.symm)]
            exact dmRxInv_rhs_miss colMap k rows fields m (hlook k) (hrkne k hkk)
    | none =>
      have hfind0 := hlook k'
      rw [hlk] at hfind0
      have hf : rows.find? (ysRowHasKey colMap k') = none := by
        cases hg : rows.find? (ysRowHasKey colMap k') with
        | none => rfl
        | some r0 =>
          rw [hg] at hfind0
          simp at hfind0
      have hmiss : ∀ f ∈ rows, ysRowHasKey colMap k' f = false := by
        intro f hfm
        have := List.find?_eq_none.1 hf f hfm
        simpa using this
      have hnotin : k' ∉ m.map Prod.fst := (lookupA_eq_none_iff m k').1 hlk
      cases hitem : dmRowItem colMap fields with
      | none =>
        have hstep : dmRxStep colMap m fields =
            m ++ [(k', dmRxInit colMap fields)] := by
          simp [dmRxStep, hkey, hlk, hitem]
        rw [hstep]
        constructor
        · rw [List.map_append]
          simp [List.nodup_append, hnd, hnotin]
        · intro k
          by_cases hkk : k = k'
          · subst hkk
            rw [lookupA_append_singleton_self m k _ hlk]
            rw [ysFind_append, hf]
            simp only [Option.or, hrkk, if_true, reduceIte]
            rw [dmRxVal_fresh_noitem colMap k rows fields hitem hmiss]
          · rw [lookupA_append_singleton_ne m k' k _ (fun hh => hkk hh.symm)]
            exact dmRxInv_rhs_miss colMap k rows fields m (hlook k) (hrkne k hkk)
      | some item =>
        have hstep : dmRxStep colMap m fields =
            updateA (m ++ [(k', dmRxInit colMap fields)]) k' (rxApplyItem item) := by
          simp [dmRxStep, hkey, hlk, hitem]
        rw [hstep]
        constructor
        · rw [updateA_map_fst, List.map_append]
          simp [List.nodup_append, hnd, hnotin]
        · intro k
          by_cases hkk : k = k'
          · subst hkk
            rw [lookupA_updateA_self, lookupA_append_singleton_self m k _ hlk]
            rw [ysFind_append, hf]
            simp only [Option.or, hrkk, if_true, reduceIte, Option.map_some]
            exact congrArg some (dmRxVal_fresh_item colMap k rows fields item hrkk hitem hmiss)
          · rw [lookupA_updateA_ne _ k' k _ (fun hh => hkk hh.symm),
              lookupA_append_singleton_ne m k' k _ (fun hh => hkk hh.symm)]
            exact dmRxInv_rhs_miss colMap k rows fields m (hlook k) (hrkne k hkk)

theorem dmRx_fold_inv (colMap : List (GoStr × Nat)) (rowsList : List (List GoStr)) :
    DmRxInv colMap rowsList (rowsList.foldl (dmRxStep colMap) []) := by
  suffices h : ∀ (rows done : List (List GoStr)) (m : List (GoStr × HISPrescription)),
      DmRxInv colMap done m →
      DmRxInv colMap (done ++ rows) (rows.foldl (dmRxStep colMap) m) by
    have hbase : DmRxInv colMap [] [] := by
      refine ⟨by simp, fun k => ?_⟩
      simp [lookupA, List.find?]
    simpa using h rowsList [] [] hbase
  intro rows
  induction rows with
  | nil =>
    intro done m h
    simpa using h
  | cons r rs ih =>
    intro done m h
    have := ih (done ++ [r]) (dmRxStep colMap m r) (dmRxStep_inv colMap done m r h)
    simpa [List.append_assoc] using this

theorem dmCSVRowRx_foldl_eq (colMap : List (GoStr × Nat)) (lines : List GoStr)
    (m : List (GoStr × HISPrescription)) :
    lines.foldl (dmCSVRowRx colMap) m =
      (lines.filterMap ysCSVFields).foldl (dmRxStep colMap) m := by
  induction lines generalizing m with
  | nil => rfl
  | cons l ls ih =>
    cases hx : ysCSVFields l with
    | none =>
      have h1 : dmCSVRowRx colMap m l = m := by simp [dmCSVRowRx, hx]
      simp only [List.foldl_cons, List.filterMap_cons, hx, h1]
      exact ih m
    | some fs =>
      have h1 : dmCSVRowRx colMap m l = dmRxStep colMap m fs := by
        simp [dmCSVRowRx, hx]
      simp only [List.foldl_cons, List.filterMap_cons, hx, h1]
      exact ih (dmRxStep colMap m fs)

/-! ## Characterization of the Yaosheng DAT prescription fold -/

theorem datRxInit_items (line : GoStr) : (datRxInit line).items = [] := rfl

theorem datFind_append (k : GoStr) (lines : List GoStr) (line : GoStr) :
    (lines ++ [line]).find? (datRowHasKey k) =
      (lines.find? (datRowHasKey k)).or
        (if datRowHasKey k line then some line else none) := by
  rw [List.find?_append]
  congr 1
  cases hk : datRowHasKey k line <;> simp [List.find?, hk]

theorem datRxVal_append_miss (k : GoStr) (l0 : GoStr) (lines : List GoStr)
    (line : GoStr) (hk : datRowHasKey k line = false) :
    datRxVal k l0 (lines ++ [line]) = datRxVal k l0 lines := by
  unfold datRxVal
  have hI : datItemsFor k (lines ++ [line]) = datItemsFor k lines := by
    simp [datItemsFor, List.filterMap_append, hk]
  rw [hI]

theorem datRxVal_append_noitem (k : GoStr) (l0 : GoStr) (lines : List GoStr)
    (line : GoStr) (hitem : datRowItem line = none) :
    datRxVal k l0 (lines ++ [line]) = datRxVal k l0 lines := by
  unfold datRxVal
  have hI : datItemsFor k (lines ++ [line]) = datItemsFor k lines := by
    simp [datItemsFor, List.filterMap_append, hitem, ite_self]
  rw [hI]

theorem datRxVal_step_item (k : GoStr) (l0 : GoStr) (lines : List GoStr)
    (line : GoStr) (item : HISPrescriptionItem)
    (hk : datRowHasKey k line = true) (hitem : datRowItem line = some item) :
    ({ datRxVal k l0 lines with
        items := (datRxVal k l0 lines).items ++ [item] } : HISPrescription) =
      datRxVal k l0 (lines ++ [line]) := by
  have hI : datItemsFor k (lines ++ [line]) = datItemsFor k lines ++ [item] := by
    simp [datItemsFor, List.filterMap_append, hk, hitem]
  show ({ datRxInit l0 with items := datItemsFor k lines ++ [item] } : HISPrescription) = _
  unfold datRxVal
  rw [hI]

theorem datRxVal_fresh_noitem (k : GoStr) (lines : List GoStr) (line : GoStr)
    (hitem : datRowItem line = none)
    (hmiss : ∀ l ∈ lines, datRowHasKey k l = false) :
    datRxVal k line (lines ++ [line]) = datRxInit line := by
  have hI : datItemsFor k (lines ++ [line]) = (datRxInit line).items := by
    rw [datRxInit_items]
    refine List.filterMap_eq_nil_iff.2 ?_
    intro l hl
    rcases List.mem_append.1 hl with hl | hl
    · simp [hmiss l hl]
    · have hle : l = line := by simpa using hl
      subst hle
      cases hkf : datRowHasKey k l <;> simp [hkf, hitem]
  show ({ datRxInit line with items := datItemsFor k (lines ++ [line]) } : HISPrescription) = _
  rw [hI]

theorem datRxVal_fresh_item (k : GoStr) (lines : List GoStr) (line : GoStr)
    (item : HISPrescriptionItem)
    (hk : datRowHasKey k line = true) (hitem : datRowItem line = some item)
    (hmiss : ∀ l ∈ lines, datRowHasKey k l = false) :
    ({ datRxInit line with items := (datRxInit line).items ++ [item] } : HISPrescription) =
      datRxVal k line (lines ++ [line]) := by
  have hrows : datItemsFor k lines = [] := by
    refine List.filterMap_eq_nil_iff.2 ?_
    intro l hl
    simp [hmiss l hl]
  have hI : datItemsFor k (lines ++ [line]) = [item] := by
    simp only [datItemsFor, List.filterMap_append] at hrows ⊢
    rw [hrows]
    simp [hk, hitem]
  show _ = ({ datRxInit line with items := datItemsFor k (lines ++ [line]) } : HISPrescription)
  rw [hI]
  rfl

theorem datRxInv_rhs_miss (k : GoStr) (lines : List GoStr) (line : GoStr)
    (m : List (GoStr × HISPrescription))
    (hlookk : lookupA m k =
      match lines.find? (datRowHasKey k) with
      | none => none
      | some l0 => some (datRxVal k l0 lines))
    (hkf : datRowHasKey k line = false) :
    lookupA m k =
      match (lines ++ [line]).find? (datRowHasKey k) with
      | none => none
      | some l0 => some (datRxVal k l0 (lines ++ [line])) := by
  rw [datFind_append, hkf]
  simp only [Bool.false_eq_true, if_false, reduceIte, Option.or_none]
  rw [hlookk]
  cases hg : lines.find? (datRowHasKey k) with
  | none => rfl
  | some l1 =>
    simp only
    rw [datRxVal_append_miss k l1 lines line hkf]

theorem datRxStep_inv (lines : List GoStr) (m : List (GoStr × HISPrescription))
    (line : GoStr) (h : DatRxInv lines m) :
    DatRxInv (lines ++ [line]) (datRxStep m line) := by
  obtain ⟨hnd, hlook⟩ := h
  by_cases hdet : datDetail line = true
  case neg =>
    have hrk : ∀ k, datRowHasKey k line = false := by
      intro k
      unfold datRowHasKey
      rw [Bool.not_eq_true] at hdet
      rw [hdet]
      rfl
    have hstep : datRxStep m line = m := by
      simp [datRxStep, hdet]
    rw [hstep]
    exact ⟨hnd, fun k => datRxInv_rhs_miss k lines line m (hlook k) (hrk k)⟩
  case pos =>
    have hrkk : datRowHasKey (datKeyOf line) line = true := by
      unfold datRowHasKey
      rw [hdet]
      simp
    have hrkne : ∀ k, ¬ k = datKeyOf line → datRowHasKey k line = false := by
      intro k hne
      unfold datRowHasKey
      rw [hdet, Bool.true_and, beq_eq_false_iff_ne]
      intro hc
      exact hne hc.symm
    cases hlk : lookupA m (datKeyOf line) with
    | some rx =>
      have hfind0 := hlook (datKeyOf line)
      rw [hlk] at hfind0
      cases hf : lines.find? (datRowHasKey (datKeyOf line)) with
      | none =>
        rw [hf] at hfind0
        simp at hfind0
      | some l0 =>
        rw [hf] at hfind0
        simp only at hfind0
        have hrx : rx = datRxVal (datKeyOf line) l0 lines := Option.some.inj hfind0
        cases hitem : datRowItem line with
        | none =>
          have hstep : datRxStep m line = m := by
            simp [datRxStep, hdet, hlk, hitem]
          rw [hstep]
          refine ⟨hnd, fun k => ?_⟩
          by_cases hkk : k = datKeyOf line
          · subst hkk
            rw [datFind_append, hf]
            simp only [Option.or]
            rw [hlk, hrx]
            rw [datRxVal_append_noitem (datKeyOf line) l0 lines line hitem]
          · exact datRxInv_rhs_miss k lines line m (hlook k) (hrkne k hkk)
        | some item =>
          have hstep : datRxStep m line =
              updateA m (datKeyOf line)
                (fun rx => { rx with items := rx.items ++ [item] }) := by
            simp [datRxStep, hdet, hlk, hitem]
          rw [hstep]
          refine ⟨by rw [updateA_map_fst]; exact hnd, fun k => ?_⟩
          by_cases hkk : k = datKeyOf line
          · subst hkk
            rw [lookupA_updateA_self, hlk]
            rw [datFind_append, hf]
            simp only [Option.or, Option.map_some]
            rw [hrx]
            exact congrArg some (datRxVal_step_item (datKeyOf line) l0 lines line item hrkk hitem)
          · rw [lookupA_updateA_ne m (datKeyOf line) k _ (fun hh => hkk hh.symm)]
            exact datRxInv_rhs_miss k lines line m (hlook k) (hrkne k hkk)
    | none =>
      have hfind0 := hlook (datKeyOf line)
      rw [hlk] at hfind0
      have hf : lines.find? (datRowHasKey (datKeyOf line)) = none := by
        cases hg : lines.find? (datRowHasKey (datKeyOf line)) with
        | none => rfl
        | some l0 =>
          rw [hg] at hfind0
          simp at hfind0
      have hmiss : ∀ l ∈ lines, datRowHasKey (datKeyOf line) l = false := by
        intro l hlm
        have := List.find?_eq_none.1 hf l hlm
        simpa using this
      have hnotin : datKeyOf line ∉ m.map Prod.fst :=
        (lookupA_eq_none_iff m (datKeyOf line)).1 hlk
      cases hitem : datRowItem line with
      | none =>
        have hstep : datRxStep m line =
            m ++ [(datKeyOf line, datRxInit line)] := by
          simp [datRxStep, hdet, hlk, hitem]
        rw [hstep]
        constructor
        · rw [List.map_append]
          simp [List.nodup_append, hnd, hnotin]
        · intro k
          by_cases hkk : k = datKeyOf line
          · subst hkk
            rw [lookupA_append_singleton_self m (datKeyOf line) _ hlk]
            rw [datFind_append, hf]
            simp only [Option.or, hrkk, if_true, reduceIte]
            rw [datRxVal_fresh_noitem (datKeyOf line) lines line hitem hmiss]
          · rw [lookupA_append_singleton_ne m (datKeyOf line) k _ (fun hh => hkk hh.symm)]
            exact datRxInv_rhs_miss k lines line m (hlook k) (hrkne k hkk)
      | some item =>
        have hstep : datRxStep m line =
            updateA (m ++ [(datKeyOf line, datRxInit line)]) (datKeyOf line)
              (fun rx => { rx with items := rx.items ++ [item] }) := by
          simp [datRxStep, hdet, hlk, hitem]
        rw [hstep]
        constructor
        · rw [updateA_map_fst, List.map_append]
          simp [List.nodup_append, hnd, hnotin]
        · intro k
          by_cases hkk : k = datKeyOf line
          · subst hkk
            rw [lookupA_updateA_self, lookupA_append_singleton_self m (datKeyOf line) _ hlk]
            rw [datFind_append, hf]
            simp only [Option.or, hrkk, if_true, reduceIte, Option.map_some]
            exact congrArg some (datRxVal_fresh_item (datKeyOf line) lines line item hrkk hitem hmiss)
          · rw [lookupA_updateA_ne _ (datKeyOf line) k _ (fun hh => hkk hh.symm),
              lookupA_append_singleton_ne m (datKeyOf line) k _ (fun hh => hkk hh.symm)]
            exact datRxInv_rhs_miss k lines line m (hlook k) (hrkne k hkk)

theorem datRx_fold_inv (linesList : List GoStr) :
    DatRxInv linesList (linesList.foldl datRxStep []) := by
  suffices h : ∀ (lines done : List GoStr) (m : List (GoStr × HISPrescription)),
      DatRxInv done m →
      DatRxInv (done ++ lines) (lines.foldl datRxStep m) by
    have hbase : DatRxInv [] [] := by
      refine ⟨by simp, fun k => ?_⟩
      simp [lookupA, List.find?]
    simpa using h linesList [] [] hbase
  intro lines
  induction lines with
  | nil =>
    intro done m h
    simpa using h
  | cons r rs ih =>
    intro done m h
    have := ih (done ++ [r]) (datRxStep m r) (datRxStep_inv done m r h)
    simpa [List.append_assoc] using this

theorem ysDATLine_rxMap (st : YsDATState) (line : GoStr) :
    (ysDATLine st line).rxMap = datRxStep st.rxMap line := by
  by_cases h1 : line.length < 10
  · simp [ysDATLine, datRxStep, datDetail, h1]
  by_cases h2 : [line.headI] = gs "2"
  case neg => simp [ysDATLine, datRxStep, datDetail, h1, h2]
  case pos =>
    by_cases h4 : (lookupA st.rxMap
        (goTrimSpace (safeSubstring line 11 21) ++ gs "-" ++
          goTrimSpace (safeSubstring line 48 55))).isSome
    all_goals by_cases h5 : goTrimSpace (safeSubstring line 55 65) = []
    all_goals by_cases h3 : goTrimSpace (safeSubstring line 11 21) = []
    all_goals
      simp [ysDATLine, datRxStep, datDetail, datKeyOf, datRxInit, datRowItem,
        h1, h2, h3, h4, h5]
    all_goals try (split <;> rfl)

theorem ysDAT_fold_rxMap (lines : List GoStr) :
    ∀ st : YsDATState,
      (lines.foldl ysDATLine st).rxMap = lines.foldl datRxStep st.rxMap := by
  induction lines with
  | nil => intro st; rfl
  | cons l ls ih =>
    intro st
    simp only [List.foldl_cons]
    rw [ih, ysDATLine_rxMap]

theorem parseYaoshengDAT_rx_inv (content : GoStr) :
    (parseYaoshengDAT content).prescriptions =
      valuesA ((goLines content).foldl datRxStep []) ∧
    DatRxInv (goLines content) ((goLines content).foldl datRxStep []) := by
  constructor
  · simp only [parseYaoshengDAT]
    rw [ysDAT_fold_rxMap]
  · exact datRx_fold_inv _

theorem datRxVal_chronic (k : GoStr) (l0 : GoStr) (lines : List GoStr) :
    (datRxVal k l0 lines).chronicRefillNo = 0 := rfl

/-! ## Support lemmas on the string primitives -/

theorem decDigits_of_digits {s : GoStr} (hne : ¬ s = [])
    (hd : s.all Char.isDigit = true) :
    decDigits s = some (s.foldl (fun acc c => 10 * acc + (c.toNat - 48)) 0) := by
  unfold decDigits
  rw [if_neg, if_pos hd]
  simpa [List.isEmpty_iff] using hne

theorem goAtoi_of_digits {s : GoStr} (hne : ¬ s = [])
    (hd : s.all Char.isDigit = true) :
    goAtoi s = some ((s.foldl (fun acc c => 10 * acc + (c.toNat - 48)) 0 : Nat) : Int) := by
  cases s with
  | nil => exact absurd rfl hne
  | cons c t =>
    have hc : c.isDigit = true := by
      have := List.all_eq_true.1 hd c (List.mem_cons_self c t)
      exact this
    have hplus : ¬ c = '+' := by
      intro hh
      rw [hh] at hc
      exact absurd hc (by decide)
    have hminus : ¬ c = '-' := by
      intro hh
      rw [hh] at hc
      exact absurd hc (by decide)
    simp only [goAtoi]
    rw [if_neg hplus, if_neg hminus, decDigits_of_digits hne hd]
    rfl

theorem goSplit_ne_nil (s : GoStr) (c : Char) : ¬ goSplit s c = [] := by
  cases s with
  | nil => simp [goSplit]
  | cons a t =>
    cases hg : goSplit t c with
    | nil => simp [goSplit, hg]
    | cons h r => by_cases hac : a = c <;> simp [goSplit, hg, hac]

theorem goSplit_eq_blank_singleton {s : GoStr} {c : Char}
    (h : goSplit s c = [[]]) : s = [] := by
  cases s with
  | nil => rfl
  | cons a t =>
    cases hg : goSplit t c with
    | nil => simp [goSplit, hg] at h
    | cons h₀ r => by_cases hac : a = c <;> simp [goSplit, hg, hac] at h

theorem goLines_ne_nil {content : GoStr} (h : ¬ content = []) :
    ¬ goLines content = [] := by
  unfold goLines
  intro hmap
  rw [List.map_eq_nil_iff] at hmap
  revert hmap
  split
  case isTrue hl =>
    intro hdrop
    cases hp : goSplit content '\n' with
    | nil => exact goSplit_ne_nil content '\n' hp
    | cons x r =>
      cases r with
      | nil =>
        rw [hp] at hl
        simp only [List.getLast?_singleton, Option.some.injEq] at hl
        rw [hl] at hp
        exact h (goSplit_eq_blank_singleton hp)
      | cons y r' =>
        rw [hp] at hdrop
        simp [List.dropLast] at hdrop
  case isFalse hl =>
    intro hnil
    exact goSplit_ne_nil content '\n' hnil

/-! ## Prescriptions of the DrMaster XML decoder -/

theorem dmXMLRec_prescriptions (st : YsXMLState) (i : Nat) (rec : DrMasterRec) :
    (dmXMLRec st i rec).prescriptions =
      st.prescriptions ++ (dmXMLRxRow rec).toList := by
  cases h : dmXMLPatient rec <;>
    simp only [dmXMLRec, dmXMLRxRow, h] <;> split <;> simp_all

theorem dmXML_fold_prescriptions (l : List (Nat × DrMasterRec)) :
    ∀ st : YsXMLState,
      ((l.foldl (fun st p => dmXMLRec st p.1 p.2) st).prescriptions) =
        st.prescriptions ++ l.filterMap (fun p => dmXMLRxRow p.2) := by
  induction l with
  | nil => intro st; simp
  | cons x xs ih =>
    intro st
    simp only [List.foldl_cons]
    rw [ih, List.filterMap_cons]
    have hrec := dmXMLRec_prescriptions st x.1 x.2
    cases h : dmXMLRxRow x.2 with
    | none =>
      rw [h] at hrec
      simp only [Option.toList_none, List.append_nil] at hrec
      rw [hrec]
    | some rx =>
      rw [h] at hrec
      simp only [Option.toList_some] at hrec
      rw [hrec]
      simp

theorem parseDrMasterXML_prescriptions (recs : List DrMasterRec) :
    (parseDrMasterXML (.ok recs)).1.prescriptions = recs.filterMap dmXMLRxRow := by
  simp only [parseDrMasterXML]
  rw [dmXML_fold_prescriptions]
  have henum : recs.enum.filterMap (fun p => dmXMLRxRow p.2) =
      recs.filterMap dmXMLRxRow := by
    have h1 : recs.enum.filterMap (fun p => dmXMLRxRow p.2) =
        (recs.enum.map Prod.snd).filterMap dmXMLRxRow := by
      rw [List.filterMap_map]
      rfl
    rw [h1, List.enum_map_snd]
  rw [henum]
  rfl

theorem dmXMLRx_chronic (rec : DrMasterRec) :
    (dmXMLRx rec).chronicRefillNo = icRefill (goTrimSpace rec.mb1.a18) := by
  simp only [dmXMLRx]
  split
  · split <;> rfl
  · rfl

theorem ysXMLRec_prescriptions (st : YsXMLState) (i : Nat) (rec : YaoshengRec) :
    (ysXMLRec st i rec).prescriptions =
      st.prescriptions ++ (ysXMLRxRow rec).toList := by
  cases h : ysXMLPatient rec <;>
    simp only [ysXMLRec, ysXMLRxRow, h] <;> split <;> simp_all

theorem ysXML_fold_prescriptions (l : List (Nat × YaoshengRec)) :
    ∀ st : YsXMLState,
      ((l.foldl (fun st p => ysXMLRec st p.1 p.2) st).prescriptions) =
        st.prescriptions ++ l.filterMap (fun p => ysXMLRxRow p.2) := by
  induction l with
  | nil => intro st; simp
  | cons x xs ih =>
    intro st
    simp only [List.foldl_cons]
    rw [ih, List.filterMap_cons]
    have hrec := ysXMLRec_prescriptions st x.1 x.2
    cases h : ysXMLRxRow x.2 with
    | none =>
      rw [h] at hrec
      simp only [Option.toList_none, List.append_nil] at hrec
      rw [hrec]
    | some rx =>
      rw [h] at hrec
      simp only [Option.toList_some] at hrec
      rw [hrec]
      simp

theorem parseYaoshengXML_prescriptions (recs : List YaoshengRec) :
    (parseYaoshengXML (.ok recs)).1.prescriptions = recs.filterMap ysXMLRxRow := by
  simp only [parseYaoshengXML]
  rw [ysXML_fold_prescriptions]
  have henum : recs.enum.filterMap (fun p => ysXMLRxRow p.2) =
      recs.filterMap ysXMLRxRow := by
    have h1 : recs.enum.filterMap (fun p => ysXMLRxRow p.2) =
        (recs.enum.map Prod.snd).filterMap ysXMLRxRow := by
      rw [List.filterMap_map]
      rfl
    rw [h1, List.enum_map_snd]
  rw [henum]
  rfl

theorem ysXMLRx_chronic (rec : YaoshengRec) :
    (ysXMLRx rec).chronicRefillNo = icRefill (goTrimSpace rec.visitSeq) := by
  simp only [ysXMLRx]
  split
  · split <;> rfl
  · rfl

theorem visionXMLRec_prescriptions (st : YsXMLState) (i : Nat) (rec : VisionRec) :
    (visionXMLRec st i rec).prescriptions =
      st.prescriptions ++ (visionXMLRxRow rec).toList := by
  cases h : visionXMLPatient rec <;>
    simp only [visionXMLRec, visionXMLRxRow, h] <;> split <;> simp_all

theorem visionXML_fold_prescriptions (l : List (Nat × VisionRec)) :
    ∀ st : YsXMLState,
      ((l.foldl (fun st p => visionXMLRec st p.1 p.2) st).prescriptions) =
        st.prescriptions ++ l.filterMap (fun p => visionXMLRxRow p.2) := by
  induction l with
  | nil => intro st; simp
  | cons x xs ih =>
    intro st
    simp only [List.foldl_cons]
    rw [ih, List.filterMap_cons]
    have hrec := visionXMLRec_prescriptions st x.1 x.2
    cases h : visionXMLRxRow x.2 with
    | none =>
      rw [h] at hrec
      simp only [Option.toList_none, List.append_nil] at hrec
      rw [hrec]
    | some rx =>
      rw [h] at hrec
      simp only [Option.toList_some] at hrec
      rw [hrec]
      simp

theorem parseVisionXML_prescriptions (recs : List VisionRec) :
    (parseVisionXML (.ok recs)).1.prescriptions = recs.filterMap visionXMLRxRow := by
  simp only [parseVisionXML]
  rw [visionXML_fold_prescriptions]
  have henum : recs.enum.filterMap (fun p => visionXMLRxRow p.2) =
      recs.filterMap visionXMLRxRow := by
    have h1 : recs.enum.filterMap (fun p => visionXMLRxRow p.2) =
        (recs.enum.map Prod.snd).filterMap visionXMLRxRow := by
      rw [List.filterMap_map]
      rfl
    rw [h1, List.enum_map_snd]
  rw [henum]
  rfl

theorem visionXMLRx_chronic (rec : VisionRec) :
    (visionXMLRx rec).chronicRefillNo = icRefill (goTrimSpace rec.mb1.a18) := by
  simp only [visionXMLRx]
  split
  · split <;> rfl
  · rfl

theorem nhiXMLRec_prescriptions (st : NHIXMLState) (rec : NHIRecord) :
    (nhiXMLRec st rec).prescriptions =
      st.prescriptions ++ [extractPrescriptionFromRecord rec] := by
  cases h : nhiXMLPatient rec <;> simp only [nhiXMLRec, h]

theorem nhiXML_fold_prescriptions (l : List NHIRecord) :
    ∀ st : NHIXMLState,
      ((l.foldl nhiXMLRec st).prescriptions) =
        st.prescriptions ++ l.map extractPrescriptionFromRecord := by
  induction l with
  | nil => intro st; simp
  | cons x xs ih =>
    intro st
    simp only [List.foldl_cons, List.map_cons]
    rw [ih, nhiXMLRec_prescriptions]
    simp

theorem ParseNHIUploadXML_prescriptions (recs : List NHIRecord) :
    (ParseNHIUploadXML (.ok recs)).1.prescriptions =
      recs.map extractPrescriptionFromRecord := by
  simp only [ParseNHIUploadXML]
  rw [nhiXML_fold_prescriptions]
  rfl

theorem extractPrescriptionFromRecord_chronic (rec : NHIRecord) :
    (extractPrescriptionFromRecord rec).chronicRefillNo =
      icRefill (goTrimSpace rec.mb1.a18) := by
  simp only [extractPrescriptionFromRecord]
  split
  · split <;> rfl
  · rfl

/-! ## Non-emptiness of the extracted patient identifiers -/

theorem patFold_values_mem (ps : List HISPatient) :
    ∀ p ∈ valuesA (patFold [] ps), p ∈ ps := by
  intro p hp
  exact List.mem_of_find?_eq_some ((patFold_spec ps).2 p hp)

theorem ysDATPatient_id_ne {line : GoStr} {p : HISPatient}
    (h : ysDATPatient line = some p) : ¬ p.nationalID = [] := by
  simp only [ysDATPatient] at h
  split at h
  · simp at h
  split at h
  · split at h
    case isTrue hguard =>
      injection h with h'
      subst h'
      exact hguard
    case isFalse => simp at h
  · simp at h

theorem ysCSVPatient_id_ne {colMap : List (GoStr × Nat)} {fields : List GoStr}
    {p : HISPatient} (h : ysCSVPatient colMap fields = some p) :
    ¬ p.nationalID = [] := by
  simp only [ysCSVPatient] at h
  split at h
  case isTrue hguard =>
    injection h with h'
    subst h'
    exact hguard
  case isFalse => simp at h

theorem dmCSVPatient_id_ne {colMap : List (GoStr × Nat)} {fields : List GoStr}
    {p : HISPatient} (h : dmCSVPatient colMap fields = some p) :
    ¬ p.nationalID = [] := by
  simp only [dmCSVPatient] at h
  split at h
  case isTrue hguard =>
    injection h with h'
    subst h'
    exact hguard
  case isFalse => simp at h

theorem dmTXTPatient_id_ne {raw : GoStr} {p : HISPatient}
    (h : dmTXTPatient raw = some p) : ¬ p.nationalID = [] := by
  simp only [dmTXTPatient] at h
  split at h
  · simp at h
  split at h
  · simp at h
  split at h
  · simp at h
  split at h
  · split at h
    · simp at h
    split at h
    case isTrue hguard =>
      injection h with h'
      subst h'
      exact hguard
    case isFalse => simp at h
  · simp at h

theorem genCSVPatient_id_ne {colMap : List (GoStr × Nat)} {line : GoStr}
    {p : HISPatient} (h : genCSVPatient colMap line = some p) :
    ¬ p.nationalID = [] := by
  simp only [genCSVPatient] at h
  split at h
  · simp at h
  split at h
  case isTrue hguard =>
    injection h with h'
    subst h'
    exact hguard
  case isFalse => simp at h

theorem ysXMLPatient_id {rec : YaoshengRec} {p : HISPatient}
    (h : ysXMLPatient rec = some p) :
    ¬ rec.nationalID = [] ∧ p.nationalID = goTrimSpace rec.nationalID := by
  simp only [ysXMLPatient] at h
  split at h
  case isTrue hguard =>
    injection h with h'
    subst h'
    exact ⟨hguard, rfl⟩
  case isFalse => simp at h

theorem dmXMLPatient_id {rec : DrMasterRec} {p : HISPatient}
    (h : dmXMLPatient rec = some p) :
    ¬ rec.mb1.a12 = [] ∧ p.nationalID = goTrimSpace rec.mb1.a12 := by
  simp only [dmXMLPatient] at h
  split at h
  case isTrue hguard =>
    injection h with h'
    subst h'
    exact ⟨hguard, rfl⟩
  case isFalse => simp at h

theorem nhiXMLPatient_id {rec : NHIRecord} {p : HISPatient}
    (h : nhiXMLPatient rec = some p) :
    ¬ rec.mb1.a12 = [] ∧ p.nationalID = goTrimSpace rec.mb1.a12 := by
  simp only [nhiXMLPatient] at h
  split at h
  case isTrue hguard =>
    injection h with h'
    subst h'
    exact ⟨hguard, rfl⟩
  case isFalse => simp at h

theorem visionXMLPatient_id {rec : VisionRec} {p : HISPatient}
    (h : visionXMLPatient rec = some p) :
    ¬ rec.mb1.a12 = [] ∧ p.nationalID = goTrimSpace rec.mb1.a12 := by
  simp only [visionXMLPatient] at h
  split at h
  case isTrue hguard =>
    injection h with h'
    subst h'
    exact ⟨hguard, rfl⟩
  case isFalse => simp at h

theorem visionCSVPatient_id_ne {raw : GoStr} {p : HISPatient}
    (h : visionCSVPatient raw = some p) : ¬ p.nationalID = [] := by
  simp only [visionCSVPatient] at h
  split at h
  · simp at h
  split at h
  · simp at h
  split at h
  · simp at h
  split at h
  · split at h
    · simp at h
    split at h
    case isTrue hguard =>
      injection h with h'
      subst h'
      exact hguard
    case isFalse => simp at h
  · simp at h

theorem parseYaoshengCSV_rx_inv (content : GoStr) :
    (parseYaoshengCSV content).prescriptions =
      valuesA ((ysCSVRows content).foldl (ysRxStep (ysCSVColMap content)) []) ∧
    YsRxInv (ysCSVColMap content) (ysCSVRows content)
      ((ysCSVRows content).foldl (ysRxStep (ysCSVColMap content)) []) := by
  constructor
  · rw [(parseYaoshengCSV_maps content).2, ysCSVRowRx_foldl_eq]
    rfl
  · exact ysRx_fold_inv _ _

theorem parseDrMasterCSV_rx_inv (content : GoStr) :
    (parseDrMasterCSV content).prescriptions =
      valuesA ((dmCSVRows content).foldl (dmRxStep (dmCSVColMap content)) []) ∧
    DmRxInv (dmCSVColMap content) (dmCSVRows content)
      ((dmCSVRows content).foldl (dmRxStep (dmCSVColMap content)) []) := by
  constructor
  · rw [(parseDrMasterCSV_maps content).2, dmCSVRowRx_foldl_eq]
    rfl
  · exact dmRx_fold_inv _ _

theorem ysChronicFor_eq (colMap : List (GoStr × Nat)) (k : GoStr) (r0 : List GoStr)
    (rows : List (List GoStr)) :
    ysChronicFor colMap k r0 rows =
      if getFieldByKey r0 colMap (gs "visit_type") = gs "08" ∨
          (rows.any (fun f =>
            ysRowHasKey colMap k f && ysRowChronicSignal colMap f)) = true
      then 1 else 0 := by
  unfold ysChronicFor
  rw [ysRxInit_chronic]
  by_cases h08 : getFieldByKey r0 colMap (gs "visit_type") = gs "08" <;>
    simp [h08]

theorem dmChronicFor_eq (colMap : List (GoStr × Nat)) (k : GoStr) (r0 : List GoStr)
    (rows : List (List GoStr)) :
    dmChronicFor colMap k r0 rows =
      if getFieldByKey r0 colMap (gs "visit_type") = gs "08" ∨
          (rows.any (fun f =>
            ysRowHasKey colMap k f && dmRowChronicSignal colMap f)) = true
      then 1 else 0 := by
  unfold dmChronicFor
  rw [dmRxInit_chronic]
  by_cases h08 : getFieldByKey r0 colMap (gs "visit_type") = gs "08" <;>
    simp [h08]

theorem ysCSVRowPatient_id_ne {colMap : List (GoStr × Nat)} {raw : GoStr}
    {p : HISPatient} (h : ysCSVRowPatient colMap raw = some p) :
    ¬ p.nationalID = [] := by
  unfold ysCSVRowPatient at h
  cases hx : ysCSVFields raw with
  | none =>
    simp only [hx] at h
    exact absurd h (by simp)
  | some fields =>
    simp only [hx] at h
    exact ysCSVPatient_id_ne h

theorem dmCSVRowPatient_id_ne {colMap : List (GoStr × Nat)} {raw : GoStr}
    {p : HISPatient} (h : dmCSVRowPatient colMap raw = some p) :
    ¬ p.nationalID = [] := by
  unfold dmCSVRowPatient at h
  cases hx : ysCSVFields raw with
  | none =>
    simp only [hx] at h
    exact absurd h (by simp)
  | some fields =>
    simp only [hx] at h
    exact dmCSVPatient_id_ne h

theorem goContains_ne_nil {content pat : GoStr} (hp : ¬ pat = [])
    (h : goContains content pat = true) : ¬ content = [] := by
  intro hc
  subst hc
  simp only [goContains, List.isEmpty_iff] at h
  exact hp h

theorem parseGenericCSV_no_error {content : GoStr} (h : ¬ content = []) :
    (parseGenericCSV content).2 = none := by
  cases hG : goLines content with
  | nil => exact absurd hG (goLines_ne_nil h)
  | cons a r => simp [parseGenericCSV, hG]

theorem parseGenericCSV_patients_cons {content headerLine : GoStr}
    {rest : List GoStr} (hG : goLines content = headerLine :: rest) :
    (parseGenericCSV content).1.patients =
      valuesA (patFold [] (rest.filterMap
        (genCSVPatient (buildColumnMapping (parseCSVLine headerLine))))) := by
  simp only [parseGenericCSV, hG]
  rw [genCSV_fold_patientMap]

theorem parseGenericCSV_patients_nil {content : GoStr}
    (hG : goLines content = []) : (parseGenericCSV content).1.patients = [] := by
  simp [parseGenericCSV, hG]

/-! ## Value-level chronic-counter invariants -/

theorem valuesA_append {β : Type} (m₁ m₂ : List (GoStr × β)) :
    valuesA (m₁ ++ m₂) = valuesA m₁ ++ valuesA m₂ := by
  simp [valuesA]

theorem mem_valuesA_insertIfAbsent {β : Type} {m : List (GoStr × β)} {k : GoStr}
    {v : β} {p : β} (h : p ∈ valuesA (insertIfAbsent m k v)) :
    p ∈ valuesA m ∨ p = v := by
  unfold insertIfAbsent at h
  split at h
  · exact Or.inl h
  · rw [valuesA_append] at h
    rcases List.mem_append.1 h with h | h
    · exact Or.inl h
    · simp [valuesA] at h
      exact Or.inr h

theorem mem_valuesA_setA {β : Type} {m : List (GoStr × β)} {k : GoStr}
    {v : β} {p : β} (h : p ∈ valuesA (setA m k v)) :
    p ∈ valuesA m ∨ p = v := by
  induction m with
  | nil =>
    simp [setA, valuesA] at h
    exact Or.inr h
  | cons x t ih =>
    obtain ⟨k', v'⟩ := x
    simp only [setA] at h
    split at h
    · simp only [valuesA, List.map_cons] at h ⊢
      rcases List.mem_cons.1 h with h | h
      · exact Or.inr h
      · exact Or.inl (List.mem_cons.2 (Or.inr h))
    · simp only [valuesA, List.map_cons] at h ⊢
      rcases List.mem_cons.1 h with h | h
      · exact Or.inl (List.mem_cons.2 (Or.inl h))
      · rcases ih h with h | h
        · exact Or.inl (List.mem_cons.2 (Or.inr h))
        · exact Or.inr h

theorem mem_valuesA_updateA {β : Type} {m : List (GoStr × β)} {k : GoStr}
    {f : β → β} {p : β} (h : p ∈ valuesA (updateA m k f)) :
    p ∈ valuesA m ∨ ∃ q, q ∈ valuesA m ∧ p = f q := by
  induction m with
  | nil =>
    simp [updateA, valuesA] at h
  | cons x t ih =>
    obtain ⟨k', v'⟩ := x
    simp only [updateA] at h
    split at h
    · simp only [valuesA, List.map_cons] at h ⊢
      rcases List.mem_cons.1 h with h | h
      · exact Or.inr ⟨v', List.mem_cons.2 (Or.inl rfl), h⟩
      · exact Or.inl (List.mem_cons.2 (Or.inr h))
    · simp only [valuesA, List.map_cons] at h ⊢
      rcases List.mem_cons.1 h with h | h
      · exact Or.inl (List.mem_cons.2 (Or.inl h))
      · rcases ih h with h | ⟨q, hq, hpq⟩
        · exact Or.inl (List.mem_cons.2 (Or.inr h))
        · exact Or.inr ⟨q, List.mem_cons.2 (Or.inr hq), hpq⟩

theorem chronicAC_rxApplyItem (item : HISPrescriptionItem) (rx : HISPrescription)
    (h : chronicAC rx) : chronicAC (rxApplyItem item rx) := by
  unfold chronicAC at h
  unfold rxApplyItem chronicAC
  by_cases hcond : 28 ≤ item.daysSupply ∧
      ({ rx with items := rx.items ++ [item] } : HISPrescription).chronicRefillNo = 0
  · rw [if_pos hcond]
    show (1 : Int) = if rx.visitType = gs "08" ∨
        (rx.items ++ [item]).any (fun it => decide (28 ≤ it.daysSupply)) then 1 else 0
    rw [if_pos]
    refine Or.inr ?_
    rw [List.any_append]
    simp [hcond.1]
  · rw [if_neg hcond]
    show rx.chronicRefillNo = if rx.visitType = gs "08" ∨
        (rx.items ++ [item]).any (fun it => decide (28 ≤ it.daysSupply)) then 1 else 0
    rw [Classical.not_and_iff_or_not_not] at hcond
    rcases hcond with hd | hc
    · have hda : ((rx.items ++ [item]).any (fun it => decide (28 ≤ it.daysSupply))) =
          (rx.items.any (fun it => decide (28 ≤ it.daysSupply))) := by
        rw [List.any_append]
        simp [hd]
      rw [hda]
      exact h
    · have hc' : ¬ rx.chronicRefillNo = 0 := hc
      have hA : rx.visitType = gs "08" ∨
          rx.items.any (fun it => decide (28 ≤ it.daysSupply)) = true := by
        by_contra hno
        push_neg at hno
        rw [h] at hc'
        simp [hno.1, hno.2] at hc'
      rw [h, if_pos hA, if_pos]
      rcases hA with hA | hA
      · exact Or.inl hA
      · refine Or.inr ?_
        rw [List.any_append, hA]
        rfl

theorem chronicA_items (rx : HISPrescription) (items' : List HISPrescriptionItem)
    (h : chronicA rx) : chronicA { rx with items := items' } := h

theorem dmTXTLine_chronic (st : DmTXTState) (raw : GoStr)
    (h : ∀ rx ∈ valuesA st.rxMap, chronicAC rx) :
    ∀ rx ∈ valuesA (dmTXTLine st raw).rxMap, chronicAC rx := by
  intro rx hrx
  by_cases h0 : goTrimSpace raw = []
  · simp only [dmTXTLine, h0, if_true, reduceIte] at hrx
    exact h rx hrx
  by_cases h1 : (goSplit (goTrimSpace raw) '|').length < 2
  · simp only [dmTXTLine, h0, h1, if_false, if_true, ite_true, ite_false, reduceIte] at hrx
    exact h rx hrx
  by_cases hH : goToUpper (goTrimSpace (goSplit (goTrimSpace raw) '|').headI) = gs "H"
  · simp only [dmTXTLine, h0, h1, hH, if_false, if_true, ite_true, ite_false, reduceIte] at hrx
    exact h rx hrx
  by_cases hD : goToUpper (goTrimSpace (goSplit (goTrimSpace raw) '|').headI) = gs "D"
  · by_cases h7 : (goSplit (goTrimSpace raw) '|').length < 7
    · simp only [dmTXTLine, h0, h1, hH, hD, h7, if_false, if_true, ite_true, ite_false,
        reduceIte] at hrx
      exact h rx hrx
    · by_cases hid : goTrimSpace ((goSplit (goTrimSpace raw) '|').getD 1 []) = []
      all_goals
        simp only [dmTXTLine, h0, h1, hH, hD, h7, hid, if_false, if_true, ite_true,
          ite_false, ne_eq, not_true_eq_false, not_false_eq_true, reduceIte] at hrx
      all_goals
        rcases mem_valuesA_setA hrx with hin | heq
      · exact h rx hin
      · subst heq
        unfold chronicAC
        simp [HISPrescription.empty]
      · exact h rx hin
      · subst heq
        unfold chronicAC
        simp [HISPrescription.empty]
  · by_cases hM : goToUpper (goTrimSpace (goSplit (goTrimSpace raw) '|').headI) = gs "M"
    · by_cases hcur : st.currentRxKey = []
      · simp only [dmTXTLine, h0, h1, hH, hD, hM, hcur, if_false, if_true, ite_true,
          ite_false, reduceIte] at hrx
        exact h rx hrx
      by_cases h5 : (goSplit (goTrimSpace raw) '|').length < 5
      · simp only [dmTXTLine, h0, h1, hH, hD, hM, hcur, h5, if_false, if_true, ite_true,
          ite_false, reduceIte] at hrx
        exact h rx hrx
      by_cases hlk : (lookupA st.rxMap st.currentRxKey).isSome = true
      · simp only [dmTXTLine, h0, h1, hH, hD, hM, hcur, h5, hlk, if_false, if_true,
          ite_true, ite_false, reduceIte] at hrx
        rcases mem_valuesA_updateA hrx with hin | ⟨q, hq, hpq⟩
        · exact h rx hin
        · subst hpq
          exact chronicAC_rxApplyItem _ _ (h q hq)
      · simp only [dmTXTLine, h0, h1, hH, hD, hM, hcur, h5, hlk, if_false, if_true,
          ite_true, ite_false, reduceIte] at hrx
        exact h rx hrx
    · simp only [dmTXTLine, h0, h1, hH, hD, hM, if_false, if_true, ite_true, ite_false,
        reduceIte] at hrx
      exact h rx hrx

theorem dmTXT_fold_chronic (lines : List GoStr) :
    ∀ st : DmTXTState, (∀ rx ∈ valuesA st.rxMap, chronicAC rx) →
      ∀ rx ∈ valuesA ((lines.foldl dmTXTLine st).rxMap), chronicAC rx := by
  induction lines with
  | nil => intro st h; exact h
  | cons l ls ih =>
    intro st h
    exact ih (dmTXTLine st l) (dmTXTLine_chronic st l h)

theorem parseDrMasterTXT_chronic (content : GoStr) :
    ∀ rx ∈ (parseDrMasterTXT content).prescriptions, chronicAC rx := by
  simp only [parseDrMasterTXT]
  exact dmTXT_fold_chronic _ _ (by simp [valuesA])

set_option maxHeartbeats 1600000 in
theorem visionCSVLine_chronic (st : DmTXTState) (raw : GoStr)
    (h : ∀ rx ∈ valuesA st.rxMap, chronicA rx) :
    ∀ rx ∈ valuesA (visionCSVLine st raw).rxMap, chronicA rx := by
  intro rx hrx
  by_cases h0 : goTrimSpace raw = []
  · simp only [visionCSVLine, h0, if_true, reduceIte] at hrx
    exact h rx hrx
  by_cases h1 : (parseCSVLine (goTrimSpace raw)).length < 2
  · simp only [visionCSVLine, h0, h1, if_false, if_true, ite_true, ite_false, reduceIte] at hrx
    exact h rx hrx
  by_cases hT : goToUpper (goTrimSpace (parseCSVLine (goTrimSpace raw)).headI) = gs "T"
  · simp only [visionCSVLine, h0, h1, hT, if_false, if_true, ite_true, ite_false,
      reduceIte] at hrx
    exact h rx hrx
  by_cases hD : goToUpper (goTrimSpace (parseCSVLine (goTrimSpace raw)).headI) = gs "D"
  · by_cases h10 : (parseCSVLine (goTrimSpace raw)).length < 10
    · simp only [visionCSVLine, h0, h1, hT, hD, h10, if_false, if_true, ite_true,
        ite_false, reduceIte] at hrx
      exact h rx hrx
    · by_cases hid : goTrimSpace (getField (parseCSVLine (goTrimSpace raw)) 4) = []
      all_goals
        simp only [visionCSVLine, h0, h1, hT, hD, h10, hid, if_false, if_true, ite_true,
          ite_false, ne_eq, not_true_eq_false, not_false_eq_true, reduceIte] at hrx
      all_goals
        rcases mem_valuesA_setA hrx with hin | heq
      · exact h rx hin
      · subst heq
        unfold chronicA
        rfl
      · exact h rx hin
      · subst heq
        unfold chronicA
        rfl
  · by_cases hP : goToUpper (goTrimSpace (parseCSVLine (goTrimSpace raw)).headI) = gs "P"
    · by_cases hcur : st.currentRxKey = []
      · simp only [visionCSVLine, h0, h1, hT, hD, hP, hcur, if_false, if_true, ite_true,
          ite_false, reduceIte] at hrx
        exact h rx hrx
      by_cases h8 : (parseCSVLine (goTrimSpace raw)).length < 8
      · simp only [visionCSVLine, h0, h1, hT, hD, hP, hcur, h8, if_false, if_true,
          ite_true, ite_false, reduceIte] at hrx
        exact h rx hrx
      by_cases hlk : (lookupA st.rxMap st.currentRxKey).isSome = true
      · simp only [visionCSVLine, h0, h1, hT, hD, hP, hcur, h8, hlk, if_false, if_true,
          ite_true, ite_false, reduceIte] at hrx
        rcases mem_valuesA_updateA hrx with hin | ⟨q, hq, hpq⟩
        · exact h rx hin
        · subst hpq
          exact chronicA_items q _ (h q hq)
      · simp only [visionCSVLine, h0, h1, hT, hD, hP, hcur, h8, hlk, if_false, if_true,
          ite_true, ite_false, reduceIte] at hrx
        exact h rx hrx
    · simp only [visionCSVLine, h0, h1, hT, hD, hP, if_false, if_true, ite_true,
        ite_false, reduceIte] at hrx
      exact h rx hrx

theorem visionCSV_fold_chronic (lines : List GoStr) :
    ∀ st : DmTXTState, (∀ rx ∈ valuesA st.rxMap, chronicA rx) →
      ∀ rx ∈ valuesA ((lines.foldl visionCSVLine st).rxMap), chronicA rx := by
  induction lines with
  | nil => intro st h; exact h
  | cons l ls ih =>
    intro st h
    exact ih (visionCSVLine st l) (visionCSVLine_chronic st l h)

theorem parseVisionCSV_chronic (content : GoStr) :
    ∀ rx ∈ (parseVisionCSV content).prescriptions, chronicA rx := by
  simp only [parseVisionCSV]
  exact visionCSV_fold_chronic _ _ (by simp [valuesA])

theorem parseClaimDetailLine_chronic {fields : List GoStr} {rx : HISPrescription}
    (h : parseClaimDetailLine fields = some rx) : rx.chronicRefillNo = 0 := by
  simp only [parseClaimDetailLine] at h
  split at h
  · simp at h
  · injection h with h'
    subst h'
    rfl

theorem claimCSVLine_chronic (st : ClaimCSVState) (raw : GoStr)
    (h : (∀ rx ∈ st.prescriptions, rx.chronicRefillNo = 0) ∧
      (∀ rx, st.currentRx = some rx → rx.chronicRefillNo = 0)) :
    (∀ rx ∈ (claimCSVLine st raw).prescriptions, rx.chronicRefillNo = 0) ∧
    (∀ rx, (claimCSVLine st raw).currentRx = some rx → rx.chronicRefillNo = 0) := by
  obtain ⟨hps, hcur⟩ := h
  by_cases h0 : goTrimSpace raw = []
  · simp only [claimCSVLine, h0, if_true, reduceIte]
    exact ⟨hps, hcur⟩
  by_cases h1 : (goSplit (goTrimSpace raw) ',').length < 2
  · simp only [claimCSVLine, h0, h1, if_false, if_true, ite_true, ite_false, reduceIte]
    exact ⟨hps, hcur⟩
  by_cases hT : goTrimSpace (goSplit (goTrimSpace raw) ',').headI = gs "t" ∨
      goTrimSpace (goSplit (goTrimSpace raw) ',').headI = gs "T"
  · simp only [claimCSVLine, h0, h1, hT, if_false, if_true, ite_true, ite_false, reduceIte]
    exact ⟨hps, hcur⟩
  by_cases hD : goTrimSpace (goSplit (goTrimSpace raw) ',').headI = gs "d" ∨
      goTrimSpace (goSplit (goTrimSpace raw) ',').headI = gs "D"
  · have hflush : ∀ rx ∈ (match st.currentRx with
        | some rx => { st with prescriptions := st.prescriptions ++ [rx] }
        | none => st).prescriptions, rx.chronicRefillNo = 0 := by
      cases hc : st.currentRx with
      | none => exact hps
      | some rx0 =>
        intro rx hrx
        simp only at hrx
        rcases List.mem_append.1 hrx with hrx | hrx
        · exact hps rx hrx
        · have : rx = rx0 := by simpa using hrx
          subst this
          exact hcur rx (by rw [hc])
    cases hdl : parseClaimDetailLine (goSplit (goTrimSpace raw) ',') with
    | none =>
      simp only [claimCSVLine, h0, h1, hT, hD, hdl, if_false, if_true, ite_true,
        ite_false, reduceIte]
      cases hc : st.currentRx with
      | none =>
        simp only [hc]
        refine ⟨?_, by intro rx hrx; simp at hrx⟩
        intro rx hrx
        have := hflush
        rw [hc] at this
        exact this rx hrx
      | some rx0 =>
        simp only [hc]
        refine ⟨?_, by intro rx hrx; simp at hrx⟩
        intro rx hrx
        have := hflush
        rw [hc] at this
        exact this rx hrx
    | some rxn =>
      simp only [claimCSVLine, h0, h1, hT, hD, hdl, if_false, if_true, ite_true,
        ite_false, reduceIte]
      cases hc : st.currentRx with
      | none =>
        simp only [hc]
        refine ⟨?_, ?_⟩
        · intro rx hrx
          have := hflush
          rw [hc] at this
          exact this rx hrx
        · intro rx hrx
          have hx : rxn = rx := by simpa using hrx
          subst hx
          exact parseClaimDetailLine_chronic hdl
      | some rx0 =>
        simp only [hc]
        refine ⟨?_, ?_⟩
        · intro rx hrx
          have := hflush
          rw [hc] at this
          exact this rx hrx
        · intro rx hrx
          have hx : rxn = rx := by simpa using hrx
          subst hx
          exact parseClaimDetailLine_chronic hdl
  · by_cases hP : goTrimSpace (goSplit (goTrimSpace raw) ',').headI = gs "p" ∨
        goTrimSpace (goSplit (goTrimSpace raw) ',').headI = gs "P"
    · cases hc : st.currentRx with
      | none =>
        simp only [claimCSVLine, h0, h1, hT, hD, hP, hc, if_false, if_true, ite_true,
          ite_false, reduceIte]
        exact ⟨hps, fun rx hrx => hcur rx (by rw [hc]; exact hrx)⟩
      | some rx0 =>
        cases hil : parseClaimItemLine (goSplit (goTrimSpace raw) ',') with
        | none =>
          simp only [claimCSVLine, h0, h1, hT, hD, hP, hc, hil, if_false, if_true,
            ite_true, ite_false, reduceIte]
          refine ⟨hps, ?_⟩
          intro rx hrx
          have hx : rx0 = rx := by simpa using hrx
          subst hx
          exact hcur rx0 (by rw [hc])
        | some item =>
          simp only [claimCSVLine, h0, h1, hT, hD, hP, hc, hil, if_false, if_true,
            ite_true, ite_false, reduceIte]
          refine ⟨hps, ?_⟩
          intro rx hrx
          have hx : ({ rx0 with items := rx0.items ++ [item] } : HISPrescription) = rx := by
            simpa using hrx
          subst hx
          exact hcur rx0 (by rw [hc])
    · simp only [claimCSVLine, h0, h1, hT, hD, hP, if_false, if_true, ite_true,
        ite_false, reduceIte]
      exact ⟨hps, hcur⟩

theorem claimCSV_fold_chronic (lines : List GoStr) :
    ∀ st : ClaimCSVState,
      (∀ rx ∈ st.prescriptions, rx.chronicRefillNo = 0) ∧
        (∀ rx, st.currentRx = some rx → rx.chronicRefillNo = 0) →
      (∀ rx ∈ (lines.foldl claimCSVLine st).prescriptions, rx.chronicRefillNo = 0) ∧
        (∀ rx, (lines.foldl claimCSVLine st).currentRx = some rx →
          rx.chronicRefillNo = 0) := by
  induction lines with
  | nil => intro st h; exact h
  | cons l ls ih =>
    intro st h
    exact ih (claimCSVLine st l) (claimCSVLine_chronic st l h)

theorem ParseNHIClaimCSV_chronic (content : GoStr) :
    ∀ rx ∈ (ParseNHIClaimCSV content).prescriptions, rx.chronicRefillNo = 0 := by
  have h := claimCSV_fold_chronic (goLines content) ⟨0, 0, 0, [], [], none⟩
    ⟨by intro rx hrx; simp at hrx, by intro rx hrx; simp at hrx⟩
  intro rx hrx
  simp only [ParseNHIClaimCSV] at hrx
  revert hrx
  cases hc : ((goLines content).foldl claimCSVLine ⟨0, 0, 0, [], [], none⟩).currentRx with
  | none =>
    simp only [hc]
    intro hrx
    exact h.1 rx hrx
  | some rx0 =>
    simp only [hc]
    intro hrx
    rcases List.mem_append.1 hrx with hrx | hrx
    · exact h.1 rx hrx
    · have hx : rx = rx0 := by simpa using hrx
      subst hx
      exact h.2 rx (by rw [hc])

set_option maxHeartbeats 3200000 in
theorem detectVendor_ne_auto (content filename : GoStr) :
    ¬ detectVendor content filename = .auto := by
  intro h
  dsimp only [detectVendor] at h
  revert h
  generalize (goContains (goToLower filename) (gs "yaosheng") ||
      goContains (goToLower filename) (gs "耀聖") ||
      goContains (goToLower filename) (gs "ys_")) = b1
  generalize (goContains (goToLower filename) (gs "vision") ||
      goContains (goToLower filename) (gs "展望") ||
      goContains (goToLower filename) (gs "vs_")) = b2
  generalize (goContains (goToLower filename) (gs "drmaster") ||
      goContains (goToLower filename) (gs "看診大師") ||
      goContains (goToLower filename) (gs "dm_")) = b3
  generalize goHasSuffix (goToLower filename) (gs ".dat") = b4
  generalize (goContains content (gs "|") && !goContains content (gs ",")) = b5
  generalize (goContains content (gs "<?xml") || goContains content (gs "<RECS>")) = b6
  generalize (goContains content (gs "<d23>") || goContains content (gs "<d24>")) = b6a
  generalize goContains content (gs "<d22>") = b6b
  generalize (goContains (goToLower (goSplit content '\n').headI) (gs "yaosheng") ||
      goContains (goSplit content '\n').headI (gs "耀聖")) = b7b
  generalize (goContains (goToLower (goSplit content '\n').headI) (gs "vision") ||
      goContains (goSplit content '\n').headI (gs "展望")) = b7c
  generalize (goContains (goToLower (goSplit content '\n').headI) (gs "drmaster") ||
      goContains (goSplit content '\n').headI (gs "看診大師")) = b7d
  generalize goContains content (gs ",") = b7
  intro h
  repeat' split at h
  all_goals exact HISVendor.noConfusion h

theorem ParseHISFileAuto_eq (umN : GoStr → Except GoStr (List NHIRecord))
    (umY : GoStr → Except GoStr (List YaoshengRec))
    (umD : GoStr → Except GoStr (List DrMasterRec))
    (umV : GoStr → Except GoStr (List VisionRec))
    (content filename : GoStr) :
    ParseHISFileAuto umN umY umD umV content filename =
      ParseHISFileByVendor umN umY umD umV content filename
        (detectVendor content filename) := by
  unfold ParseHISFileAuto ParseHISFileByVendor
  cases hv : detectVendor content filename with
  | auto => exact absurd hv (detectVendor_ne_auto content filename)
  | nhi => rfl
  | yaosheng => rfl
  | vision => rfl
  | drmaster => rfl
  | generic => rfl

/-! ## The claims -/

/-- C1: `convertROCDate` returns the empty string (it never fails) when the
input is shorter than 7 characters or its leading 3-character era year does
not parse as a number, and on a 7-digit input it returns the ISO string with
1911 added to the era year; in particular `convertROCDate "1140315" =
"2025-03-15"` and `convertROCDate "abc" = convertROCDate "12345" = ""`. -/
theorem convertROCDate_claim :
    (∀ s : GoStr, s.length < 7 → convertROCDate s = []) ∧
    (∀ s : GoStr, goAtoi (s.take 3) = none → convertROCDate s = []) ∧
    (∀ s : GoStr, s.length = 7 → s.all Char.isDigit = true →
      ∃ y : Nat, goAtoi (s.take 3) = some (y : Int) ∧
        convertROCDate s =
          pad4 ((y : Int) + 1911) ++ ('-' :: (s.drop 3).take 2) ++
            ('-' :: (s.drop 5).take 2)) ∧
    convertROCDate (gs "1140315") = gs "2025-03-15" ∧
    convertROCDate (gs "abc") = [] ∧
    convertROCDate (gs "12345") = [] := by
  refine ⟨?_, ?_, ?_, by decide, by decide, by decide⟩
  · intro s h
    simp [convertROCDate, h]
  · intro s hparse
    by_cases hlen : s.length < 7
    · simp [convertROCDate, hlen]
    · simp [convertROCDate, hlen, hparse]
  · intro s hlen hdig
    have htake_ne : ¬ s.take 3 = [] := by
      intro h
      have := congrArg List.length h
      simp [List.length_take, hlen] at this
    have htake_dig : (s.take 3).all Char.isDigit = true := by
      rw [List.all_eq_true] at hdig ⊢
      intro c hc
      exact hdig c (List.mem_of_mem_take hc)
    have hAtoi := goAtoi_of_digits htake_ne htake_dig
    refine ⟨_, hAtoi, ?_⟩
    have hnlt : ¬ s.length < 7 := by omega
    simp [convertROCDate, hnlt, hAtoi]

/-- C1 witness: the short-input and 7-digit cases at concrete inputs. -/
theorem convertROCDate_claim_witness :
    convertROCDate (gs "ab") = [] ∧
    (∃ y : Nat, goAtoi ((gs "1140315").take 3) = some (y : Int) ∧
      convertROCDate (gs "1140315") =
        pad4 ((y : Int) + 1911) ++ ('-' :: ((gs "1140315").drop 3).take 2) ++
          ('-' :: ((gs "1140315").drop 5).take 2)) :=
  ⟨convertROCDate_claim.1 (gs "ab") (by decide),
   convertROCDate_claim.2.2.1 (gs "1140315") (by decide) (by decide)⟩

/-- C2: in every decoder of every vendor — Yaosheng DAT, CSV and XML,
DrMaster TXT, CSV and XML, Vision CSV and XML, generic CSV and the NHI
upload XML — the patient list carries pairwise distinct national
identifiers, and each returned patient is the first patient extracted with
its identifier — later rows with the same identifier are dropped, never
merged.  (The claim-CSV decoder emits no patients.) -/
theorem patients_dedup_claim :
    (∀ content : GoStr,
      ((parseYaoshengDAT content).patients.map (fun p => p.nationalID)).Nodup ∧
      ∀ p ∈ (parseYaoshengDAT content).patients,
        ((goLines content).filterMap ysDATPatient).find?
          (fun q => q.nationalID == p.nationalID) = some p) ∧
    (∀ content : GoStr,
      ((parseDrMasterTXT content).patients.map (fun p => p.nationalID)).Nodup ∧
      ∀ p ∈ (parseDrMasterTXT content).patients,
        ((goLines content).filterMap dmTXTPatient).find?
          (fun q => q.nationalID == p.nationalID) = some p) ∧
    (∀ content : GoStr,
      ((parseYaoshengCSV content).patients.map (fun p => p.nationalID)).Nodup ∧
      ∀ p ∈ (parseYaoshengCSV content).patients,
        ((ysCSVDataLines content).filterMap
            (ysCSVRowPatient (ysCSVColMap content))).find?
          (fun q => q.nationalID == p.nationalID) = some p) ∧
    (∀ content headerLine : GoStr, ∀ rest : List GoStr,
      goLines content = headerLine :: rest →
      ((parseGenericCSV content).1.patients.map (fun p => p.nationalID)).Nodup ∧
      ∀ p ∈ (parseGenericCSV content).1.patients,
        (rest.filterMap
            (genCSVPatient (buildColumnMapping (parseCSVLine headerLine)))).find?
          (fun q => q.nationalID == p.nationalID) = some p) ∧
    (∀ recs : List YaoshengRec,
      ((parseYaoshengXML (.ok recs)).1.patients.map (fun p => p.nationalID)).Nodup ∧
      ∀ p ∈ (parseYaoshengXML (.ok recs)).1.patients,
        (recs.filterMap ysXMLPatient).find?
          (fun q => q.nationalID == p.nationalID) = some p) ∧
    (∀ recs : List DrMasterRec,
      ((parseDrMasterXML (.ok recs)).1.patients.map (fun p => p.nationalID)).Nodup ∧
      ∀ p ∈ (parseDrMasterXML (.ok recs)).1.patients,
        (recs.filterMap dmXMLPatient).find?
          (fun q => q.nationalID == p.nationalID) = some p) ∧
    (∀ recs : List NHIRecord,
      ((ParseNHIUploadXML (.ok recs)).1.patients.map (fun p => p.nationalID)).Nodup ∧
      ∀ p ∈ (ParseNHIUploadXML (.ok recs)).1.patients,
        (recs.filterMap nhiXMLPatient).find?
          (fun q => q.nationalID == p.nationalID) = some p) ∧
    (∀ content : GoStr,
      ((parseDrMasterCSV content).patients.map (fun p => p.nationalID)).Nodup ∧
      ∀ p ∈ (parseDrMasterCSV content).patients,
        ((dmCSVDataLines content).filterMap
            (dmCSVRowPatient (dmCSVColMap content))).find?
          (fun q => q.nationalID == p.nationalID) = some p) ∧
    (∀ content : GoStr,
      ((parseVisionCSV content).patients.map (fun p => p.nationalID)).Nodup ∧
      ∀ p ∈ (parseVisionCSV content).patients,
        ((goLines content).filterMap visionCSVPatient).find?
          (fun q => q.nationalID == p.nationalID) = some p) ∧
    (∀ recs : List VisionRec,
      ((parseVisionXML (.ok recs)).1.patients.map (fun p => p.nationalID)).Nodup ∧
      ∀ p ∈ (parseVisionXML (.ok recs)).1.patients,
        (recs.filterMap visionXMLPatient).find?
          (fun q => q.nationalID == p.nationalID) = some p) := by
  refine ⟨?_, ?_, ?_, ?_, ?_, ?_, ?_, ?_, ?_, ?_⟩
  · intro content
    rw [parseYaoshengDAT_patients]
    exact patFold_spec _
  · intro content
    rw [parseDrMasterTXT_patients]
    exact patFold_spec _
  · intro content
    rw [(parseYaoshengCSV_maps content).1]
    exact patFold_spec _
  · intro content headerLine rest hG
    rw [parseGenericCSV_patients_cons hG]
    exact patFold_spec _
  · intro recs
    rw [parseYaoshengXML_patients]
    exact patFold_spec _
  · intro recs
    rw [parseDrMasterXML_patients]
    exact patFold_spec _
  · intro recs
    rw [ParseNHIUploadXML_patients]
    exact patFold_spec _
  · intro content
    rw [(parseDrMasterCSV_maps content).1]
    exact patFold_spec _
  · intro content
    rw [parseVisionCSV_patients]
    exact patFold_spec _
  · intro recs
    rw [parseVisionXML_patients]
    exact patFold_spec _

/-- C2 witness: first-write-wins dedup on a concrete generic CSV payload. -/
theorem patients_dedup_witness :
    ((parseGenericCSV (gs "id,name\nA1,Wang\nA1,Chen")).1.patients.map
        (fun p => p.nationalID)).Nodup ∧
    ([gs "A1,Wang", gs "A1,Chen"].filterMap
        (genCSVPatient (buildColumnMapping (parseCSVLine (gs "id,name"))))).find?
      (fun q => q.nationalID ==
        ((parseGenericCSV (gs "id,name\nA1,Wang\nA1,Chen")).1.patients.headI).nationalID) =
      some ((parseGenericCSV (gs "id,name\nA1,Wang\nA1,Chen")).1.patients.headI) := by
  have h := patients_dedup_claim.2.2.2.1 (gs "id,name\nA1,Wang\nA1,Chen")
    (gs "id,name") [gs "A1,Wang", gs "A1,Chen"] (by decide)
  exact ⟨h.1, h.2 _ (by decide)⟩

/-- C3 counterexample: in the DrMaster TXT decoder a repeated `D` row with
the same (patient, visit date) key replaces the accumulated prescription, so
two rows with different drug codes leave one item, not two. -/
theorem drmasterTXT_merge_cx :
    (parseDrMasterTXT (gs "D|A1|Wang|1140101|0912|1140315|01\nM|AB1|N1|5|7|T\nD|A1|Wang|1140101|0912|1140315|01\nM|AB2|N2|5|7|T")).prescriptions.map
      (fun rx => (rx.items.map (fun it => it.drugCode), rx.items.length)) =
      [([gs "AB2"], 1)] := by decide

/-- C3 (amended): merging is per decoder.  The Yaosheng CSV, DrMaster CSV
and Yaosheng DAT decoders merge rows sharing a prescription key into exactly
one prescription whose item list concatenates every row contribution in
order, with header fields from the first such row (proved in general, with
two-row instances for the CSV decoders); the generic CSV decoder also merges
by appending (concrete instance).  The DrMaster TXT decoder and the Vision
CSV decoder instead replace the accumulated prescription when a `D` row
repeats a key (see the counterexample and the Vision instance), and the
claim-CSV decoder has no key-based merge at all: repeated identical `D` rows
yield distinct prescriptions. -/
theorem prescription_merge_amended :
    (∀ content : GoStr, ∃ m : List (GoStr × HISPrescription),
      (parseYaoshengCSV content).prescriptions = valuesA m ∧
      (m.map Prod.fst).Nodup ∧
      ∀ k, lookupA m k =
        match (ysCSVRows content).find? (ysRowHasKey (ysCSVColMap content) k) with
        | none => none
        | some r0 => some (ysRxVal (ysCSVColMap content) k r0 (ysCSVRows content))) ∧
    (parseYaoshengCSV (gs "A1,W,0700101,1140315,AB1,N1,5,7,01\nA1,W,0700101,1140315,AB2,N2,5,7,01")).prescriptions.map
      (fun rx => (rx.items.map (fun it => it.drugCode), rx.items.length)) =
      [([gs "AB1", gs "AB2"], 2)] ∧
    (∀ content : GoStr, ∃ m : List (GoStr × HISPrescription),
      (parseDrMasterCSV content).prescriptions = valuesA m ∧
      (m.map Prod.fst).Nodup ∧
      ∀ k, lookupA m k =
        match (dmCSVRows content).find? (ysRowHasKey (dmCSVColMap content) k) with
        | none => none
        | some r0 => some (dmRxVal (dmCSVColMap content) k r0 (dmCSVRows content))) ∧
    (parseDrMasterCSV (gs "A1,W,0700101,0912,1140315,AB1,N1,5,7,01\nA1,W,0700101,0912,1140315,AB2,N2,5,7,01")).prescriptions.map
      (fun rx => (rx.items.map (fun it => it.drugCode), rx.items.length)) =
      [([gs "AB1", gs "AB2"], 2)] ∧
    (∀ content : GoStr, ∃ m : List (GoStr × HISPrescription),
      (parseYaoshengDAT content).prescriptions = valuesA m ∧
      (m.map Prod.fst).Nodup ∧
      ∀ k, lookupA m k =
        match (goLines content).find? (datRowHasKey k) with
        | none => none
        | some l0 => some (datRxVal k l0 (goLines content))) ∧
    (parseYaoshengDAT (gs "2HOSP000001A123456789Wang                11401011140315AB1\n2HOSP000001A123456789Wang                11401011140315AB2")).prescriptions.map
      (fun rx => (rx.items.map (fun it => it.drugCode), rx.items.length)) =
      [([gs "AB1", gs "AB2"], 2)] ∧
    (parseGenericCSV (gs "id,name,code,days,type,rx_no,date\nA1,W,AB1,5,01,R1,1140101\nA1,W,AB2,5,01,R1,1140101")).1.prescriptions.map
      (fun rx => (rx.items.map (fun it => it.drugCode), rx.items.length)) =
      [([gs "AB1", gs "AB2"], 2)] ∧
    (parseVisionCSV (gs "D,01,S1,1140315,A1,W,x,x,x,x\nP,1,AB1,N1,x,x,x,5\nD,01,S1,1140315,A1,W,x,x,x,x\nP,1,AB2,N2,x,x,x,5")).prescriptions.map
      (fun rx => (rx.items.map (fun it => it.drugCode), rx.items.length)) =
      [([gs "AB2"], 1)] ∧
    (ParseNHIClaimCSV (gs "D,01,R1,1140315,A1,x,x,x,x,x\nD,01,R1,1140315,A1,x,x,x,x,x")).prescriptions.map
      (fun rx => rx.prescriptionNo) = [gs "R1", gs "R1"] := by
  refine ⟨?_, by decide, ?_, by decide, ?_, by decide, by decide, by decide, by decide⟩
  · intro content
    exact ⟨_, (parseYaoshengCSV_rx_inv content).1,
      (parseYaoshengCSV_rx_inv content).2.1, (parseYaoshengCSV_rx_inv content).2.2⟩
  · intro content
    exact ⟨_, (parseDrMasterCSV_rx_inv content).1,
      (parseDrMasterCSV_rx_inv content).2.1, (parseDrMasterCSV_rx_inv content).2.2⟩
  · intro content
    exact ⟨_, (parseYaoshengDAT_rx_inv content).1,
      (parseYaoshengDAT_rx_inv content).2.1, (parseYaoshengDAT_rx_inv content).2.2⟩

/-- C4 counterexample: the Yaosheng XML decoder guards on the raw identifier
tag, so a whitespace-only identifier produces a patient whose stored
(trimmed) identifier is empty. -/
theorem patient_empty_id_cx :
    (parseYaoshengXML (.ok [{ YaoshengRec.empty with nationalID := gs " " }])).1.patients.map
      (fun p => p.nationalID) = [[]] := by decide

/-- C4 (amended): the delimited decoders (Yaosheng DAT and CSV, DrMaster TXT
and CSV, Vision CSV, generic CSV) only emit patients with a non-empty
(trimmed) national identifier; the structured-markup decoders (Yaosheng,
DrMaster, Vision and NHI XML) guard the raw identifier tag, so their
patients come from records with a non-empty raw tag whose stored identifier
is that tag trimmed — possibly empty. -/
theorem patient_id_amended :
    (∀ content : GoStr, ∀ p ∈ (parseYaoshengDAT content).patients,
      ¬ p.nationalID = []) ∧
    (∀ content : GoStr, ∀ p ∈ (parseYaoshengCSV content).patients,
      ¬ p.nationalID = []) ∧
    (∀ content : GoStr, ∀ p ∈ (parseDrMasterTXT content).patients,
      ¬ p.nationalID = []) ∧
    (∀ content : GoStr, ∀ p ∈ (parseGenericCSV content).1.patients,
      ¬ p.nationalID = []) ∧
    (∀ recs : List YaoshengRec, ∀ p ∈ (parseYaoshengXML (.ok recs)).1.patients,
      ∃ rec ∈ recs, ¬ rec.nationalID = [] ∧
        p.nationalID = goTrimSpace rec.nationalID) ∧
    (∀ recs : List DrMasterRec, ∀ p ∈ (parseDrMasterXML (.ok recs)).1.patients,
      ∃ rec ∈ recs, ¬ rec.mb1.a12 = [] ∧
        p.nationalID = goTrimSpace rec.mb1.a12) ∧
    (∀ recs : List NHIRecord, ∀ p ∈ (ParseNHIUploadXML (.ok recs)).1.patients,
      ∃ rec ∈ recs, ¬ rec.mb1.a12 = [] ∧
        p.nationalID = goTrimSpace rec.mb1.a12) ∧
    (∀ content : GoStr, ∀ p ∈ (parseDrMasterCSV content).patients,
      ¬ p.nationalID = []) ∧
    (∀ content : GoStr, ∀ p ∈ (parseVisionCSV content).patients,
      ¬ p.nationalID = []) ∧
    (∀ recs : List VisionRec, ∀ p ∈ (parseVisionXML (.ok recs)).1.patients,
      ∃ rec ∈ recs, ¬ rec.mb1.a12 = [] ∧
        p.nationalID = goTrimSpace rec.mb1.a12) := by
  refine ⟨?_, ?_, ?_, ?_, ?_, ?_, ?_, ?_, ?_, ?_⟩
  · intro content p hp
    rw [parseYaoshengDAT_patients] at hp
    obtain ⟨line, _, hsome⟩ := List.mem_filterMap.1 (patFold_values_mem _ p hp)
    exact ysDATPatient_id_ne hsome
  · intro content p hp
    rw [(parseYaoshengCSV_maps content).1] at hp
    obtain ⟨raw, _, hsome⟩ := List.mem_filterMap.1 (patFold_values_mem _ p hp)
    exact ysCSVRowPatient_id_ne hsome
  · intro content p hp
    rw [parseDrMasterTXT_patients] at hp
    obtain ⟨raw, _, hsome⟩ := List.mem_filterMap.1 (patFold_values_mem _ p hp)
    exact dmTXTPatient_id_ne hsome
  · intro content p hp
    cases hG : goLines content with
    | nil =>
      rw [parseGenericCSV_patients_nil hG] at hp
      simp at hp
    | cons headerLine rest =>
      rw [parseGenericCSV_patients_cons hG] at hp
      obtain ⟨line, _, hsome⟩ := List.mem_filterMap.1 (patFold_values_mem _ p hp)
      exact genCSVPatient_id_ne hsome
  · intro recs p hp
    rw [parseYaoshengXML_patients] at hp
    obtain ⟨rec, hrec, hsome⟩ := List.mem_filterMap.1 (patFold_values_mem _ p hp)
    exact ⟨rec, hrec, (ysXMLPatient_id hsome).1, (ysXMLPatient_id hsome).2⟩
  · intro recs p hp
    rw [parseDrMasterXML_patients] at hp
    obtain ⟨rec, hrec, hsome⟩ := List.mem_filterMap.1 (patFold_values_mem _ p hp)
    exact ⟨rec, hrec, (dmXMLPatient_id hsome).1, (dmXMLPatient_id hsome).2⟩
  · intro recs p hp
    rw [ParseNHIUploadXML_patients] at hp
    obtain ⟨rec, hrec, hsome⟩ := List.mem_filterMap.1 (patFold_values_mem _ p hp)
    exact ⟨rec, hrec, (nhiXMLPatient_id hsome).1, (nhiXMLPatient_id hsome).2⟩
  · intro content p hp
    rw [(parseDrMasterCSV_maps content).1] at hp
    obtain ⟨raw, _, hsome⟩ := List.mem_filterMap.1 (patFold_values_mem _ p hp)
    exact dmCSVRowPatient_id_ne hsome
  · intro content p hp
    rw [parseVisionCSV_patients] at hp
    obtain ⟨raw, _, hsome⟩ := List.mem_filterMap.1 (patFold_values_mem _ p hp)
    exact visionCSVPatient_id_ne hsome
  · intro recs p hp
    rw [parseVisionXML_patients] at hp
    obtain ⟨rec, hrec, hsome⟩ := List.mem_filterMap.1 (patFold_values_mem _ p hp)
    exact ⟨rec, hrec, (visionXMLPatient_id hsome).1, (visionXMLPatient_id hsome).2⟩

/-- C4 witness: a concrete DAT payload yields a patient with a non-empty
identifier. -/
theorem patient_id_amended_witness :
    ¬ ((parseYaoshengDAT (gs "2HOSP000001A123456789Wang                11401011140315AB1       Name")).patients.headI).nationalID = [] :=
  patient_id_amended.1
    (gs "2HOSP000001A123456789Wang                11401011140315AB1       Name")
    ((parseYaoshengDAT (gs "2HOSP000001A123456789Wang                11401011140315AB1       Name")).patients.headI)
    (by decide)

/-- C5 counterexample: the fatal unmarshal path of the Yaosheng XML decoder
returns `Failed = 0` together with `Success = false`, so `Failed = 0` does
not imply `Success`. -/
theorem success_flag_cx :
    (parseYaoshengXML (.error (gs "boom"))).1.failed = 0 ∧
    (parseYaoshengXML (.error (gs "boom"))).1.success = false := by decide

/-- C5 (amended): on every decode path of every decoder — Yaosheng DAT/CSV,
DrMaster TXT/CSV, Vision CSV, claim CSV, generic CSV with at least one line,
and the successful-unmarshal paths of the four XML decoders — the `Success`
flag holds exactly when the `Failed` counter is zero.  The exceptions, where
`Failed = 0` comes with `Success = false`, are the four fatal unmarshal
paths and the generic decoder on empty input. -/
theorem success_iff_no_failed_amended :
    (∀ content : GoStr,
      ((parseYaoshengDAT content).success = true ↔
        (parseYaoshengDAT content).failed = 0)) ∧
    (∀ content : GoStr,
      ((parseYaoshengCSV content).success = true ↔
        (parseYaoshengCSV content).failed = 0)) ∧
    (∀ content : GoStr,
      ((parseDrMasterTXT content).success = true ↔
        (parseDrMasterTXT content).failed = 0)) ∧
    (∀ content : GoStr,
      ((parseDrMasterCSV content).success = true ↔
        (parseDrMasterCSV content).failed = 0)) ∧
    (∀ content : GoStr,
      ((parseVisionCSV content).success = true ↔
        (parseVisionCSV content).failed = 0)) ∧
    (∀ content : GoStr,
      ((ParseNHIClaimCSV content).success = true ↔
        (ParseNHIClaimCSV content).failed = 0)) ∧
    (∀ content headerLine : GoStr, ∀ rest : List GoStr,
      goLines content = headerLine :: rest →
      ((parseGenericCSV content).1.success = true ↔
        (parseGenericCSV content).1.failed = 0)) ∧
    (∀ recs : List YaoshengRec,
      ((parseYaoshengXML (.ok recs)).1.success = true ↔
        (parseYaoshengXML (.ok recs)).1.failed = 0)) ∧
    (∀ recs : List DrMasterRec,
      ((parseDrMasterXML (.ok recs)).1.success = true ↔
        (parseDrMasterXML (.ok recs)).1.failed = 0)) ∧
    (∀ recs : List VisionRec,
      ((parseVisionXML (.ok recs)).1.success = true ↔
        (parseVisionXML (.ok recs)).1.failed = 0)) ∧
    (∀ recs : List NHIRecord,
      ((ParseNHIUploadXML (.ok recs)).1.success = true ↔
        (ParseNHIUploadXML (.ok recs)).1.failed = 0)) ∧
    (∀ e : GoStr,
      (parseYaoshengXML (.error e)).1.failed = 0 ∧
      (parseYaoshengXML (.error e)).1.success = false) ∧
    (∀ e : GoStr,
      (parseDrMasterXML (.error e)).1.failed = 0 ∧
      (parseDrMasterXML (.error e)).1.success = false) ∧
    (∀ e : GoStr,
      (parseVisionXML (.error e)).1.failed = 0 ∧
      (parseVisionXML (.error e)).1.success = false) ∧
    (∀ e : GoStr,
      (ParseNHIUploadXML (.error e)).1.failed = 0 ∧
      (ParseNHIUploadXML (.error e)).1.success = false) ∧
    ((parseGenericCSV []).1.failed = 0 ∧ (parseGenericCSV []).1.success = false) := by
  refine ⟨?_, ?_, ?_, ?_, ?_, ?_, ?_, ?_, ?_, ?_, ?_, ?_, ?_, ?_, ?_, by decide⟩
  · intro content
    simp [parseYaoshengDAT]
  · intro content
    simp [parseYaoshengCSV]
  · intro content
    simp [parseDrMasterTXT]
  · intro content
    simp [parseDrMasterCSV]
  · intro content
    simp [parseVisionCSV]
  · intro content
    simp [ParseNHIClaimCSV]
  · intro content headerLine rest hG
    simp [parseGenericCSV, hG]
  · intro recs
    simp [parseYaoshengXML]
  · intro recs
    simp [parseDrMasterXML]
  · intro recs
    simp [parseVisionXML]
  · intro recs
    simp [ParseNHIUploadXML]
  · intro e
    exact ⟨rfl, rfl⟩
  · intro e
    exact ⟨rfl, rfl⟩
  · intro e
    exact ⟨rfl, rfl⟩
  · intro e
    exact ⟨rfl, rfl⟩

/-- C6 counterexample: the DrMaster XML decoder ignores visit type 08 and
the 28-day rule — a record with visit type 08 and a 30-day item still gets
chronic-refill counter 0. -/
theorem chronic_rules_cx :
    (parseDrMasterXML (.ok [⟨[], [], [], [],
        { DrMasterMB1.empty with a12 := gs "A1", a23 := gs "08" },
        [{ DrMasterMB2.empty with p2 := gs "AB1", d27 := gs "30" }]⟩])).1.prescriptions.map
      (fun rx => (rx.visitType, rx.items.map (fun it => it.daysSupply), rx.chronicRefillNo)) =
      [(gs "08", [30], 0)] := by decide

/-- C6 (amended): the chronic-refill rules are applied per decoder.  The
Yaosheng and DrMaster CSV decoders apply rule (a) (visit type 08 on the
key's first row) and rule (c) (some same-key row holding an item with
days-supply ≥ 28), rule (c) never overriding a non-zero counter; the
DrMaster TXT decoder applies (a) and (c) at the value level; the Vision CSV
decoder applies only rule (a); the Yaosheng DAT and claim-CSV decoders apply
no rule at all (counter always 0); the four XML decoders (Yaosheng,
DrMaster, Vision, NHI) apply only rule (b), the `IC##` visit-sequence
ordinal; and the generic CSV decoder follows (a) and (c) on single rows
(concrete instances). -/
theorem chronic_refill_amended :
    (∀ content : GoStr, ∀ rx ∈ (parseYaoshengCSV content).prescriptions,
      ∃ k r0,
        (ysCSVRows content).find? (ysRowHasKey (ysCSVColMap content) k) = some r0 ∧
        rx.chronicRefillNo =
          (if getFieldByKey r0 (ysCSVColMap content) (gs "visit_type") = gs "08" ∨
              ((ysCSVRows content).any (fun f =>
                ysRowHasKey (ysCSVColMap content) k f &&
                  ysRowChronicSignal (ysCSVColMap content) f)) = true
           then 1 else 0)) ∧
    (∀ content : GoStr, ∀ rx ∈ (parseDrMasterCSV content).prescriptions,
      ∃ k r0,
        (dmCSVRows content).find? (ysRowHasKey (dmCSVColMap content) k) = some r0 ∧
        rx.chronicRefillNo =
          (if getFieldByKey r0 (dmCSVColMap content) (gs "visit_type") = gs "08" ∨
              ((dmCSVRows content).any (fun f =>
                ysRowHasKey (dmCSVColMap content) k f &&
                  dmRowChronicSignal (dmCSVColMap content) f)) = true
           then 1 else 0)) ∧
    (∀ content : GoStr, ∀ rx ∈ (parseDrMasterTXT content).prescriptions,
      chronicAC rx) ∧
    (∀ content : GoStr, ∀ rx ∈ (parseYaoshengDAT content).prescriptions,
      rx.chronicRefillNo = 0) ∧
    (∀ content : GoStr, ∀ rx ∈ (parseVisionCSV content).prescriptions,
      chronicA rx) ∧
    (∀ content : GoStr, ∀ rx ∈ (ParseNHIClaimCSV content).prescriptions,
      rx.chronicRefillNo = 0) ∧
    (∀ recs : List YaoshengRec, ∀ rx ∈ (parseYaoshengXML (.ok recs)).1.prescriptions,
      ∃ rec ∈ recs, rx = ysXMLRx rec ∧
        rx.chronicRefillNo = icRefill (goTrimSpace rec.visitSeq)) ∧
    (∀ recs : List DrMasterRec, ∀ rx ∈ (parseDrMasterXML (.ok recs)).1.prescriptions,
      ∃ rec ∈ recs, rx = dmXMLRx rec ∧
        rx.chronicRefillNo = icRefill (goTrimSpace rec.mb1.a18)) ∧
    (∀ recs : List VisionRec, ∀ rx ∈ (parseVisionXML (.ok recs)).1.prescriptions,
      ∃ rec ∈ recs, rx = visionXMLRx rec ∧
        rx.chronicRefillNo = icRefill (goTrimSpace rec.mb1.a18)) ∧
    (∀ recs : List NHIRecord, ∀ rx ∈ (ParseNHIUploadXML (.ok recs)).1.prescriptions,
      ∃ rec ∈ recs, rx = extractPrescriptionFromRecord rec ∧
        rx.chronicRefillNo = icRefill (goTrimSpace rec.mb1.a18)) ∧
    (parseYaoshengCSV (gs "A1,W,0700101,1140315,AB1,N1,5,30,08")).prescriptions.map
      (fun rx => rx.chronicRefillNo) = [1] ∧
    (parseYaoshengCSV (gs "A1,W,0700101,1140315,AB1,N1,5,30,01")).prescriptions.map
      (fun rx => rx.chronicRefillNo) = [1] ∧
    (parseYaoshengCSV (gs "A1,W,0700101,1140315,AB1,N1,5,20,01")).prescriptions.map
      (fun rx => rx.chronicRefillNo) = [0] ∧
    (parseGenericCSV (gs "id,name,code,days,type,rx_no,date\nA1,W,AB1,5,08,R1,1140101")).1.prescriptions.map
      (fun rx => rx.chronicRefillNo) = [1] ∧
    (parseGenericCSV (gs "id,name,code,days,type,rx_no,date\nA1,W,AB1,30,01,R1,1140101")).1.prescriptions.map
      (fun rx => rx.chronicRefillNo) = [1] ∧
    (parseGenericCSV (gs "id,name,code,days,type,rx_no,date\nA1,W,AB1,20,01,R1,1140101")).1.prescriptions.map
      (fun rx => rx.chronicRefillNo) = [0] := by
  refine ⟨?_, ?_, ?_, ?_, ?_, ?_, ?_, ?_, ?_, ?_,
    by decide, by decide, by decide, by decide, by decide, by decide⟩
  · intro content rx hrx
    have hinv := parseYaoshengCSV_rx_inv content
    rw [hinv.1] at hrx
    obtain ⟨⟨k, rx0⟩, hmem, hsnd⟩ := List.mem_map.1 hrx
    simp only at hsnd
    subst hsnd
    have hl : lookupA ((ysCSVRows content).foldl (ysRxStep (ysCSVColMap content)) []) k =
        some rx0 := lookupA_of_mem_nodup hinv.2.1 hmem
    have hlk := hinv.2.2 k
    rw [hl] at hlk
    cases hf : (ysCSVRows content).find? (ysRowHasKey (ysCSVColMap content) k) with
    | none =>
      rw [hf] at hlk
      exact absurd hlk (by simp)
    | some r0 =>
      rw [hf] at hlk
      simp only at hlk
      have hval : rx0 = ysRxVal (ysCSVColMap content) k r0 (ysCSVRows content) :=
        Option.some.inj hlk
      refine ⟨k, r0, hf, ?_⟩
      rw [hval]
      have hproj : (ysRxVal (ysCSVColMap content) k r0 (ysCSVRows content)).chronicRefillNo =
          ysChronicFor (ysCSVColMap content) k r0 (ysCSVRows content) := rfl
      rw [hproj, ysChronicFor_eq]
  · intro content rx hrx
    have hinv := parseDrMasterCSV_rx_inv content
    rw [hinv.1] at hrx
    obtain ⟨⟨k, rx0⟩, hmem, hsnd⟩ := List.mem_map.1 hrx
    simp only at hsnd
    subst hsnd
    have hl : lookupA ((dmCSVRows content).foldl (dmRxStep (dmCSVColMap content)) []) k =
        some rx0 := lookupA_of_mem_nodup hinv.2.1 hmem
    have hlk := hinv.2.2 k
    rw [hl] at hlk
    cases hf : (dmCSVRows content).find? (ysRowHasKey (dmCSVColMap content) k) with
    | none =>
      rw [hf] at hlk
      exact absurd hlk (by simp)
    | some r0 =>
      rw [hf] at hlk
      simp only at hlk
      have hval : rx0 = dmRxVal (dmCSVColMap content) k r0 (dmCSVRows content) :=
        Option.some.inj hlk
      refine ⟨k, r0, hf, ?_⟩
      rw [hval]
      have hproj : (dmRxVal (dmCSVColMap content) k r0 (dmCSVRows content)).chronicRefillNo =
          dmChronicFor (dmCSVColMap content) k r0 (dmCSVRows content) := rfl
      rw [hproj, dmChronicFor_eq]
  · intro content rx hrx
    exact parseDrMasterTXT_chronic content rx hrx
  · intro content rx hrx
    have hinv := parseYaoshengDAT_rx_inv content
    rw [hinv.1] at hrx
    obtain ⟨⟨k, rx0⟩, hmem, hsnd⟩ := List.mem_map.1 hrx
    simp only at hsnd
    subst hsnd
    have hl : lookupA ((goLines content).foldl datRxStep []) k = some rx0 :=
      lookupA_of_mem_nodup hinv.2.1 hmem
    have hlk := hinv.2.2 k
    rw [hl] at hlk
    cases hf : (goLines content).find? (datRowHasKey k) with
    | none =>
      rw [hf] at hlk
      exact absurd hlk (by simp)
    | some l0 =>
      rw [hf] at hlk
      simp only at hlk
      have hval : rx0 = datRxVal k l0 (goLines content) := Option.some.inj hlk
      rw [hval]
      exact datRxVal_chronic k l0 (goLines content)
  · intro content rx hrx
    exact parseVisionCSV_chronic content rx hrx
  · intro content rx hrx
    exact ParseNHIClaimCSV_chronic content rx hrx
  · intro recs rx hrx
    rw [parseYaoshengXML_prescriptions] at hrx
    obtain ⟨rec, hrec, hsome⟩ := List.mem_filterMap.1 hrx
    have hval : rx = ysXMLRx rec := by
      unfold ysXMLRxRow at hsome
      split at hsome
      · exact (Option.some.inj hsome).symm
      · exact absurd hsome (by simp)
    refine ⟨rec, hrec, hval, ?_⟩
    rw [hval, ysXMLRx_chronic]
  · intro recs rx hrx
    rw [parseDrMasterXML_prescriptions] at hrx
    obtain ⟨rec, hrec, hsome⟩ := List.mem_filterMap.1 hrx
    have hval : rx = dmXMLRx rec := by
      unfold dmXMLRxRow at hsome
      split at hsome
      · exact (Option.some.inj hsome).symm
      · exact absurd hsome (by simp)
    refine ⟨rec, hrec, hval, ?_⟩
    rw [hval, dmXMLRx_chronic]
  · intro recs rx hrx
    rw [parseVisionXML_prescriptions] at hrx
    obtain ⟨rec, hrec, hsome⟩ := List.mem_filterMap.1 hrx
    have hval : rx = visionXMLRx rec := by
      unfold visionXMLRxRow at hsome
      split at hsome
      · exact (Option.some.inj hsome).symm
      · exact absurd hsome (by simp)
    refine ⟨rec, hrec, hval, ?_⟩
    rw [hval, visionXMLRx_chronic]
  · intro recs rx hrx
    rw [ParseNHIUploadXML_prescriptions] at hrx
    obtain ⟨rec, hrec, hval⟩ := List.mem_map.1 hrx
    refine ⟨rec, hrec, hval.symm, ?_⟩
    rw [← hval]
    exact extractPrescriptionFromRecord_chronic rec

/-- C6 witness: the chronic-counter characterization at a concrete 30-day
Yaosheng CSV row. -/
theorem chronic_refill_witness :
    ∃ k r0,
      (ysCSVRows (gs "A1,W,0700101,1140315,AB1,N1,5,30,01")).find?
        (ysRowHasKey (ysCSVColMap (gs "A1,W,0700101,1140315,AB1,N1,5,30,01")) k) =
          some r0 ∧
      ((parseYaoshengCSV (gs "A1,W,0700101,1140315,AB1,N1,5,30,01")).prescriptions.headI).chronicRefillNo =
        (if getFieldByKey r0 (ysCSVColMap (gs "A1,W,0700101,1140315,AB1,N1,5,30,01"))
              (gs "visit_type") = gs "08" ∨
            ((ysCSVRows (gs "A1,W,0700101,1140315,AB1,N1,5,30,01")).any (fun f =>
              ysRowHasKey (ysCSVColMap (gs "A1,W,0700101,1140315,AB1,N1,5,30,01")) k f &&
                ysRowChronicSignal (ysCSVColMap (gs "A1,W,0700101,1140315,AB1,N1,5,30,01")) f)) = true
         then 1 else 0) :=
  chronic_refill_amended.1 (gs "A1,W,0700101,1140315,AB1,N1,5,30,01") _ (by decide)

/-- C7 counterexample: content matching no known signature makes the
auto-detecting NHI entry point return a nil result together with a non-nil
error, a second error path besides the fatal markup-unmarshal case. -/
theorem parse_error_cx :
    ParseHISFile (fun _ => .ok []) (gs "unrecognized payload") =
      (none, some (gs "無法識別的檔案格式")) := by decide

/-- C7 (amended): across all entry points — `ParseHISFile`, the per-vendor
`ParseYaoshengFile`, `ParseDrMasterFile`, `ParseVisionFile`, and the
dispatcher `ParseHISFileByVendor` / `ParseHISFileAuto` — a non-nil error is
returned in exactly three situations: markup content whose root-level
unmarshal fails (with a populated result carrying type and vendor tags and
empty collections), content matching no known signature in `ParseHISFile`
(with a nil result and a fixed message), and empty input reaching the
generic CSV branch (with a populated empty result and a fixed empty-file
message).  Every other failure is recorded inside the returned result. -/
theorem parse_error_cases_amended (umN : GoStr → Except GoStr (List NHIRecord))
    (umY : GoStr → Except GoStr (List YaoshengRec))
    (umD : GoStr → Except GoStr (List DrMasterRec))
    (umV : GoStr → Except GoStr (List VisionRec))
    (content filename : GoStr) :
    (∀ e, (goContains content (gs "<?xml") || goContains content (gs "<RECS>") ||
        goContains content (gs "<REC>")) = true → umN content = .error e →
      ParseHISFile umN content =
        (some { success := false, sourceType := gs "xml", sourceVendor := gs "nhi",
                total := 0, imported := 0, skipped := 0, failed := 0,
                errors := [gs "XML 解析失敗: " ++ e], patients := [],
                prescriptions := [], drugUsages := [] }, some e)) ∧
    ((goContains content (gs "<?xml") || goContains content (gs "<RECS>") ||
        goContains content (gs "<REC>")) = false →
      (goHasPrefix (goTrimSpace content) (gs "t,") ||
        goHasPrefix (goTrimSpace content) (gs "T,") ||
        goHasPrefix (goTrimSpace content) (gs "30,")) = true →
      (ParseHISFile umN content).2 = none) ∧
    ((goContains content (gs "<?xml") || goContains content (gs "<RECS>") ||
        goContains content (gs "<REC>")) = false →
      (goHasPrefix (goTrimSpace content) (gs "t,") ||
        goHasPrefix (goTrimSpace content) (gs "T,") ||
        goHasPrefix (goTrimSpace content) (gs "30,")) = false →
      (goContains content (gs ",") || goContains content (gs "\t")) = true →
      (ParseHISFile umN content).2 = none) ∧
    ((goContains content (gs "<?xml") || goContains content (gs "<RECS>") ||
        goContains content (gs "<REC>")) = false →
      (goHasPrefix (goTrimSpace content) (gs "t,") ||
        goHasPrefix (goTrimSpace content) (gs "T,") ||
        goHasPrefix (goTrimSpace content) (gs "30,")) = false →
      (goContains content (gs ",") || goContains content (gs "\t")) = false →
      ParseHISFile umN content = (none, some (gs "無法識別的檔案格式"))) ∧
    (∀ e, (goHasSuffix (goToLower filename) (gs ".xml") ||
        goContains content (gs "<?xml") || goContains content (gs "<RECS>")) = true →
      umY content = .error e →
      ParseYaoshengFile umY content filename =
        ({ success := false, sourceType := gs "xml", sourceVendor := gs "yaosheng",
           total := 0, imported := 0, skipped := 0, failed := 0,
           errors := [gs "XML 解析失敗: " ++ e], patients := [],
           prescriptions := [], drugUsages := [] }, some e)) ∧
    ((goHasSuffix (goToLower filename) (gs ".xml") ||
        goContains content (gs "<?xml") || goContains content (gs "<RECS>")) = false →
      (ParseYaoshengFile umY content filename).2 = none) ∧
    (∀ e, (goHasSuffix (goToLower filename) (gs ".xml") ||
        goContains content (gs "<?xml") || goContains content (gs "<RECS>")) = true →
      umD content = .error e →
      ParseDrMasterFile umD content filename =
        ({ success := false, sourceType := gs "xml", sourceVendor := gs "drmaster",
           total := 0, imported := 0, skipped := 0, failed := 0,
           errors := [gs "XML 解析失敗: " ++ e], patients := [],
           prescriptions := [], drugUsages := [] }, some e)) ∧
    ((goHasSuffix (goToLower filename) (gs ".xml") ||
        goContains content (gs "<?xml") || goContains content (gs "<RECS>")) = false →
      (ParseDrMasterFile umD content filename).2 = none) ∧
    (∀ e, (goHasSuffix (goToLower filename) (gs ".xml") ||
        goContains content (gs "<?xml") || goContains content (gs "<RECS>")) = true →
      umV content = .error e →
      ParseVisionFile umV content filename =
        ({ success := false, sourceType := gs "xml", sourceVendor := gs "vision",
           total := 0, imported := 0, skipped := 0, failed := 0,
           errors := [gs "XML 解析失敗: " ++ e], patients := [],
           prescriptions := [], drugUsages := [] }, some e)) ∧
    ((goHasSuffix (goToLower filename) (gs ".xml") ||
        goContains content (gs "<?xml") || goContains content (gs "<RECS>")) = false →
      (ParseVisionFile umV content filename).2 = none) ∧
    (ParseHISFileByVendor umN umY umD umV content filename .nhi =
      ParseHISFile umN content) ∧
    (ParseHISFileByVendor umN umY umD umV content filename .yaosheng =
      (some (ParseYaoshengFile umY content filename).1,
        (ParseYaoshengFile umY content filename).2)) ∧
    (ParseHISFileByVendor umN umY umD umV content filename .drmaster =
      (some (ParseDrMasterFile umD content filename).1,
        (ParseDrMasterFile umD content filename).2)) ∧
    (ParseHISFileByVendor umN umY umD umV content filename .vision =
      (some (ParseVisionFile umV content filename).1,
        (ParseVisionFile umV content filename).2)) ∧
    (ParseHISFileByVendor umN umY umD umV content filename .generic =
      (some (parseGenericCSV content).1, (parseGenericCSV content).2)) ∧
    (¬ content = [] →
      (ParseHISFileByVendor umN umY umD umV content filename .generic).2 = none) ∧
    (content = [] →
      ParseHISFileByVendor umN umY umD umV content filename .generic =
        (some { success := false, sourceType := gs "csv", sourceVendor := gs "generic",
                total := 0, imported := 0, skipped := 0, failed := 0, errors := [],
                patients := [], prescriptions := [], drugUsages := [] },
         some (gs "檔案為空"))) ∧
    (ParseHISFileAuto umN umY umD umV content filename =
      ParseHISFileByVendor umN umY umD umV content filename
        (detectVendor content filename)) := by
  refine ⟨?_, ?_, ?_, ?_, ?_, ?_, ?_, ?_, ?_, ?_, rfl, rfl, rfl, rfl, rfl, ?_, ?_, ?_⟩
  · intro e hsig herr
    simp [ParseHISFile, hsig, herr, ParseNHIUploadXML]
  · intro h1 h2
    simp [ParseHISFile, h1, h2]
  · intro h1 h2 h3
    have hne : ¬ content = [] := by
      have h3' := h3
      rw [Bool.or_eq_true] at h3'
      rcases h3' with hc | hc
      · exact goContains_ne_nil (by decide) hc
      · exact goContains_ne_nil (by decide) hc
    simp only [ParseHISFile, h1, h2, h3, Bool.false_eq_true, if_false, if_true,
      reduceIte]
    exact parseGenericCSV_no_error hne
  · intro h1 h2 h3
    simp [ParseHISFile, h1, h2, h3]
  · intro e hsig herr
    simp [ParseYaoshengFile, hsig, herr, parseYaoshengXML]
  · intro hsig
    simp only [ParseYaoshengFile, hsig, Bool.false_eq_true, if_false, reduceIte]
    split <;> rfl
  · intro e hsig herr
    simp [ParseDrMasterFile, hsig, herr, parseDrMasterXML]
  · intro hsig
    simp only [ParseDrMasterFile, hsig, Bool.false_eq_true, if_false, reduceIte]
    split <;> rfl
  · intro e hsig herr
    simp [ParseVisionFile, hsig, herr, parseVisionXML]
  · intro hsig
    simp only [ParseVisionFile, hsig, Bool.false_eq_true, if_false, reduceIte]
  · intro hne
    exact parseGenericCSV_no_error hne
  · intro hc
    subst hc
    rfl
  · exact ParseHISFileAuto_eq umN umY umD umV content filename

/-- C7 witness: the fatal-unmarshal and unrecognized-content cases at
concrete inputs. -/
theorem parse_error_witness :
    ParseHISFile (fun _ => .error (gs "bad")) (gs "<?xml") =
      (some { success := false, sourceType := gs "xml", sourceVendor := gs "nhi",
              total := 0, imported := 0, skipped := 0, failed := 0,
              errors := [gs "XML 解析失敗: " ++ gs "bad"], patients := [],
              prescriptions := [], drugUsages := [] }, some (gs "bad")) ∧
    ParseHISFile (fun _ => .ok []) (gs "hello") =
      (none, some (gs "無法識別的檔案格式")) :=
  ⟨(parse_error_cases_amended (fun _ => .error (gs "bad")) (fun _ => .ok [])
      (fun _ => .ok []) (fun _ => .ok []) (gs "<?xml") (gs "f.txt")).1
      (gs "bad") (by decide) rfl,
   (parse_error_cases_amended (fun _ => .ok []) (fun _ => .ok [])
      (fun _ => .ok []) (fun _ => .ok []) (gs "hello") (gs "f.txt")).2.2.2.1
      (by decide) (by decide) (by decide)⟩

/-- C8 counterexample: markup content whose only vendor tag is `d29` or
`d37` is routed to the standard-authority vendor, not to the pipe-delimited
vendor. -/
theorem detectVendor_d29_cx :
    detectVendor (gs "<?xml<d29></d29>") (gs "f.txt") = .nhi ∧
    detectVendor (gs "<?xml<d37></d37>") (gs "f.txt") = .nhi := by decide

/-- C8 (amended): once no filename rule and no pipe rule fires and the
content matches the markup signature, detection routes to the pipe-delimited
vendor exactly when a `d23` or `d24` tag is present, then to the vendor
owning `d22`, and otherwise defaults to the standard authority; `d29` and
`d37` are not consulted. -/
theorem detectVendor_markup_amended (content filename : GoStr)
    (h1 : goContains (goToLower filename) (gs "yaosheng") = false)
    (h2 : goContains (goToLower filename) (gs "耀聖") = false)
    (h3 : goContains (goToLower filename) (gs "ys_") = false)
    (h4 : goContains (goToLower filename) (gs "vision") = false)
    (h5 : goContains (goToLower filename) (gs "展望") = false)
    (h6 : goContains (goToLower filename) (gs "vs_") = false)
    (h7 : goContains (goToLower filename) (gs "drmaster") = false)
    (h8 : goContains (goToLower filename) (gs "看診大師") = false)
    (h9 : goContains (goToLower filename) (gs "dm_") = false)
    (h10 : goHasSuffix (goToLower filename) (gs ".dat") = false)
    (h11 : (goContains content (gs "|") && !goContains content (gs ",")) = false)
    (h12 : (goContains content (gs "<?xml") || goContains content (gs "<RECS>")) = true) :
    detectVendor content filename =
      (if goContains content (gs "<d23>") || goContains content (gs "<d24>") then
        .drmaster
       else if goContains content (gs "<d22>") then .vision
       else .nhi) := by
  simp only [detectVendor, h1, h2, h3, h4, h5, h6, h7, h8, h9, h10, h11, h12,
    Bool.or_false, Bool.false_or, Bool.or_self, Bool.false_eq_true, if_false,
    if_true, reduceIte]

/-- C8 witness: content carrying `d29` and `d22` routes to the `d22` vendor
under the amended rule. -/
theorem detectVendor_markup_witness :
    detectVendor (gs "<?xml<d29><d22>") (gs "f.txt") =
      (if goContains (gs "<?xml<d29><d22>") (gs "<d23>") ||
          goContains (gs "<?xml<d29><d22>") (gs "<d24>") then .drmaster
       else if goContains (gs "<?xml<d29><d22>") (gs "<d22>") then .vision
       else .nhi) :=
  detectVendor_markup_amended (gs "<?xml<d29><d22>") (gs "f.txt")
    (by decide) (by decide) (by decide) (by decide) (by decide) (by decide)
    (by decide) (by decide) (by decide) (by decide) (by decide) (by decide)

/-- C9 counterexample: with 19 valid sequences and 1 invalid byte the
invalid count is below one tenth of the valid count taken rationally
(1 < 1.9), yet the detector still classifies the buffer as legacy-encoded,
because the ratio test uses truncating integer division (19 / 10 = 1). -/
theorem detectBig5_tenth_cx :
    utf8Scan ((List.replicate 19 [0xC2, 0xA1]).flatten ++ [0xFF]) = (19, 1) ∧
    (1 : ℚ) < (19 : ℚ) / 10 ∧
    detectBig5 ((List.replicate 19 [0xC2, 0xA1]).flatten ++ [0xFF]) = true := by
  refine ⟨by decide, by norm_num, by decide⟩

/-- C9 (amended): the buffer is classified as legacy double-byte exactly
when the UTF-8 test fails — valid count above 5 and increments of the
invalid count staying within the truncating tenth, `(invalid + 1) * 10 ≤
valid` — and more than 5 legacy lead/trail pairs are found; otherwise it is
treated as UTF-8. -/
theorem detectBig5_amended (content : GoBytes) :
    detectBig5 content = true ↔
      (¬ (5 < (utf8Scan content).1 ∧
          ((utf8Scan content).2 + 1) * 10 ≤ (utf8Scan content).1) ∧
        5 < big5Scan content) := by
  have hdiv : (utf8Scan content).2 < (utf8Scan content).1 / 10 ↔
      ((utf8Scan content).2 + 1) * 10 ≤ (utf8Scan content).1 := by
    rw [Nat.lt_iff_add_one_le, Nat.le_div_iff_mul_le (by norm_num)]
  unfold detectBig5
  by_cases hutf : 5 < (utf8Scan content).1 ∧
      (utf8Scan content).2 < (utf8Scan content).1 / 10
  · rw [if_pos hutf]
    constructor
    · intro hfalse
      exact absurd hfalse (by simp)
    · rintro ⟨hnot, _⟩
      exact absurd ⟨hutf.1, hdiv.1 hutf.2⟩ hnot
  · rw [if_neg hutf]
    simp only [decide_eq_true_eq]
    constructor
    · intro h5
      refine ⟨?_, h5⟩
      rintro ⟨ha, hb⟩
      exact hutf ⟨ha, hdiv.2 hb⟩
    · exact fun h => h.2

/-- C10: `safeSubstring` is total: indices are clamped into `[0, len]`, a
clamped start at or beyond the clamped end yields the empty string, and the
result never exceeds the source — so fixed-offset slicing of short lines
cannot go out of range. -/
theorem safeSubstring_claim (s : GoStr) (start stop : Int) :
    safeSubstring s start stop =
      (s.drop (max start 0).toNat).take
        ((min stop (s.length : Int) - max start 0).toNat) ∧
    (min stop (s.length : Int) ≤ max start 0 → safeSubstring s start stop = []) ∧
    (safeSubstring s start stop).length ≤ s.length := by
  have hstart : (if start < 0 then 0 else start) = max start 0 := by
    by_cases h : start < 0 <;> simp [h] <;> omega
  have hstop : (if stop > (s.length : Int) then (s.length : Int) else stop) =
      min stop (s.length : Int) := by
    by_cases h : stop > (s.length : Int) <;> simp [h] <;> omega
  have hEq : safeSubstring s start stop =
      (s.drop (max start 0).toNat).take
        ((min stop (s.length : Int) - max start 0).toNat) := by
    simp only [safeSubstring, hstart, hstop]
    split
    case isTrue hge =>
      have h0 : (min stop (s.length : Int) - max start 0).toNat = 0 := by omega
      rw [h0]
      simp
    case isFalse hlt => rfl
  refine ⟨hEq, ?_, ?_⟩
  · intro hle
    rw [hEq]
    have h0 : (min stop (s.length : Int) - max start 0).toNat = 0 := by omega
    rw [h0]
    simp
  · rw [hEq, List.length_take, List.length_drop]
    omega

/-- C10 witness: clamped start at or past the clamped end on a concrete
call. -/
theorem safeSubstring_claim_witness :
    safeSubstring (gs "hello") 4 2 = [] :=
  (safeSubstring_claim (gs "hello") 4 2).2.1 (by decide)

end GoTwHis
